import Mathlib

/-!
# User session token service

A shallow embedding of `pkg/services/auth/auth_token.go`.

* Time is an integer number of nanoseconds since the Unix epoch, as in Go's
  `time.Time`; `Unix` is the floor to whole seconds and a `time.Duration` is an
  integer number of nanoseconds.  The product of the rotation interval with
  `time.Minute` is computed in `int64` and wraps (`wrapInt64`); instants and
  second stamps are taken within the range on which `time.Unix`, `Time.Add`
  and `Time.Unix` are exact.
* `getTime` is an argument `now` of every operation: all calls of `getTime`
  during one operation see the same instant.
* The table `user_auth_token` is a list of rows in insertion order together
  with the next auto-increment id.  A statement fails where the store or the
  mapper refuses it: an `Update` that has no column to write, a `Delete`
  without condition, a statement with more bound values than the store
  admits.  Failures of the connection are not modelled.
* `Get` has no `ORDER BY`: which of several matching rows it returns is the
  store's choice, a parameter of the service.
* The random source is a function from the number of draws made so far to the
  result of `util.RandomHex(16)`; the state counts the draws.
* SHA-256 and `net.IP.String` are parameters of the service.
-/

namespace auth

/-! ## Time -/

/-- Nanoseconds in `time.Second`. -/
def Second : Int := 1000000000

/-- Nanoseconds in `time.Minute`. -/
def Minute : Int := 60 * Second

/-- Constant `cacheTTL = 30 * time.Second`. -/
def cacheTTL : Int := 30 * Second

/-- Constant `urgentRotateTime = 1 * time.Minute`. -/
def urgentRotateTime : Int := 1 * Minute

/-- Method `Time.Unix()`: whole seconds since the epoch (floor). -/
def Unix (t : Int) : Int := t / Second

/-- Function `time.Unix(sec, 0)`: the instant `sec` seconds after the epoch. -/
def timeUnix (sec : Int) : Int := sec * Second

/-- The value of an integer expression computed in Go's `int64`: the
two's-complement wrap to 64 bits. -/
def wrapInt64 (x : Int) : Int := (x + 2 ^ 63) % 2 ^ 64 - 2 ^ 63

/-! ## Data model -/

/-- Modelled from the spec: the struct `userAuthToken` (declared in the
package's `model.go`, absent here); the columns of section 3.1 plus the
transient `UnhashedToken`, which is not a column. -/
structure userAuthToken where
  Id : Int
  UserId : Int
  AuthToken : String
  PrevAuthToken : String
  UserAgent : String
  ClientIp : String
  AuthTokenSeen : Bool
  SeenAt : Int
  RotatedAt : Int
  CreatedAt : Int
  UpdatedAt : Int
  RevokedAt : Int
  UnhashedToken : String
deriving DecidableEq, Repr

/-- Modelled from the spec: the struct `models.UserToken` (section 3.2), the
flattened view returned to callers. -/
structure UserToken where
  Id : Int
  UserId : Int
  AuthToken : String
  PrevAuthToken : String
  UserAgent : String
  ClientIp : String
  AuthTokenSeen : Bool
  SeenAt : Int
  RotatedAt : Int
  CreatedAt : Int
  UpdatedAt : Int
  RevokedAt : Int
  UnhashedToken : String
deriving DecidableEq, Repr

/-- Modelled from the spec: the method `toUserToken` (in `model.go`), which
copies every field into the caller-facing view.  Its only error is a nil
receiver, which no call site of this file can produce. -/
def userAuthToken.toUserToken (uat : userAuthToken) : UserToken :=
  { Id := uat.Id, UserId := uat.UserId, AuthToken := uat.AuthToken,
    PrevAuthToken := uat.PrevAuthToken, UserAgent := uat.UserAgent,
    ClientIp := uat.ClientIp, AuthTokenSeen := uat.AuthTokenSeen,
    SeenAt := uat.SeenAt, RotatedAt := uat.RotatedAt, CreatedAt := uat.CreatedAt,
    UpdatedAt := uat.UpdatedAt, RevokedAt := uat.RevokedAt,
    UnhashedToken := uat.UnhashedToken }

/-- Modelled from the spec: the function `userAuthTokenFromUserToken` (in
`model.go`), the inverse copy; it is only called on a non-nil token. -/
def userAuthTokenFromUserToken (ut : UserToken) : userAuthToken :=
  { Id := ut.Id, UserId := ut.UserId, AuthToken := ut.AuthToken,
    PrevAuthToken := ut.PrevAuthToken, UserAgent := ut.UserAgent,
    ClientIp := ut.ClientIp, AuthTokenSeen := ut.AuthTokenSeen,
    SeenAt := ut.SeenAt, RotatedAt := ut.RotatedAt, CreatedAt := ut.CreatedAt,
    UpdatedAt := ut.UpdatedAt, RevokedAt := ut.RevokedAt,
    UnhashedToken := ut.UnhashedToken }

/-- The part of `user.User` that the service reads. -/
structure User where
  ID : Int
deriving DecidableEq, Repr

/-- Errors returned by the service. -/
inductive Error where
  | ErrUserTokenNotFound
  | TokenRevokedError (UserID TokenID : Int)
  | TokenExpiredError (UserID TokenID : Int)
  | ErrRandom (msg : String)
  | ErrNeedDeletedCond
  | ErrStore (msg : String)
deriving DecidableEq, Repr

/-- The fields of `setting.Cfg` that the service reads; the two lifetimes are
durations in nanoseconds. -/
structure Cfg where
  LoginMaxLifetime : Int
  LoginMaxInactiveLifetime : Int
  TokenRotationIntervalMinutes : Int

/-- The service value: its configuration and the collaborators that are not
part of this package. -/
structure UserAuthTokenService where
  /-- Field `Cfg`. -/
  cfg : Cfg
  /-- Global `setting.SecretKey`. -/
  SecretKey : String
  /-- Hex rendering of `sha256.Sum256`. -/
  sha256Hex : String → String
  /-- Result of the k-th call of `util.RandomHex(16)`. -/
  RandomHex : Nat → Except Error String
  /-- Method `net.IP.String`. -/
  ipString : List Nat → String
  /-- The store behind `SQLStore`: the position, among the rows matching a
  `Get`, of the row it returns (taken modulo their number). -/
  getChoice : List userAuthToken → Nat
  /-- The store behind `SQLStore`: the largest number of bound values it
  admits in one statement. -/
  maxBoundParams : Nat

/-- Type `cachedToken`. -/
structure cachedToken where
  hashedToken : String
  userAuthtoken : userAuthToken
deriving DecidableEq, Repr

/-- One entry of the local cache: key, value and expiry instant. -/
structure CacheItem where
  key : String
  value : cachedToken
  expiration : Int
deriving DecidableEq, Repr

/-- The mutable world of the service: the table, its auto-increment counter,
the process-local cache and the number of random draws made. -/
structure State where
  rows : List userAuthToken
  nextId : Int
  cache : List CacheItem
  draws : Nat
deriving DecidableEq, Repr

/-- The empty store with a cold cache. -/
def State.empty : State := { rows := [], nextId := 1, cache := [], draws := 0 }

/-! ## Store and cache primitives -/

/-- The columns of a bean: the transient `UnhashedToken` is not persisted. -/
def columns (b : userAuthToken) : userAuthToken := { b with UnhashedToken := "" }

/-- Statement `Insert(&bean)`: the store assigns the next id, appends the row
and writes the id back into the bean. -/
def dbInsert (st : State) (bean : userAuthToken) : State × userAuthToken :=
  ({ st with rows := st.rows ++ [columns { bean with Id := st.nextId }],
             nextId := st.nextId + 1 },
   { bean with Id := st.nextId })

/-- Statement `Where(cond).AllCols().Update(&bean)`: every column except the
auto-increment key of each matching row is overwritten with the bean's value,
zero values included; returns the number of matching rows. -/
def dbUpdateAllCols (st : State) (cond : userAuthToken → Bool) (bean : userAuthToken) :
    State × Int :=
  ({ st with
      rows := st.rows.map (fun r => if cond r then columns { bean with Id := r.Id } else r) },
   ((st.rows.filter cond).length : Int))

/-- Effect of `Update(bean)` without `AllCols` on one row: only the bean's
non-zero integer and non-empty string columns are written; boolean columns
and the auto-increment key are left alone. -/
def updateNonZero (bean r : userAuthToken) : userAuthToken :=
  { r with
    UserId := if bean.UserId = 0 then r.UserId else bean.UserId,
    AuthToken := if bean.AuthToken = "" then r.AuthToken else bean.AuthToken,
    PrevAuthToken := if bean.PrevAuthToken = "" then r.PrevAuthToken else bean.PrevAuthToken,
    UserAgent := if bean.UserAgent = "" then r.UserAgent else bean.UserAgent,
    ClientIp := if bean.ClientIp = "" then r.ClientIp else bean.ClientIp,
    SeenAt := if bean.SeenAt = 0 then r.SeenAt else bean.SeenAt,
    RotatedAt := if bean.RotatedAt = 0 then r.RotatedAt else bean.RotatedAt,
    CreatedAt := if bean.CreatedAt = 0 then r.CreatedAt else bean.CreatedAt,
    UpdatedAt := if bean.UpdatedAt = 0 then r.UpdatedAt else bean.UpdatedAt,
    RevokedAt := if bean.RevokedAt = 0 then r.RevokedAt else bean.RevokedAt }

/-- Whether `Update(bean)` without `AllCols` finds no column to write: every
integer column other than the auto-increment key is zero and every string
column empty. -/
def noContent (bean : userAuthToken) : Bool :=
  decide (bean.UserId = 0 ∧ bean.AuthToken = "" ∧
    bean.PrevAuthToken = "" ∧ bean.UserAgent = "" ∧ bean.ClientIp = "" ∧
    bean.SeenAt = 0 ∧ bean.RotatedAt = 0 ∧ bean.CreatedAt = 0 ∧
    bean.UpdatedAt = 0 ∧ bean.RevokedAt = 0)

/-- Statement `ID(id).Update(bean)`: a bean without a column to write is
refused before anything is executed; otherwise the rows of that id are
updated and their number is returned. -/
def dbUpdateById (st : State) (id : Int) (bean : userAuthToken) :
    Except Error (State × Int) :=
  if noContent bean then .error (.ErrStore "No content found to be updated")
  else .ok ({ st with
      rows := st.rows.map (fun r => if r.Id = id then updateNonZero bean r else r) },
    ((st.rows.filter (fun r => decide (r.Id = id))).length : Int))

/-- Statement `Where(cond).Get(&bean)`: one of the rows matching the
condition, none when no row matches. -/
def dbGet (s : UserAuthTokenService) (st : State) (cond : userAuthToken → Bool) :
    Option userAuthToken :=
  let found := st.rows.filter cond
  found[s.getChoice found % found.length]?

/-- The condition `Delete(bean)` builds from the bean: one equality for every
non-zero integer and non-empty string column. -/
def matchesNonZero (bean r : userAuthToken) : Bool :=
  decide ((bean.Id = 0 ∨ r.Id = bean.Id) ∧
    (bean.UserId = 0 ∨ r.UserId = bean.UserId) ∧
    (bean.AuthToken = "" ∨ r.AuthToken = bean.AuthToken) ∧
    (bean.PrevAuthToken = "" ∨ r.PrevAuthToken = bean.PrevAuthToken) ∧
    (bean.UserAgent = "" ∨ r.UserAgent = bean.UserAgent) ∧
    (bean.ClientIp = "" ∨ r.ClientIp = bean.ClientIp) ∧
    (bean.SeenAt = 0 ∨ r.SeenAt = bean.SeenAt) ∧
    (bean.RotatedAt = 0 ∨ r.RotatedAt = bean.RotatedAt) ∧
    (bean.CreatedAt = 0 ∨ r.CreatedAt = bean.CreatedAt) ∧
    (bean.UpdatedAt = 0 ∨ r.UpdatedAt = bean.UpdatedAt) ∧
    (bean.RevokedAt = 0 ∨ r.RevokedAt = bean.RevokedAt))

/-- Whether the bean gives `Delete` no condition at all. -/
def noCondition (bean : userAuthToken) : Bool :=
  decide (bean.Id = 0 ∧ bean.UserId = 0 ∧ bean.AuthToken = "" ∧
    bean.PrevAuthToken = "" ∧ bean.UserAgent = "" ∧ bean.ClientIp = "" ∧
    bean.SeenAt = 0 ∧ bean.RotatedAt = 0 ∧ bean.CreatedAt = 0 ∧
    bean.UpdatedAt = 0 ∧ bean.RevokedAt = 0)

/-- Statement `Delete(bean)`: removes the rows equal to the bean on all its
non-zero columns and returns their number; a bean without any such column is
refused. -/
def dbDelete (st : State) (bean : userAuthToken) : Except Error (State × Int) :=
  if noCondition bean then .error .ErrNeedDeletedCond
  else .ok ({ st with rows := st.rows.filter (fun r => !matchesNonZero bean r) },
            ((st.rows.filter (matchesNonZero bean)).length : Int))

/-- Modelled from the spec: `cache.Get` of the local cache service (section
4.3): the value stored under the key, while its TTL has not passed. -/
def cacheGet (st : State) (now : Int) (key : String) : Option cachedToken :=
  match st.cache.find? (fun it => it.key == key) with
  | some it => if now ≤ it.expiration then some it.value else none
  | none => none

/-- Modelled from the spec: `cache.Set` of the local cache service (section
4.3): replaces the entry of the key, to expire `ttl` from now. -/
def cacheSet (st : State) (now : Int) (key : String) (v : cachedToken) (ttl : Int) : State :=
  { st with cache :=
      { key := key, value := v, expiration := now + ttl } ::
        st.cache.filter (fun it => !(it.key == key)) }

/-! ## The service -/

/-- Function `cacheKey`. -/
def cacheKey (token : String) : String := "auth-token-" ++ token

/-- Function `hashToken`: SHA-256 of the token followed by the secret key. -/
def hashToken (s : UserAuthTokenService) (token : String) : String :=
  s.sha256Hex (token ++ s.SecretKey)

/-- Method `createdAfterParam`. -/
def createdAfterParam (s : UserAuthTokenService) (now : Int) : Int :=
  Unix (now + -s.cfg.LoginMaxLifetime)

/-- Method `rotatedAfterParam`. -/
def rotatedAfterParam (s : UserAuthTokenService) (now : Int) : Int :=
  Unix (now + -s.cfg.LoginMaxInactiveLifetime)

/-- The textual client IP as both `CreateToken` and `TryRotateToken` compute
it: empty for an IP of length zero. -/
def clientIPStr (s : UserAuthTokenService) (clientIP : List Nat) : String :=
  if clientIP.length = 0 then "" else s.ipString clientIP

/-- Method `CreateToken`. -/
def CreateToken (s : UserAuthTokenService) (st : State) (now : Int) (user : User)
    (clientIP : List Nat) (userAgent : String) : State × Except Error UserToken :=
  match s.RandomHex st.draws with
  | .error e => ({ st with draws := st.draws + 1 }, .error e)
  | .ok token =>
    let st1 : State := { st with draws := st.draws + 1 }
    let hashedToken := hashToken s token
    let nowUnix := Unix now
    let bean : userAuthToken :=
      { Id := 0, UserId := user.ID, AuthToken := hashedToken,
        PrevAuthToken := hashedToken, ClientIp := clientIPStr s clientIP,
        UserAgent := userAgent, RotatedAt := nowUnix, CreatedAt := nowUnix,
        UpdatedAt := nowUnix, SeenAt := 0, RevokedAt := 0, AuthTokenSeen := false,
        UnhashedToken := "" }
    let ins := dbInsert st1 bean
    (ins.1, .ok ({ ins.2 with UnhashedToken := token }).toUserToken)

/-- Method `lookupToken`: hash the raw token and fetch a row holding the hash
in either slot. -/
def lookupToken (s : UserAuthTokenService) (st : State) (rawToken : String) :
    Except Error (userAuthToken × String) :=
  let hashedToken := hashToken s rawToken
  match dbGet s st
      (fun r => decide (r.AuthToken = hashedToken ∨ r.PrevAuthToken = hashedToken)) with
  | none => .error .ErrUserTokenNotFound
  | some model => .ok (model, hashedToken)

/-- Method `lookupCachedToken`. -/
def lookupCachedToken (s : UserAuthTokenService) (st : State) (now : Int)
    (rawToken : String) : State × Except Error (userAuthToken × String) :=
  let key := cacheKey rawToken
  match cacheGet st now key with
  | none =>
    match lookupToken s st rawToken with
    | .error e => (st, .error e)
    | .ok (token, hashedToken) =>
      (cacheSet st now key { hashedToken := hashedToken, userAuthtoken := token } cacheTTL,
       .ok (token, hashedToken))
  | some token => (st, .ok (token.userAuthtoken, token.hashedToken))

/-- The previous-slot branch of `LookupToken` (lines 149-174): its effect on
the store. -/
def observePrev (st : State) (now : Int) (model : userAuthToken) (hashedToken : String) :
    State :=
  if model.AuthToken ≠ hashedToken ∧ model.PrevAuthToken = hashedToken ∧
      model.AuthTokenSeen = true then
    let modelCopy := { model with AuthTokenSeen := false }
    let expireBefore := Unix (now + -urgentRotateTime)
    (dbUpdateAllCols st
      (fun r => decide (r.Id = modelCopy.Id ∧ r.PrevAuthToken = modelCopy.PrevAuthToken ∧
        r.RotatedAt < expireBefore)) modelCopy).1
  else st

/-- The current-slot branch of `LookupToken` (lines 176-204): the store and
the model the caller continues with. -/
def observeCurrent (st : State) (now : Int) (model : userAuthToken) (hashedToken : String) :
    State × userAuthToken :=
  if model.AuthTokenSeen = false ∧ model.AuthToken = hashedToken then
    let modelCopy := { model with AuthTokenSeen := true, SeenAt := Unix now }
    let upd := dbUpdateAllCols st
      (fun r => decide (r.Id = modelCopy.Id ∧ r.AuthToken = modelCopy.AuthToken)) modelCopy
    (upd.1, if upd.2 = 1 then modelCopy else model)
  else (st, model)

/-- The body of `LookupToken` after the row has been fetched (lines 133-211):
the revocation check, the expiry check, the two observation branches and the
projection handed to the caller. -/
def observeToken (s : UserAuthTokenService) (st1 : State) (now : Int)
    (model : userAuthToken) (hashedToken unhashedToken : String) :
    State × Except Error UserToken :=
  if model.RevokedAt > 0 then
    (st1, .error (.TokenRevokedError model.UserId model.Id))
  else if model.CreatedAt ≤ createdAfterParam s now ∨
      model.RotatedAt ≤ rotatedAfterParam s now then
    (st1, .error (.TokenExpiredError model.UserId model.Id))
  else
    let st2 := observePrev st1 now model hashedToken
    let cur := observeCurrent st2 now model hashedToken
    (cur.1, .ok ({ cur.2 with UnhashedToken := unhashedToken }).toUserToken)

/-- Method `LookupToken`. -/
def LookupToken (s : UserAuthTokenService) (st : State) (now : Int)
    (unhashedToken : String) : State × Except Error UserToken :=
  match lookupCachedToken s st now unhashedToken with
  | (st1, .error e) => (st1, .error e)
  | (st1, .ok (model, hashedToken)) =>
    observeToken s st1 now model hashedToken unhashedToken

/-- The duration `-time.Duration(s.Cfg.TokenRotationIntervalMinutes) *
time.Minute` of line 281: the negation and the product are both computed in
`int64`. -/
def rotationOffset (s : UserAuthTokenService) : Int :=
  wrapInt64 (wrapInt64 (-s.cfg.TokenRotationIntervalMinutes) * Minute)

/-- The rotation decision of `TryRotateToken` (lines 278-284). -/
def needsRotation (s : UserAuthTokenService) (now : Int) (model : userAuthToken) : Bool :=
  let rotatedAt := timeUnix model.RotatedAt
  if model.AuthTokenSeen then
    decide (rotatedAt < now + rotationOffset s)
  else
    decide (rotatedAt < now + -urgentRotateTime)

/-- The SET clause of the rotation statement applied to one row; the CASE
reads the pre-update `auth_token_seen`. -/
def rotateRow (userAgent ip hashedToken : String) (nowUnix : Int) (r : userAuthToken) :
    userAuthToken :=
  { r with
    SeenAt := 0, UserAgent := userAgent, ClientIp := ip,
    PrevAuthToken := if r.AuthTokenSeen = true then r.AuthToken else r.PrevAuthToken,
    AuthToken := hashedToken, AuthTokenSeen := false, RotatedAt := nowUnix }

/-- The WHERE clause of the rotation statement. -/
def rotateGuard (id : Int) (now : Int) (r : userAuthToken) : Bool :=
  decide (r.Id = id ∧ (r.AuthTokenSeen = true ∨ r.RotatedAt < Unix (now + -(30 * Second))))

/-- The rotation statement of `TryRotateToken` (lines 303-326). -/
def dbRotate (st : State) (userAgent ip hashedToken : String) (now : Int) (id : Int) :
    State × Int :=
  ({ st with
      rows := st.rows.map (fun r =>
        if rotateGuard id now r then rotateRow userAgent ip hashedToken (Unix now) r else r) },
   ((st.rows.filter (rotateGuard id now)).length : Int))

/-- What a call of `TryRotateToken` leaves behind: the world, the caller's
token (it is passed by pointer) and the two return values. -/
structure RotateResult where
  state : State
  token : Option UserToken
  rotated : Bool
  err : Option Error
deriving DecidableEq, Repr

/-- Method `TryRotateToken`. -/
def TryRotateToken (s : UserAuthTokenService) (st : State) (now : Int)
    (token : Option UserToken) (clientIP : List Nat) (userAgent : String) : RotateResult :=
  match token with
  | none => { state := st, token := none, rotated := false, err := none }
  | some tok =>
    let model := userAuthTokenFromUserToken tok
    if needsRotation s now model = false then
      { state := st, token := some tok, rotated := false, err := none }
    else
      match s.RandomHex st.draws with
      | .error e =>
        { state := { st with draws := st.draws + 1 }, token := some tok,
          rotated := false, err := some e }
      | .ok newToken =>
        let st1 : State := { st with draws := st.draws + 1 }
        let hashedToken := hashToken s newToken
        let upd := dbRotate st1 userAgent (clientIPStr s clientIP) hashedToken now model.Id
        if upd.2 > 0 then
          { state := upd.1,
            token := some ({ model with UnhashedToken := newToken }).toUserToken,
            rotated := true, err := none }
        else
          { state := upd.1, token := some tok, rotated := false, err := none }

/-- Method `RevokeToken`. -/
def RevokeToken (_s : UserAuthTokenService) (st : State) (now : Int)
    (token : Option UserToken) (soft : Bool) : State × Option Error :=
  match token with
  | none => (st, some .ErrUserTokenNotFound)
  | some tok =>
    let model := userAuthTokenFromUserToken tok
    if soft then
      let model1 := { model with RevokedAt := Unix now }
      match dbUpdateById st model1.Id model1 with
      | .error e => (st, some e)
      | .ok upd =>
        if upd.2 = 0 then (upd.1, some .ErrUserTokenNotFound) else (upd.1, none)
    else
      match dbDelete st model with
      | .error e => (st, some e)
      | .ok upd =>
        if upd.2 = 0 then (upd.1, some .ErrUserTokenNotFound) else (upd.1, none)

/-- Method `RevokeAllUserTokens`. -/
def RevokeAllUserTokens (st : State) (userId : Int) : State × Option Error :=
  ({ st with rows := st.rows.filter (fun r => !decide (r.UserId = userId)) }, none)

/-- Function `strings.Repeat`. -/
def Repeat (s : String) : Nat → String
  | 0 => ""
  | n + 1 => s ++ Repeat s n

/-- The statement text that `BatchRevokeAllUserTokens` builds for a non-empty
list (lines 408-409). -/
def batchRevokeSQL (userIds : List Int) : String :=
  "DELETE from user_auth_token WHERE user_id IN (?" ++
    Repeat ",?" (userIds.length - 1) ++ ")"

/-- The values that `BatchRevokeAllUserTokens` binds to the placeholders: the
loop of lines 411-414 appends every id in turn after the statement text. -/
def batchRevokeParams (userIds : List Int) : List Int :=
  userIds.foldl (fun params v => params ++ [v]) []

/-- Executing `DELETE from user_auth_token WHERE user_id IN (...)` with the
bound values: the store refuses a statement with more bound values than it
admits, and the transaction leaves the table as it was; otherwise the rows of
these users are removed. -/
def dbDeleteUserIdIn (s : UserAuthTokenService) (st : State) (params : List Int) :
    Except Error State :=
  if s.maxBoundParams < params.length then .error (.ErrStore "too many SQL variables")
  else .ok { st with rows := st.rows.filter (fun r => !decide (r.UserId ∈ params)) }

/-- Method `BatchRevokeAllUserTokens`: nothing is executed for an empty list. -/
def BatchRevokeAllUserTokens (s : UserAuthTokenService) (st : State) (userIds : List Int) :
    State × Option Error :=
  if userIds.length = 0 then (st, none)
  else
    match dbDeleteUserIdIn s st (batchRevokeParams userIds) with
    | .error e => (st, some e)
    | .ok st1 => (st1, none)

/-! ## Runs of the service -/

/-- One call of a mutating operation of the service, with its arguments and
the clock value it reads. -/
inductive Op where
  | create (now : Int) (user : User) (clientIP : List Nat) (userAgent : String)
  | lookup (now : Int) (unhashedToken : String)
  | rotate (now : Int) (token : Option UserToken) (clientIP : List Nat) (userAgent : String)
  | revoke (now : Int) (token : Option UserToken) (soft : Bool)
  | revokeAll (userId : Int)
  | batchRevoke (userIds : List Int)
deriving DecidableEq, Repr

/-- The state an operation leaves behind. -/
def step (s : UserAuthTokenService) (st : State) : Op → State
  | .create now user clientIP userAgent => (CreateToken s st now user clientIP userAgent).1
  | .lookup now unhashedToken => (LookupToken s st now unhashedToken).1
  | .rotate now token clientIP userAgent =>
    (TryRotateToken s st now token clientIP userAgent).state
  | .revoke now token soft => (RevokeToken s st now token soft).1
  | .revokeAll userId => (RevokeAllUserTokens st userId).1
  | .batchRevoke userIds => (BatchRevokeAllUserTokens s st userIds).1

/-- The state after a sequence of operations. -/
def run (s : UserAuthTokenService) (st : State) (ops : List Op) : State :=
  ops.foldl (step s) st

/-- A token is issued in a history when its fields are a copy of a row as it
was stored in one of the states of the history; the raw token is free.  The
tokens that `CreateToken`, `LookupToken` and `TryRotateToken` hand to their
callers are of this kind (`CreateToken_issued`, `LookupToken_issued`,
`TryRotateToken_issued`). -/
def Issued (hist : List State) (tok : UserToken) : Prop :=
  ∃ st ∈ hist, ∃ c ∈ st.rows, columns (userAuthTokenFromUserToken tok) = columns c

/-- Callers hand a soft revoke only tokens they were issued: it writes the
caller's copy of the columns back into the row. -/
def Op.allowed (hist : List State) : Op → Prop
  | .revoke _ (some tok) true => Issued hist tok
  | _ => True

/-- Histories (newest state first) that the operations produce from the empty
store. -/
inductive Reachable (s : UserAuthTokenService) : List State → Prop
  | init : Reachable s [State.empty]
  | step {st : State} {hist : List State} (op : Op) :
      Reachable s (st :: hist) → op.allowed (st :: hist) →
      Reachable s (step s st op :: st :: hist)

/-- The rows of a table with the row of the given id replaced. -/
def replaceRow (rows : List userAuthToken) (id : Int) (r : userAuthToken) :
    List userAuthToken :=
  rows.map (fun x => if x.Id = id then r else x)

/-- The primary-key discipline of the table: ids are pairwise distinct and
below the auto-increment counter. -/
def WellFormed (st : State) : Prop :=
  (st.rows.map (fun r => r.Id)).Nodup ∧ ∀ r ∈ st.rows, r.Id < st.nextId

/-- A service for worked examples: lifetimes of 30 and 7 days, rotation every
10 minutes, an injective stand-in for the hash and the draws r0, r1, ... -/
def demoService : UserAuthTokenService :=
  { cfg := { LoginMaxLifetime := 2592000 * Second,
             LoginMaxInactiveLifetime := 604800 * Second,
             TokenRotationIntervalMinutes := 10 },
    SecretKey := "k",
    sha256Hex := fun x => "#" ++ x,
    RandomHex := fun k => .ok ("r" ++ toString k),
    ipString := fun _ => "10.0.0.1",
    getChoice := fun _ => 0,
    maxBoundParams := 32766 }

/-! ## History invariant and worked examples -/

/-- The previous slot of a row is accounted for by a history when it holds the
row's current token hash, or the token hash that the row of the same id held
in one of the states of the history. -/
def PrevSlotKnown (hist : List State) (c : userAuthToken) : Prop :=
  c.PrevAuthToken = c.AuthToken ∨
    ∃ st ∈ hist, ∃ r ∈ st.rows, r.Id = c.Id ∧ r.AuthToken = c.PrevAuthToken

/-- What the reachability proof carries along a history (newest state
first): every row ever stored has its previous slot accounted for by the
states before the newest one, and every cached snapshot is a row of some
state of the history. -/
def HistoryInv : List State → Prop
  | [] => True
  | st :: hist =>
    (∀ st1 ∈ st :: hist, ∀ c ∈ st1.rows, PrevSlotKnown hist c) ∧
    (∀ it ∈ st.cache, ∃ st1 ∈ st :: hist, it.value.userAuthtoken ∈ st1.rows)

/-- The token that `CreateToken` returns in the worked examples. -/
def demoToken : UserToken :=
  { Id := 1, UserId := 42, AuthToken := "#r0k", PrevAuthToken := "#r0k", UserAgent := "ua-a",
    ClientIp := "10.0.0.1", AuthTokenSeen := false, SeenAt := 0, RotatedAt := 1000,
    CreatedAt := 1000, UpdatedAt := 1000, RevokedAt := 0, UnhashedToken := "r0" }

/-- The row that `CreateToken` inserts in the worked examples. -/
def demoRow : userAuthToken :=
  { Id := 1, UserId := 42, AuthToken := "#r0k", PrevAuthToken := "#r0k", UserAgent := "ua-a",
    ClientIp := "10.0.0.1", AuthTokenSeen := false, SeenAt := 0, RotatedAt := 1000,
    CreatedAt := 1000, UpdatedAt := 1000, RevokedAt := 0, UnhashedToken := "" }

/-- The store after user 42 was issued a token at second 1000. -/
def demoCreated : State :=
  { rows := [demoRow], nextId := 2, cache := [], draws := 1 }

/-- The row of the worked examples once its token has been observed. -/
def demoSeenRow : userAuthToken :=
  { demoRow with AuthTokenSeen := true, SeenAt := 1000 }

/-- The store once the token has been observed, the cache cold again. -/
def demoSeen : State :=
  { rows := [demoSeenRow], nextId := 2, cache := [], draws := 1 }

/-- The caller's copy of the token after the lookup at second 1000. -/
def demoSeenToken : UserToken :=
  { demoToken with AuthTokenSeen := true, SeenAt := 1000 }

/-- Issue a token, look it up (the row as fetched, not yet revoked, enters the
cache for 30 s), and soft-revoke it one second later. -/
def revokeOps : List Op :=
  [.create (1000 * Second) ⟨42⟩ [10, 0, 0, 1] "ua-a",
   .lookup (1000 * Second) "r0",
   .revoke (1001 * Second) (some demoSeenToken) true]

/-- Issue a token at second 1000 and rotate it at second 1070 without it ever
having been looked up. -/
def unseenOps : List Op :=
  [.create (1000 * Second) ⟨42⟩ [10, 0, 0, 1] "ua-a",
   .rotate (1070 * Second) (some demoToken) [10, 0, 0, 1] "ua-a"]

/-- The caller's token after the rotation at second 1070: only the raw token
has changed. -/
def demoRotatedToken : UserToken := { demoToken with UnhashedToken := "r1" }

/-- The operations of `unseenOps` followed by a second rotation at second
1140, the token of the first rotation still unobserved. -/
def chainedOps : List Op :=
  unseenOps ++ [.rotate (1140 * Second) (some demoRotatedToken) [10, 0, 0, 1] "ua-b"]

/-- The row of the worked examples after the two rotations of `chainedOps`. -/
def demoChainedRow : userAuthToken :=
  { Id := 1, UserId := 42, AuthToken := "#r2k", PrevAuthToken := "#r0k", UserAgent := "ua-b",
    ClientIp := "10.0.0.1", AuthTokenSeen := false, SeenAt := 0, RotatedAt := 1140,
    CreatedAt := 1000, UpdatedAt := 1000, RevokedAt := 0, UnhashedToken := "" }

/-- The instant at which the token issued at second 1000 reaches the maximum
lifetime of 30 days. -/
def demoExpiry : Int := (1000 + 2592000) * Second

/-- The row of the worked examples after the rotation at second 1660 and a
lookup of the new raw token one second later. -/
def demoRotatedSeenRow : userAuthToken :=
  { Id := 1, UserId := 42, AuthToken := "#r1k", PrevAuthToken := "#r0k", UserAgent := "ua-b",
    ClientIp := "10.0.0.1", AuthTokenSeen := true, SeenAt := 1661, RotatedAt := 1660,
    CreatedAt := 1000, UpdatedAt := 1000, RevokedAt := 0, UnhashedToken := "" }

/-- The store holding `demoRotatedSeenRow`, the cache cold. -/
def demoRotatedSeen : State :=
  { rows := [demoRotatedSeenRow], nextId := 2, cache := [], draws := 2 }

/-- The caller's token after the rotation of the observed demo row at second
1660: its columns are still those of the lookup at second 1000. -/
def demoStaleToken : UserToken := { demoSeenToken with UnhashedToken := "r1" }

/-- The demo service with a rotation interval of 200000000 minutes (about 380
years), whose nanosecond count does not fit 64 bits. -/
def longIntervalService : UserAuthTokenService :=
  { demoService with
    cfg := { demoService.cfg with TokenRotationIntervalMinutes := 200000000 } }

/-- The store after the rotation of the observed demo row at second 1660. -/
def demoRotated : State :=
  (TryRotateToken demoService demoSeen (1660 * Second) (some demoSeenToken)
    [10, 0, 0, 1] "ua-b").state

/-! ## Worked examples of revocation -/

/-- Issue a token at second 1000, look it up, rotate it at second 1660 with
the token of the lookup, and soft-revoke it at second 1700 with the token that
the rotation handed back. -/
def staleRevokeOps : List Op :=
  [.create (1000 * Second) ⟨42⟩ [10, 0, 0, 1] "ua-a",
   .lookup (1000 * Second) "r0",
   .rotate (1660 * Second) (some demoSeenToken) [10, 0, 0, 1] "ua-b",
   .revoke (1700 * Second) (some demoStaleToken) true]

/-- The number of placeholders of a statement text. -/
def placeholders (sql : String) : Nat := sql.data.count '?'

/-- The 40000 user ids 0, 1, ..., 39999. -/
def manyUserIds : List Int := (List.range 40000).map Int.ofNat

/-! ## Read-only queries -/

/-- The condition `created_at > ? AND rotated_at > ? AND revoked_at = 0` that
`ActiveTokenCount` and `GetUserTokens` share, with the two bound values
`getTime().Add(-LoginMaxLifetime).Unix()` and
`getTime().Add(-LoginMaxInactiveLifetime).Unix()`. -/
def activeToken (cfg : Cfg) (now : Int) (r : userAuthToken) : Bool :=
  decide (r.CreatedAt > Unix (now + -cfg.LoginMaxLifetime) ∧
    r.RotatedAt > Unix (now + -cfg.LoginMaxInactiveLifetime) ∧ r.RevokedAt = 0)

/-- Method `ActiveAuthTokenService.ActiveTokenCount`. -/
def ActiveTokenCount (cfg : Cfg) (st : State) (now : Int) : Int :=
  ((st.rows.filter (activeToken cfg now)).length : Int)

/-- Method `GetUserToken`. -/
def GetUserToken (s : UserAuthTokenService) (st : State) (userId userTokenId : Int) :
    Except Error UserToken :=
  match dbGet s st (fun r => decide (r.Id = userTokenId ∧ r.UserId = userId)) with
  | none => .error .ErrUserTokenNotFound
  | some token => .ok token.toUserToken

/-- Method `GetUserTokens`. -/
def GetUserTokens (s : UserAuthTokenService) (st : State) (now : Int) (userId : Int) :
    List UserToken :=
  (st.rows.filter (fun r => decide (r.UserId = userId) && activeToken s.cfg now r)).map
    userAuthToken.toUserToken

/-- Method `GetUserRevokedTokens`. -/
def GetUserRevokedTokens (st : State) (userId : Int) : List UserToken :=
  (st.rows.filter (fun r => decide (r.UserId = userId ∧ r.RevokedAt > 0))).map
    userAuthToken.toUserToken

/-- The store holding the demo row with the negative second stamp -50 in
`revoked_at`. -/
def negativeRevokedStore : State :=
  { rows := [{ demoRow with RevokedAt := -50 }], nextId := 2, cache := [], draws := 1 }

/-- Issue a token 100 s before the epoch and soft-revoke it 50 s later: the
row's `revoked_at` is the negative second stamp -50. -/
def earlyOps : List Op :=
  [.create (-100 * Second) ⟨42⟩ [10, 0, 0, 1] "ua-a",
   .revoke (-50 * Second)
     (some { Id := 1, UserId := 42, AuthToken := "#r0k", PrevAuthToken := "#r0k",
             UserAgent := "ua-a", ClientIp := "10.0.0.1", AuthTokenSeen := false,
             SeenAt := 0, RotatedAt := -100, CreatedAt := -100, UpdatedAt := -100,
             RevokedAt := 0, UnhashedToken := "r0" }) true]

/-! ## The OAuth token hook (`authnimpl/sync/oauth_token_sync.go`) -/

/-- Modelled from the spec: the namespace of an identity's id (package
`authn`, absent here): a user or something else. -/
inductive Namespace where
  | NamespaceUser
  | other (name : String)
deriving DecidableEq, Repr

/-- Modelled from the spec: the id of an identity, a namespace and a number. -/
structure NamespaceID where
  ns : Namespace
  id : Int
deriving DecidableEq, Repr

/-- Method `NamespaceID.IsNamespace`. -/
def NamespaceID.IsNamespace (i : NamespaceID) (ns : Namespace) : Bool := decide (i.ns = ns)

/-- Modelled from the spec: the fields of `authn.Identity` that the hook
reads (section 4.4): its id, the session token, which may be absent, and the
`authenticated_by` tag. -/
structure Identity where
  ID : NamespaceID
  SessionToken : Option UserToken
  AuthenticatedBy : String
deriving DecidableEq, Repr

/-- An error of the upstream refresh; `Canceled` is the answer of
`errors.Is(err, context.Canceled)`. -/
structure RefreshError where
  msg : String
  Canceled : Bool
deriving DecidableEq, Repr

/-- The error of the hook: `authn.ErrExpiredAccessToken` wrapping its cause. -/
inductive HookError where
  | ErrExpiredAccessToken (cause : RefreshError)
deriving DecidableEq, Repr

/-- The calls that the hook makes on its collaborators, in order. -/
inductive HookEvent where
  | refresh (identity : Identity)
  | revoke (token : Option UserToken) (soft : Bool) (result : Option Error)
deriving DecidableEq, Repr

/-- The hook's service value: the upstream refresh `service.TryTokenRefresh`,
given by its error result, and the session service. -/
structure OAuthTokenSync where
  TryTokenRefresh : Identity → Option RefreshError
  sessionService : UserAuthTokenService

/-- Function `strings.HasPrefix`. -/
def HasPrefix (s p : String) : Bool := p.data.isPrefixOf s.data

/-- What a call of the hook leaves behind: the world of the session service,
the calls made and the returned error. -/
structure HookResult where
  state : State
  events : List HookEvent
  err : Option HookError
deriving DecidableEq, Repr

/-- The function that the hook passes to `singleflightGroup.Do` (lines
60-80): the world it leaves, the calls it makes and the error it returns. -/
def refreshOrRevoke (s : OAuthTokenSync) (st : State) (now : Int) (identity : Identity) :
    State × List HookEvent × Option RefreshError :=
  match s.TryTokenRefresh identity with
  | some refreshErr =>
    if refreshErr.Canceled then (st, [.refresh identity], none)
    else
      let rev := RevokeToken s.sessionService st now identity.SessionToken false
      (rev.1, [.refresh identity, .revoke identity.SessionToken false rev.2],
       some refreshErr)
  | none => (st, [.refresh identity], none)

/-- Method `singleflight.Group.Do` as one caller sees it.  `inflight` is the
group's entry for the key when the caller arrives: `none` when no call for
the key is in flight, and then the caller runs the function itself;
`some err` when one is, and then the caller waits for that call and shares
its error `err` without running the function.  The world returned is the one
this caller leaves: what the call in flight does to the store is that call's
effect. -/
def singleflightDo (inflight : Option (Option RefreshError))
    (st : State) (fn : State × List HookEvent × Option RefreshError) :
    State × List HookEvent × Option RefreshError :=
  match inflight with
  | none => fn
  | some shared => (st, [], shared)

/-- Method `SyncOauthTokenHook`; `inflight` is the state of the singleflight
group for the key `identity.ID.String()` when the call reaches `Do`. -/
def SyncOauthTokenHook (s : OAuthTokenSync) (st : State) (now : Int) (identity : Identity)
    (inflight : Option (Option RefreshError)) : HookResult :=
  if !identity.ID.IsNamespace .NamespaceUser then
    { state := st, events := [], err := none }
  else if identity.SessionToken = none then
    { state := st, events := [], err := none }
  else if !HasPrefix identity.AuthenticatedBy "oauth" then
    { state := st, events := [], err := none }
  else
    let res := singleflightDo inflight st (refreshOrRevoke s st now identity)
    match res.2.2 with
    | some err => { state := res.1, events := res.2.1, err := some (.ErrExpiredAccessToken err) }
    | none => { state := res.1, events := res.2.1, err := none }

/-- A hook service whose upstream refresh fails with an error that is not a
cancellation. -/
def demoSync : OAuthTokenSync :=
  { TryTokenRefresh := fun _ => some ⟨"invalid_grant", false⟩,
    sessionService := demoService }

/-- User 42, signed in through an OAuth provider, with the session token of
the worked examples. -/
def demoIdentity : Identity :=
  { ID := ⟨.NamespaceUser, 42⟩, SessionToken := some demoSeenToken,
    AuthenticatedBy := "oauth_github" }

/-! ## Histories under a non-decreasing clock -/

/-- The clock value that an operation reads, for those that read the clock. -/
def Op.clock : Op → Option Int
  | .create now _ _ _ => some now
  | .lookup now _ => some now
  | .rotate now _ _ _ => some now
  | .revoke now _ _ => some now
  | .revokeAll _ => none
  | .batchRevoke _ => none

/-- Histories (newest state first) that the operations produce from the empty
store while the clock never goes back; the index is the clock value at the end
of the history. -/
inductive ReachableAt (s : UserAuthTokenService) : Int → List State → Prop
  | init (t : Int) : ReachableAt s t [State.empty]
  | step {t : Int} {st : State} {hist : List State} (op : Op) (t1 : Int) :
      ReachableAt s t (st :: hist) → op.allowed (st :: hist) → t ≤ t1 →
      (∀ now, op.clock = some now → now = t1) →
      ReachableAt s t1 (step s st op :: st :: hist)

/-- What the proof of the time-stamp invariant carries along a history at
clock value `t`: every row ever stored has `created_at <= rotated_at <= t`
(in seconds), rows of the same id have the same `created_at`, every id ever
stored is below the current auto-increment counter, and every cached snapshot
is a row of some state of the history. -/
def ClockInv (t : Int) : List State → Prop
  | [] => True
  | st :: hist =>
    (∀ st1 ∈ st :: hist, ∀ c ∈ st1.rows, c.CreatedAt ≤ c.RotatedAt ∧ c.RotatedAt ≤ Unix t) ∧
    (∀ st1 ∈ st :: hist, ∀ st2 ∈ st :: hist, ∀ c1 ∈ st1.rows, ∀ c2 ∈ st2.rows,
      c1.Id = c2.Id → c1.CreatedAt = c2.CreatedAt) ∧
    (∀ st1 ∈ st :: hist, ∀ c ∈ st1.rows, c.Id < st.nextId) ∧
    (∀ it ∈ st.cache, ∃ st1 ∈ st :: hist, it.value.userAuthtoken ∈ st1.rows)

/-- Where a row of the state after an operation at clock value `t1` comes
from: its time stamps are in order, and it continues a row of the history
(same id, same `created_at`) or is the row just created. -/
def RowOrigin (H : List State) (st : State) (t1 : Int) (st1 : State) (c : userAuthToken) :
    Prop :=
  c.CreatedAt ≤ c.RotatedAt ∧ c.RotatedAt ≤ Unix t1 ∧
  ((∃ st0 ∈ H, ∃ o ∈ st0.rows, o.Id = c.Id ∧ o.CreatedAt = c.CreatedAt) ∨
   (c.Id = st.nextId ∧ c.CreatedAt = Unix t1 ∧ st.nextId < st1.nextId))

/-- A token that names row 1 and carries a previous-slot hash of the caller's
making, every other field zero. -/
def forgedPrevToken : UserToken :=
  { Id := 1, UserId := 0, AuthToken := "", PrevAuthToken := "#zzk", UserAgent := "",
    ClientIp := "", AuthTokenSeen := false, SeenAt := 0, RotatedAt := 0,
    CreatedAt := 0, UpdatedAt := 0, RevokedAt := 0, UnhashedToken := "" }

/-- A token that names row 1 and carries time stamps of the caller's making:
`created_at = 5000`, `rotated_at = 10`, every other field zero. -/
def fabricatedToken : UserToken :=
  { Id := 1, UserId := 0, AuthToken := "", PrevAuthToken := "", UserAgent := "",
    ClientIp := "", AuthTokenSeen := false, SeenAt := 0, RotatedAt := 10,
    CreatedAt := 5000, UpdatedAt := 0, RevokedAt := 0, UnhashedToken := "" }

/-- Issue a token at second 1000 and soft-revoke row 1 one second later with
`fabricatedToken`. -/
def fabricatedOps : List Op :=
  [.create (1000 * Second) ⟨42⟩ [10, 0, 0, 1] "ua-a",
   .revoke (1001 * Second) (some fabricatedToken) true]

/-- Issue a token and look it up at second 1000; the row as fetched stays in
the cache for 30 s. -/
def cachedOps : List Op :=
  [.create (1000 * Second) ⟨42⟩ [10, 0, 0, 1] "ua-a",
   .lookup (1000 * Second) "r0"]

/-- The operations of `cachedOps` followed by a lookup at second 1010, which
is served from the cache and writes the cached snapshot back. -/
def cachedTwiceOps : List Op := cachedOps ++ [.lookup (1010 * Second) "r0"]

/-! # Verification -/

/-! ## Arithmetic of the clock -/

theorem le_Unix_iff (a t : Int) : a ≤ Unix t ↔ a * Second ≤ t := by
  unfold Unix
  exact Int.le_ediv_iff_mul_le (by decide)

theorem Unix_lt_iff (a t : Int) : Unix t < a ↔ t < a * Second := by
  unfold Unix
  exact Int.ediv_lt_iff_lt_mul (by decide)

theorem Unix_mono {a b : Int} (h : a ≤ b) : Unix a ≤ Unix b := by
  unfold Unix
  exact Int.ediv_le_ediv (by decide) h

theorem Unix_mul_Second (n : Int) : Unix (n * Second) = n := by
  unfold Unix
  exact Int.mul_ediv_cancel n (by decide)

theorem Unix_sub_lt {now d : Int} (hd : Second ≤ d) : Unix (now + -d) < Unix now := by
  rw [Unix_lt_iff]
  have h2 : now < (Unix now + 1) * Second := (Unix_lt_iff (Unix now + 1) now).1 (by omega)
  linarith

/-! ## Lists of rows -/

theorem dbGet_of_unique (s : UserAuthTokenService) (st : State)
    (cond : userAuthToken → Bool) (r : userAuthToken) (hr : r ∈ st.rows)
    (hc : cond r = true) (huniq : ∀ x ∈ st.rows, cond x = true → x = r) :
    dbGet s st cond = some r := by
  unfold dbGet
  have hmem : r ∈ st.rows.filter cond := List.mem_filter.2 ⟨hr, hc⟩
  have hpos : 0 < (st.rows.filter cond).length := List.length_pos_of_mem hmem
  have hlt := Nat.mod_lt (s.getChoice (st.rows.filter cond)) hpos
  simp only
  rw [List.getElem?_eq_getElem hlt]
  congr 1
  have hin := List.getElem_mem hlt
  obtain ⟨h1, h2⟩ := List.mem_filter.1 hin
  exact huniq _ h1 h2

theorem dbGet_none (s : UserAuthTokenService) (st : State)
    (cond : userAuthToken → Bool) (hno : ∀ x ∈ st.rows, cond x = false) :
    dbGet s st cond = none := by
  unfold dbGet
  have : st.rows.filter cond = [] := by
    rw [List.filter_eq_nil_iff]
    intro x hx
    simp [hno x hx]
  simp [this]

theorem dbGet_mem (s : UserAuthTokenService) (st : State)
    (cond : userAuthToken → Bool) (r : userAuthToken) (h : dbGet s st cond = some r) :
    r ∈ st.rows ∧ cond r = true := by
  unfold dbGet at h
  simp only at h
  exact List.mem_filter.1 (List.getElem?_mem h)

theorem row_eq_of_id_eq {l : List userAuthToken} (hnd : (l.map (fun r => r.Id)).Nodup)
    {x y : userAuthToken} (hx : x ∈ l) (hy : y ∈ l) (h : x.Id = y.Id) : x = y :=
  List.inj_on_of_nodup_map hnd hx hy h

theorem filter_length_one {l : List userAuthToken} (hnd : (l.map (fun r => r.Id)).Nodup)
    {r : userAuthToken} (hr : r ∈ l) (cond : userAuthToken → Bool) (hc : cond r = true)
    (hid : ∀ x ∈ l, cond x = true → x.Id = r.Id) : ((l.filter cond).length : Int) = 1 := by
  have hfil : l.filter cond = l.filter (fun x => decide (x = r)) := by
    apply List.filter_congr
    intro x hx
    by_cases hxr : x = r
    · simp [hxr, hc]
    · have : cond x = false := by
        by_contra hcx
        simp only [Bool.not_eq_false] at hcx
        exact hxr (row_eq_of_id_eq hnd hx hr (hid x hx hcx))
      simp [this, hxr]
  have hnd2 : l.Nodup := List.Nodup.of_map _ hnd
  have hcount : l.count r = 1 := List.count_eq_one_of_mem hnd2 hr
  rw [hfil]
  have : (l.filter (fun x => decide (x = r))).length = l.count r := by
    rw [List.count, List.countP_eq_length_filter]
    congr 1
  rw [this, hcount]
  rfl

theorem filter_length_zero {l : List userAuthToken} (cond : userAuthToken → Bool)
    (hc : ∀ x ∈ l, cond x = false) : ((l.filter cond).length : Int) = 0 := by
  have : l.filter cond = [] := by
    rw [List.filter_eq_nil_iff]
    intro x hx
    simp [hc x hx]
  simp [this]

theorem map_eq_replaceRow {l : List userAuthToken} (hnd : (l.map (fun r => r.Id)).Nodup)
    {r : userAuthToken} (hr : r ∈ l) (cond : userAuthToken → Bool) (hc : cond r = true)
    (hid : ∀ x ∈ l, cond x = true → x.Id = r.Id) (g : userAuthToken → userAuthToken) :
    l.map (fun x => if cond x then g x else x) = replaceRow l r.Id (g r) := by
  unfold replaceRow
  apply List.map_congr_left
  intro x hx
  by_cases hxr : x.Id = r.Id
  · have : x = r := row_eq_of_id_eq hnd hx hr hxr
    subst this
    simp [hc]
  · have : cond x = false := by
      by_contra hcx
      simp only [Bool.not_eq_false] at hcx
      exact hxr (hid x hx hcx)
    simp [this, hxr]

theorem map_eq_self {l : List userAuthToken} (cond : userAuthToken → Bool)
    (hc : ∀ x ∈ l, cond x = false) (g : userAuthToken → userAuthToken) :
    l.map (fun x => if cond x then g x else x) = l := by
  have : l.map (fun x => if cond x then g x else x) = l.map id := by
    apply List.map_congr_left
    intro x hx
    simp [hc x hx]
  rw [this, List.map_id]

theorem mem_replaceRow {l : List userAuthToken} {r r' : userAuthToken} (hr : r ∈ l) :
    r' ∈ replaceRow l r.Id r' := by
  unfold replaceRow
  exact List.mem_map.2 ⟨r, hr, by simp⟩

theorem replaceRow_ids (l : List userAuthToken) (id : Int) (r' : userAuthToken)
    (h : r'.Id = id) : (replaceRow l id r').map (fun r => r.Id) = l.map (fun r => r.Id) := by
  unfold replaceRow
  rw [List.map_map]
  apply List.map_congr_left
  intro x _
  by_cases hx : x.Id = id <;> simp [hx, h]

/-! ## Lookup -/

theorem lookupToken_of_unique (s : UserAuthTokenService) (st : State) (rawToken : String)
    (r : userAuthToken) (hr : r ∈ st.rows)
    (hm : r.AuthToken = hashToken s rawToken ∨ r.PrevAuthToken = hashToken s rawToken)
    (huniq : ∀ x ∈ st.rows,
      x.AuthToken = hashToken s rawToken ∨ x.PrevAuthToken = hashToken s rawToken → x = r) :
    lookupToken s st rawToken = .ok (r, hashToken s rawToken) := by
  unfold lookupToken
  have hfind := dbGet_of_unique s st
    (fun x : userAuthToken =>
      decide (x.AuthToken = hashToken s rawToken ∨ x.PrevAuthToken = hashToken s rawToken))
    r hr (by simpa using hm) (fun x hx hp => huniq x hx (by simpa using hp))
  simp only [hfind]

theorem lookupToken_none (s : UserAuthTokenService) (st : State) (rawToken : String)
    (hno : ∀ x ∈ st.rows,
      x.AuthToken ≠ hashToken s rawToken ∧ x.PrevAuthToken ≠ hashToken s rawToken) :
    lookupToken s st rawToken = .error .ErrUserTokenNotFound := by
  unfold lookupToken
  have : dbGet s st (fun x : userAuthToken =>
      decide (x.AuthToken = hashToken s rawToken ∨ x.PrevAuthToken = hashToken s rawToken))
      = none := by
    apply dbGet_none
    intro x hx
    simp [hno x hx]
  simp only [this]

theorem LookupToken_cold (s : UserAuthTokenService) (st : State) (now : Int)
    (rawToken : String) (model : userAuthToken) (hashed : String)
    (hcold : cacheGet st now (cacheKey rawToken) = none)
    (hlk : lookupToken s st rawToken = .ok (model, hashed)) :
    LookupToken s st now rawToken =
      observeToken s
        (cacheSet st now (cacheKey rawToken)
          { hashedToken := hashed, userAuthtoken := model } cacheTTL)
        now model hashed rawToken := by
  simp only [LookupToken, lookupCachedToken, hcold, hlk]

theorem lookupCachedToken_store (s : UserAuthTokenService) (st : State) (now : Int)
    (rawToken : String) :
    (lookupCachedToken s st now rawToken).1.rows = st.rows ∧
    (lookupCachedToken s st now rawToken).1.nextId = st.nextId ∧
    (lookupCachedToken s st now rawToken).1.draws = st.draws := by
  unfold lookupCachedToken
  cases hc : cacheGet st now (cacheKey rawToken) with
  | some c => simp [hc]
  | none =>
    cases hl : lookupToken s st rawToken with
    | error e => simp [hc, hl]
    | ok p => simp [hc, hl, cacheSet]

theorem observeToken_revoked (s : UserAuthTokenService) (st1 : State) (now : Int)
    (model : userAuthToken) (hashed raw : String) (h : 0 < model.RevokedAt) :
    observeToken s st1 now model hashed raw =
      (st1, .error (.TokenRevokedError model.UserId model.Id)) := by
  unfold observeToken
  simp [h]

theorem observeToken_ok (s : UserAuthTokenService) (st1 : State) (now : Int)
    (model : userAuthToken) (hashed raw : String) (hrev : model.RevokedAt ≤ 0)
    (hexp : ¬ (model.CreatedAt ≤ createdAfterParam s now ∨
      model.RotatedAt ≤ rotatedAfterParam s now)) :
    ∃ t : UserToken, (observeToken s st1 now model hashed raw).2 = .ok t ∧
      t.Id = model.Id ∧ t.UserId = model.UserId ∧ t.UnhashedToken = raw := by
  unfold observeToken
  have h1 : ¬ (model.RevokedAt > 0) := by omega
  simp only [h1, hexp, if_false]
  refine ⟨_, rfl, ?_, ?_, ?_⟩
  · unfold observeCurrent
    split
    · simp only []
      split <;> simp [userAuthToken.toUserToken]
    · simp [userAuthToken.toUserToken]
  · unfold observeCurrent
    split
    · simp only []
      split <;> simp [userAuthToken.toUserToken]
    · simp [userAuthToken.toUserToken]
  · simp [userAuthToken.toUserToken]

theorem observeToken_current (s : UserAuthTokenService) (st1 : State) (now : Int)
    (r : userAuthToken) (hashed raw : String)
    (hnd : (st1.rows.map (fun x => x.Id)).Nodup) (hr : r ∈ st1.rows)
    (hrev : r.RevokedAt ≤ 0)
    (hexp : ¬ (r.CreatedAt ≤ createdAfterParam s now ∨ r.RotatedAt ≤ rotatedAfterParam s now))
    (hauth : r.AuthToken = hashed) (hseen : r.AuthTokenSeen = false) :
    observeToken s st1 now r hashed raw =
      ({ st1 with
          rows := replaceRow st1.rows r.Id
            (columns { r with AuthTokenSeen := true, SeenAt := Unix now }) },
       .ok ({ r with AuthTokenSeen := true, SeenAt := Unix now,
                     UnhashedToken := raw }).toUserToken) := by
  unfold observeToken
  have h1 : ¬ (r.RevokedAt > 0) := by omega
  simp only [h1, hexp, if_false]
  have hprev : observePrev st1 now r hashed = st1 := by
    unfold observePrev
    simp [hauth]
  rw [hprev]
  unfold observeCurrent
  simp only [hauth, hseen, and_self, if_true]
  have hmap := map_eq_replaceRow hnd hr
    (fun x : userAuthToken => decide (x.Id = r.Id ∧ x.AuthToken = hashed))
    (by simp [hauth]) (fun x _ hx => by simp at hx; exact hx.1)
    (fun x => columns { r with AuthTokenSeen := true, SeenAt := Unix now, Id := x.Id })
  have hlen := filter_length_one hnd hr
    (fun x : userAuthToken => decide (x.Id = r.Id ∧ x.AuthToken = hashed))
    (by simp [hauth]) (fun x _ hx => by simp at hx; exact hx.1)
  simp only [dbUpdateAllCols, hauth] at hmap hlen ⊢
  simp only [hlen, if_true]
  rw [hmap]

theorem replaceRow_append_last (l : List userAuthToken) (a r' : userAuthToken)
    (hl : ∀ x ∈ l, x.Id ≠ a.Id) : replaceRow (l ++ [a]) a.Id r' = l ++ [r'] := by
  unfold replaceRow
  rw [List.map_append]
  congr 1
  · have : l.map (fun x => if x.Id = a.Id then r' else x) = l.map id := by
      apply List.map_congr_left
      intro x hx
      simp [hl x hx]
    rw [this, List.map_id]
  · simp

theorem mem_replaceRow_cases {l : List userAuthToken} {id : Int} {r' x : userAuthToken}
    (hx : x ∈ replaceRow l id r') : x = r' ∨ (x ∈ l ∧ x.Id ≠ id) := by
  unfold replaceRow at hx
  obtain ⟨y, hy, hxy⟩ := List.mem_map.1 hx
  by_cases h : y.Id = id
  · simp [h] at hxy
    exact Or.inl hxy.symm
  · simp [h] at hxy
    subst hxy
    exact Or.inr ⟨hy, h⟩

theorem nodup_ids_append (st : State) (hwf : WellFormed st) (a : userAuthToken)
    (ha : a.Id = st.nextId) : ((st.rows ++ [a]).map (fun r => r.Id)).Nodup := by
  rw [List.map_append, List.nodup_append]
  refine ⟨hwf.1, by simp, ?_⟩
  intro x hx1 hx2
  simp only [List.map_cons, List.map_nil, List.mem_singleton] at hx2
  obtain ⟨y, hy, hyx⟩ := List.mem_map.1 hx1
  have := hwf.2 y hy
  omega

theorem CreateToken_ok (s : UserAuthTokenService) (st : State) (now : Int)
    (user : User) (clientIP : List Nat) (userAgent : String) (R : String)
    (hR : s.RandomHex st.draws = .ok R) :
    CreateToken s st now user clientIP userAgent =
      ({ rows := st.rows ++
          [{ Id := st.nextId, UserId := user.ID, AuthToken := hashToken s R,
             PrevAuthToken := hashToken s R, UserAgent := userAgent,
             ClientIp := clientIPStr s clientIP,
             AuthTokenSeen := false, SeenAt := 0, RotatedAt := Unix now,
             CreatedAt := Unix now, UpdatedAt := Unix now, RevokedAt := 0,
             UnhashedToken := "" }],
         nextId := st.nextId + 1, cache := st.cache, draws := st.draws + 1 },
       .ok { Id := st.nextId, UserId := user.ID, AuthToken := hashToken s R,
             PrevAuthToken := hashToken s R, UserAgent := userAgent,
             ClientIp := clientIPStr s clientIP,
             AuthTokenSeen := false, SeenAt := 0, RotatedAt := Unix now,
             CreatedAt := Unix now, UpdatedAt := Unix now, RevokedAt := 0,
             UnhashedToken := R }) := by
  unfold CreateToken
  simp [hR, dbInsert, columns, userAuthToken.toUserToken]

theorem CreateToken_ok_inv (s : UserAuthTokenService) (st : State) (now : Int)
    (user : User) (clientIP : List Nat) (userAgent : String) (tok : UserToken)
    (hok : (CreateToken s st now user clientIP userAgent).2 = .ok tok) :
    ∃ R, s.RandomHex st.draws = .ok R := by
  unfold CreateToken at hok
  cases hR : s.RandomHex st.draws with
  | error e => simp [hR] at hok
  | ok R => exact ⟨R, rfl⟩

/-- C1: with both lifetimes at least one second, a well-formed table in which
no row holds the hash of the new raw token, and no cache entry for that token,
a `LookupToken` of the raw token that `CreateToken` has just returned, at the
same clock value, succeeds with the creating user's id; the inserted row was
unseen and the lookup stores it with `auth_token_seen = true` and
`seen_at = now`; the token returned by the lookup is the created token with
`auth_token_seen = true` and `seen_at = now`, still carrying the raw token. -/
theorem C1_create_then_lookup (s : UserAuthTokenService) (st : State) (now : Int)
    (user : User) (clientIP : List Nat) (userAgent : String) (st1 : State) (tok : UserToken)
    (hL : Second ≤ s.cfg.LoginMaxLifetime) (hLI : Second ≤ s.cfg.LoginMaxInactiveLifetime)
    (hwf : WellFormed st)
    (hcreate : CreateToken s st now user clientIP userAgent = (st1, .ok tok))
    (hfresh : ∀ r ∈ st.rows, r.AuthToken ≠ hashToken s tok.UnhashedToken ∧
      r.PrevAuthToken ≠ hashToken s tok.UnhashedToken)
    (hcold : cacheGet st1 now (cacheKey tok.UnhashedToken) = none) :
    ∃ row : userAuthToken, st1.rows = st.rows ++ [row] ∧ row.AuthTokenSeen = false ∧
      row.Id = tok.Id ∧ row.UserId = user.ID ∧ tok.UserId = user.ID ∧
      (LookupToken s st1 now tok.UnhashedToken).2 =
        .ok { tok with AuthTokenSeen := true, SeenAt := Unix now } ∧
      (LookupToken s st1 now tok.UnhashedToken).1.rows =
        st.rows ++ [{ row with AuthTokenSeen := true, SeenAt := Unix now }] := by
  obtain ⟨R, hR⟩ := CreateToken_ok_inv s st now user clientIP userAgent tok (by rw [hcreate])
  rw [CreateToken_ok s st now user clientIP userAgent R hR] at hcreate
  injection hcreate with h1 h2
  injection h2 with h2
  subst h1 h2
  refine ⟨_, rfl, rfl, rfl, rfl, rfl, ?_⟩
  simp only at hfresh hcold ⊢
  obtain ⟨row, hrow⟩ : ∃ row : userAuthToken, row =
      { Id := st.nextId, UserId := user.ID, AuthToken := hashToken s R,
        PrevAuthToken := hashToken s R, UserAgent := userAgent,
        ClientIp := clientIPStr s clientIP,
        AuthTokenSeen := false, SeenAt := 0, RotatedAt := Unix now,
        CreatedAt := Unix now, UpdatedAt := Unix now, RevokedAt := 0,
        UnhashedToken := "" } := ⟨_, rfl⟩
  rw [← hrow] at hcold ⊢
  have hid : row.Id = st.nextId := by rw [hrow]
  have hauth : row.AuthToken = hashToken s R := by rw [hrow]
  have hseen : row.AuthTokenSeen = false := by rw [hrow]
  have hrev : row.RevokedAt ≤ 0 := by rw [hrow]
  have hexp : ¬ (row.CreatedAt ≤ createdAfterParam s now ∨
      row.RotatedAt ≤ rotatedAfterParam s now) := by
    have hc1 : Unix (now + -s.cfg.LoginMaxLifetime) < Unix now := Unix_sub_lt hL
    have hc2 : Unix (now + -s.cfg.LoginMaxInactiveLifetime) < Unix now := Unix_sub_lt hLI
    rw [hrow]
    simp only [createdAfterParam, rotatedAfterParam]
    omega
  have hnd := nodup_ids_append st hwf row hid
  have hmem : row ∈ st.rows ++ [row] := by simp
  have hlk := lookupToken_of_unique s
    { rows := st.rows ++ [row], nextId := st.nextId + 1, cache := st.cache,
      draws := st.draws + 1 } R row hmem (Or.inl hauth)
    (by
      intro x hx hm
      rcases List.mem_append.1 hx with h | h
      · exact absurd hm (by have := hfresh x h; tauto)
      · simpa using h)
  rw [LookupToken_cold s _ now R row _ hcold hlk]
  rw [observeToken_current s _ now row _ R hnd hmem hrev hexp hauth hseen]
  refine ⟨?_, ?_⟩
  · rw [hrow]
    simp [userAuthToken.toUserToken]
  · simp only [cacheSet]
    rw [replaceRow_append_last]
    · rw [hrow]
      simp [columns]
    · intro x hx
      have := hwf.2 x hx
      omega

/-- C9: a successful `CreateToken` drew a raw token `R`, appended exactly one
row to the table (all earlier rows are unchanged) with the next id, the user's
id, both slots equal to `hashToken R`, unseen, `seen_at = 0`,
`revoked_at = 0`, the three timestamps equal to the clock in seconds, the given
user agent and the textual client IP (empty for an empty IP), and returned the
projection of that row with `unhashed_token = R`; the stored row itself holds
no raw token. -/
theorem C9_CreateToken_inserts_one_row (s : UserAuthTokenService) (st : State) (now : Int)
    (user : User) (clientIP : List Nat) (userAgent : String) (tok : UserToken)
    (hok : (CreateToken s st now user clientIP userAgent).2 = .ok tok) :
    ∃ R : String, s.RandomHex st.draws = .ok R ∧
      (CreateToken s st now user clientIP userAgent).1.rows = st.rows ++
        [{ Id := st.nextId, UserId := user.ID, AuthToken := hashToken s R,
           PrevAuthToken := hashToken s R, UserAgent := userAgent,
           ClientIp := if clientIP.length = 0 then "" else s.ipString clientIP,
           AuthTokenSeen := false, SeenAt := 0, RotatedAt := Unix now,
           CreatedAt := Unix now, UpdatedAt := Unix now, RevokedAt := 0,
           UnhashedToken := "" }] ∧
      tok = { Id := st.nextId, UserId := user.ID, AuthToken := hashToken s R,
              PrevAuthToken := hashToken s R, UserAgent := userAgent,
              ClientIp := if clientIP.length = 0 then "" else s.ipString clientIP,
              AuthTokenSeen := false, SeenAt := 0, RotatedAt := Unix now,
              CreatedAt := Unix now, UpdatedAt := Unix now, RevokedAt := 0,
              UnhashedToken := R } := by
  obtain ⟨R, hR⟩ := CreateToken_ok_inv s st now user clientIP userAgent tok hok
  rw [CreateToken_ok s st now user clientIP userAgent R hR] at hok ⊢
  refine ⟨R, hR, rfl, ?_⟩
  injection hok with hok
  exact hok.symm

/-- C8: when the row that `LookupToken` fetched (from the cache or the store)
has `revoked_at = 0`, the lookup fails with `ErrTokenExpired` carrying the
row's user id and token id exactly when `created_at <= now - max_lifetime` or
`rotated_at <= now - max_inactive_lifetime` (seconds against nanoseconds: the
row's second stamp times `Second` against the clock minus the duration); in
that case the table and its id counter are unchanged, and otherwise the lookup
fails with no `ErrTokenExpired` at all. -/
theorem C8_expiry_check (s : UserAuthTokenService) (st : State) (now : Int)
    (unhashedToken : String) (st1 : State) (model : userAuthToken) (hashedToken : String)
    (hlk : lookupCachedToken s st now unhashedToken = (st1, .ok (model, hashedToken)))
    (hrev : model.RevokedAt = 0) :
    ((LookupToken s st now unhashedToken).2 =
        .error (.TokenExpiredError model.UserId model.Id) ↔
      (model.CreatedAt * Second ≤ now - s.cfg.LoginMaxLifetime ∨
        model.RotatedAt * Second ≤ now - s.cfg.LoginMaxInactiveLifetime)) ∧
    ((model.CreatedAt * Second ≤ now - s.cfg.LoginMaxLifetime ∨
        model.RotatedAt * Second ≤ now - s.cfg.LoginMaxInactiveLifetime) →
      (LookupToken s st now unhashedToken).1.rows = st.rows ∧
      (LookupToken s st now unhashedToken).1.nextId = st.nextId) ∧
    (¬ (model.CreatedAt * Second ≤ now - s.cfg.LoginMaxLifetime ∨
        model.RotatedAt * Second ≤ now - s.cfg.LoginMaxInactiveLifetime) →
      ∀ u t : Int, (LookupToken s st now unhashedToken).2 ≠ .error (.TokenExpiredError u t)) := by
  have hst := lookupCachedToken_store s st now unhashedToken
  rw [hlk] at hst
  have hiff : (model.CreatedAt ≤ createdAfterParam s now ∨
        model.RotatedAt ≤ rotatedAfterParam s now) ↔
      (model.CreatedAt * Second ≤ now - s.cfg.LoginMaxLifetime ∨
        model.RotatedAt * Second ≤ now - s.cfg.LoginMaxInactiveLifetime) := by
    simp only [createdAfterParam, rotatedAfterParam, le_Unix_iff, Int.sub_eq_add_neg]
  have hL : LookupToken s st now unhashedToken =
      observeToken s st1 now model hashedToken unhashedToken := by
    simp only [LookupToken, hlk]
  rw [hL]
  have h1 : ¬ (model.RevokedAt > 0) := by omega
  by_cases hexp : (model.CreatedAt ≤ createdAfterParam s now ∨
        model.RotatedAt ≤ rotatedAfterParam s now)
  · have hobs : observeToken s st1 now model hashedToken unhashedToken =
        (st1, .error (.TokenExpiredError model.UserId model.Id)) := by
      unfold observeToken
      simp only [h1, hexp, if_true, if_false]
    rw [hobs]
    refine ⟨⟨fun _ => hiff.1 hexp, fun _ => rfl⟩, fun _ => ⟨hst.1, hst.2.1⟩, ?_⟩
    intro hn
    exact absurd (hiff.1 hexp) hn
  · obtain ⟨t, ht, _⟩ := observeToken_ok s st1 now model hashedToken unhashedToken
      (by omega) hexp
    rw [ht]
    refine ⟨⟨fun h => (by cases h), fun h => absurd (hiff.2 h) hexp⟩, ?_, ?_⟩
    · intro h
      exact absurd (hiff.2 h) hexp
    · intro _ u t h
      cases h

/-! ## Rotation -/

theorem TryRotateToken_not_due (s : UserAuthTokenService) (st : State) (now : Int)
    (tok : UserToken) (clientIP : List Nat) (userAgent : String)
    (h : needsRotation s now (userAuthTokenFromUserToken tok) = false) :
    TryRotateToken s st now (some tok) clientIP userAgent =
      { state := st, token := some tok, rotated := false, err := none } := by
  simp [TryRotateToken, h]

theorem TryRotateToken_due (s : UserAuthTokenService) (st : State) (now : Int)
    (tok : UserToken) (clientIP : List Nat) (userAgent : String) (newToken : String)
    (h : needsRotation s now (userAuthTokenFromUserToken tok) = true)
    (hR : s.RandomHex st.draws = .ok newToken) :
    TryRotateToken s st now (some tok) clientIP userAgent =
      if (dbRotate { st with draws := st.draws + 1 } userAgent (clientIPStr s clientIP)
            (hashToken s newToken) now tok.Id).2 > 0 then
        { state := (dbRotate { st with draws := st.draws + 1 } userAgent
            (clientIPStr s clientIP) (hashToken s newToken) now tok.Id).1,
          token := some { tok with UnhashedToken := newToken },
          rotated := true, err := none }
      else
        { state := (dbRotate { st with draws := st.draws + 1 } userAgent
            (clientIPStr s clientIP) (hashToken s newToken) now tok.Id).1,
          token := some tok, rotated := false, err := none } := by
  unfold TryRotateToken
  simp only [h, hR, Bool.true_eq_false, if_false]
  rfl

theorem TryRotateToken_due_error (s : UserAuthTokenService) (st : State) (now : Int)
    (tok : UserToken) (clientIP : List Nat) (userAgent : String) (e : Error)
    (h : needsRotation s now (userAuthTokenFromUserToken tok) = true)
    (hR : s.RandomHex st.draws = .error e) :
    TryRotateToken s st now (some tok) clientIP userAgent =
      { state := { st with draws := st.draws + 1 }, token := some tok,
        rotated := false, err := some e } := by
  simp [TryRotateToken, h, hR]

theorem TryRotateToken_rotated_inv (s : UserAuthTokenService) (st : State) (now : Int)
    (tok : UserToken) (clientIP : List Nat) (userAgent : String)
    (h : (TryRotateToken s st now (some tok) clientIP userAgent).rotated = true) :
    needsRotation s now (userAuthTokenFromUserToken tok) = true ∧
    ∃ newToken, s.RandomHex st.draws = .ok newToken ∧
      (dbRotate { st with draws := st.draws + 1 } userAgent (clientIPStr s clientIP)
        (hashToken s newToken) now tok.Id).2 > 0 := by
  cases hdue : needsRotation s now (userAuthTokenFromUserToken tok) with
  | false =>
    rw [TryRotateToken_not_due s st now tok clientIP userAgent hdue] at h
    cases h
  | true =>
    refine ⟨rfl, ?_⟩
    cases hR : s.RandomHex st.draws with
    | error e =>
      rw [TryRotateToken_due_error s st now tok clientIP userAgent e hdue hR] at h
      cases h
    | ok newToken =>
      refine ⟨newToken, rfl, ?_⟩
      rw [TryRotateToken_due s st now tok clientIP userAgent newToken hdue hR] at h
      by_contra hn
      simp only [hn, if_false] at h
      cases h

theorem wrapInt64_of_range {x : Int} (h1 : -2 ^ 63 ≤ x) (h2 : x < 2 ^ 63) :
    wrapInt64 x = x := by
  unfold wrapInt64
  rw [Int.emod_eq_of_lt (by omega) (by omega)]
  omega

/-- While the rotation interval in nanoseconds fits 64 bits - at most
153722867 minutes in absolute value - the duration of line 281 is the
interval, negated. -/
theorem rotationOffset_of_range (s : UserAuthTokenService)
    (h1 : -153722867 ≤ s.cfg.TokenRotationIntervalMinutes)
    (h2 : s.cfg.TokenRotationIntervalMinutes ≤ 153722867) :
    rotationOffset s = -(s.cfg.TokenRotationIntervalMinutes * Minute) := by
  unfold rotationOffset
  rw [@wrapInt64_of_range (-s.cfg.TokenRotationIntervalMinutes) (by omega) (by omega)]
  rw [wrapInt64_of_range (by simp only [Minute, Second]; omega)
    (by simp only [Minute, Second]; omega)]
  ring

theorem needsRotation_iff (s : UserAuthTokenService) (N : Int) (model : userAuthToken)
    (h1 : -153722867 ≤ s.cfg.TokenRotationIntervalMinutes)
    (h2 : s.cfg.TokenRotationIntervalMinutes ≤ 153722867) :
    needsRotation s (N * Second) model = true ↔
      (model.AuthTokenSeen = true ∧
        model.RotatedAt < N - s.cfg.TokenRotationIntervalMinutes * 60) ∨
      (model.AuthTokenSeen = false ∧ model.RotatedAt < N - 60) := by
  unfold needsRotation
  rw [rotationOffset_of_range s h1 h2]
  cases hseen : model.AuthTokenSeen
  · simp only [timeUnix, urgentRotateTime, Minute, Second, Bool.false_eq_true, if_false,
      decide_eq_true_eq, false_and, true_and, false_or]
    omega
  · simp only [timeUnix, Minute, Second, if_true, decide_eq_true_eq, true_and,
      Bool.true_eq_false, false_and, or_false]
    omega

/-- C3 fails for a rotation interval whose nanosecond count overflows 64 bits:
with `token_rotation_interval_minutes = 200000000` the duration of line 281
wraps to a positive value, so for the observed row rotated at second 1660 the
condition `rotated_at < now - token_rotation_interval` is false at second
1661, yet rotation is judged due and `TryRotateToken` rotates the row. -/
theorem C3_rotation_interval_overflow :
    longIntervalService.cfg.TokenRotationIntervalMinutes = 200000000 ∧
    rotationOffset longIntervalService = 6446744073709551616 ∧
    demoRotatedSeen.rows = [demoRotatedSeenRow] ∧
    ¬ ((demoRotatedSeenRow.toUserToken.AuthTokenSeen = true ∧
        demoRotatedSeenRow.toUserToken.RotatedAt <
          1661 - longIntervalService.cfg.TokenRotationIntervalMinutes * 60) ∨
      (demoRotatedSeenRow.toUserToken.AuthTokenSeen = false ∧
        demoRotatedSeenRow.toUserToken.RotatedAt < 1661 - 60)) ∧
    needsRotation longIntervalService (1661 * Second) demoRotatedSeenRow = true ∧
    (TryRotateToken longIntervalService demoRotatedSeen (1661 * Second)
      (some demoRotatedSeenRow.toUserToken) [10, 0, 0, 1] "ua-b").rotated = true ∧
    (TryRotateToken longIntervalService demoRotatedSeen (1661 * Second)
      (some demoRotatedSeenRow.toUserToken) [10, 0, 0, 1] "ua-b").state.rows.map
        (fun r => (r.Id, r.AuthToken, r.PrevAuthToken, r.RotatedAt)) =
      [(1, "#r2k", "#r1k", 1661)] := by
  decide

/-- C3 (amended): while the rotation interval in nanoseconds fits 64 bits (at
most 153722867 minutes in absolute value), at a clock value of `N` whole
seconds rotation is due exactly when the token is seen and
`rotated_at < N - 60 * token_rotation_interval_minutes`, or unseen and
`rotated_at < N - 60`; when due, `TryRotateToken` draws a new token and, the
draw succeeding, leaves the store as the rotation statement leaves it; when
not due it returns `(false, nil)` with the world (store, cache, number of
draws) and the caller's token unchanged; a nil token also yields
`(false, nil)` and changes nothing. -/
theorem C3_rotation_decision (s : UserAuthTokenService) (st : State) (N : Int)
    (tok : UserToken) (clientIP : List Nat) (userAgent : String)
    (h1 : -153722867 ≤ s.cfg.TokenRotationIntervalMinutes)
    (h2 : s.cfg.TokenRotationIntervalMinutes ≤ 153722867) :
    (needsRotation s (N * Second) (userAuthTokenFromUserToken tok) = true ↔
      (tok.AuthTokenSeen = true ∧
        tok.RotatedAt < N - s.cfg.TokenRotationIntervalMinutes * 60) ∨
      (tok.AuthTokenSeen = false ∧ tok.RotatedAt < N - 60)) ∧
    (needsRotation s (N * Second) (userAuthTokenFromUserToken tok) = true →
      (TryRotateToken s st (N * Second) (some tok) clientIP userAgent).state.draws =
        st.draws + 1 ∧
      ∀ newToken, s.RandomHex st.draws = .ok newToken →
        (TryRotateToken s st (N * Second) (some tok) clientIP userAgent).state =
          (dbRotate { st with draws := st.draws + 1 } userAgent (clientIPStr s clientIP)
            (hashToken s newToken) (N * Second) tok.Id).1) ∧
    (needsRotation s (N * Second) (userAuthTokenFromUserToken tok) = false →
      TryRotateToken s st (N * Second) (some tok) clientIP userAgent =
        { state := st, token := some tok, rotated := false, err := none }) ∧
    TryRotateToken s st (N * Second) none clientIP userAgent =
      { state := st, token := none, rotated := false, err := none } := by
  refine ⟨needsRotation_iff s N _ h1 h2, ?_,
    TryRotateToken_not_due s st _ tok clientIP userAgent, rfl⟩
  intro hdue
  cases hR : s.RandomHex st.draws with
  | error e =>
    rw [TryRotateToken_due_error s st _ tok clientIP userAgent e hdue hR]
    exact ⟨rfl, fun n hn => by cases hn⟩
  | ok newToken =>
    rw [TryRotateToken_due s st _ tok clientIP userAgent newToken hdue hR]
    constructor
    · split <;> simp [dbRotate]
    · intro n hn
      injection hn with hn
      subst hn
      split <;> rfl

/-- C3 (amended) at the observed demo token, rotated at second 1000, with the
interval of 10 minutes: due at second 1660, not due at second 1500. -/
theorem C3_rotation_decision_witness :
    (-153722867 ≤ demoService.cfg.TokenRotationIntervalMinutes ∧
      demoService.cfg.TokenRotationIntervalMinutes ≤ 153722867) ∧
    (needsRotation demoService (1660 * Second) (userAuthTokenFromUserToken demoSeenToken) =
        true ↔
      (demoSeenToken.AuthTokenSeen = true ∧
        demoSeenToken.RotatedAt <
          1660 - demoService.cfg.TokenRotationIntervalMinutes * 60) ∨
      (demoSeenToken.AuthTokenSeen = false ∧ demoSeenToken.RotatedAt < 1660 - 60)) ∧
    TryRotateToken demoService demoSeen (1500 * Second) (some demoSeenToken)
        [10, 0, 0, 1] "ua-b" =
      { state := demoSeen, token := some demoSeenToken, rotated := false, err := none } :=
  ⟨⟨by decide, by decide⟩,
   (C3_rotation_decision demoService demoSeen 1660 demoSeenToken [10, 0, 0, 1] "ua-b"
      (by decide) (by decide)).1,
   (C3_rotation_decision demoService demoSeen 1500 demoSeenToken [10, 0, 0, 1] "ua-b"
      (by decide) (by decide)).2.2.1 (by decide)⟩

theorem rotateGuard_id {id now : Int} {x : userAuthToken}
    (h : rotateGuard id now x = true) : x.Id = id := by
  unfold rotateGuard at h
  simp only [decide_eq_true_eq] at h
  exact h.1

theorem dbRotate_hit (st : State) (userAgent ip hashed : String) (now : Int)
    (r : userAuthToken) (hnd : (st.rows.map (fun x => x.Id)).Nodup) (hr : r ∈ st.rows)
    (hg : rotateGuard r.Id now r = true) :
    dbRotate st userAgent ip hashed now r.Id =
      ({ st with rows := replaceRow st.rows r.Id (rotateRow userAgent ip hashed (Unix now) r) },
       1) := by
  unfold dbRotate
  rw [map_eq_replaceRow hnd hr (rotateGuard r.Id now) hg (fun x _ hx => rotateGuard_id hx)
    (rotateRow userAgent ip hashed (Unix now))]
  rw [filter_length_one hnd hr (rotateGuard r.Id now) hg (fun x _ hx => rotateGuard_id hx)]

theorem dbRotate_miss (st : State) (userAgent ip hashed : String) (now : Int)
    (r : userAuthToken) (hnd : (st.rows.map (fun x => x.Id)).Nodup) (hr : r ∈ st.rows)
    (hg : rotateGuard r.Id now r = false) :
    dbRotate st userAgent ip hashed now r.Id = (st, 0) := by
  have hall : ∀ x ∈ st.rows, rotateGuard r.Id now x = false := by
    intro x hx
    by_contra hc
    simp only [Bool.not_eq_false] at hc
    have : x = r := row_eq_of_id_eq hnd hx hr (rotateGuard_id hc)
    subst this
    rw [hg] at hc
    cases hc
  unfold dbRotate
  rw [map_eq_self (rotateGuard r.Id now) hall, filter_length_zero (rotateGuard r.Id now) hall]

/-- C2: in a well-formed table, when `TryRotateToken` on the token of a stored
row returns `rotated = true`, the table afterwards is the old one with exactly
that row replaced: `auth_token` is the hash of the new raw token,
`auth_token_seen = false`, `seen_at = 0`, `rotated_at = now`, client IP and
user agent are the arguments, `prev_auth_token` is the old `auth_token` if the
old row was seen and the old `prev_auth_token` otherwise, and id, user id,
`created_at`, `updated_at` and `revoked_at` are kept. -/
theorem C2_rotation_update (s : UserAuthTokenService) (st : State) (now : Int)
    (tok : UserToken) (clientIP : List Nat) (userAgent : String) (r : userAuthToken)
    (hwf : WellFormed st) (hr : r ∈ st.rows) (hid : r.Id = tok.Id)
    (hrot : (TryRotateToken s st now (some tok) clientIP userAgent).rotated = true) :
    ∃ newToken : String, s.RandomHex st.draws = .ok newToken ∧
      (TryRotateToken s st now (some tok) clientIP userAgent).state.rows =
        replaceRow st.rows r.Id
          { Id := r.Id, UserId := r.UserId, AuthToken := hashToken s newToken,
            PrevAuthToken := if r.AuthTokenSeen = true then r.AuthToken else r.PrevAuthToken,
            UserAgent := userAgent,
            ClientIp := if clientIP.length = 0 then "" else s.ipString clientIP,
            AuthTokenSeen := false, SeenAt := 0, RotatedAt := Unix now,
            CreatedAt := r.CreatedAt, UpdatedAt := r.UpdatedAt, RevokedAt := r.RevokedAt,
            UnhashedToken := r.UnhashedToken } ∧
      (TryRotateToken s st now (some tok) clientIP userAgent).state.nextId = st.nextId := by
  obtain ⟨hdue, newToken, hR, haff⟩ :=
    TryRotateToken_rotated_inv s st now tok clientIP userAgent hrot
  refine ⟨newToken, hR, ?_⟩
  rw [TryRotateToken_due s st now tok clientIP userAgent newToken hdue hR]
  simp only [haff, if_true]
  rw [← hid] at haff ⊢
  have hg : rotateGuard r.Id now r = true := by
    by_contra hc
    simp only [Bool.not_eq_true] at hc
    rw [dbRotate_miss { st with draws := st.draws + 1 } _ _ _ now r hwf.1 hr hc] at haff
    simp at haff
  rw [dbRotate_hit { st with draws := st.draws + 1 } _ _ _ now r hwf.1 hr hg]
  exact ⟨rfl, rfl⟩

/-! ## Revocation -/

theorem noContent_of_revoked (bean : userAuthToken) (h : bean.RevokedAt ≠ 0) :
    noContent bean = false := by
  unfold noContent
  simp [h]

theorem dbUpdateById_hit (st : State) (bean r : userAuthToken)
    (hnd : (st.rows.map (fun x => x.Id)).Nodup) (hr : r ∈ st.rows)
    (hnc : noContent bean = false) :
    dbUpdateById st r.Id bean =
      .ok ({ st with rows := replaceRow st.rows r.Id (updateNonZero bean r) }, 1) := by
  unfold dbUpdateById
  simp only [hnc, Bool.false_eq_true, if_false]
  have hmap := map_eq_replaceRow hnd hr (fun x : userAuthToken => decide (x.Id = r.Id))
    (by simp) (fun x _ hx => by simpa using hx) (updateNonZero bean)
  have hlen := filter_length_one hnd hr (fun x : userAuthToken => decide (x.Id = r.Id))
    (by simp) (fun x _ hx => by simpa using hx)
  simp only [decide_eq_true_eq] at hmap
  rw [hmap, hlen]

theorem updateNonZero_self_revoked (r : userAuthToken) (raw : String) (t : Int) (ht : t ≠ 0) :
    updateNonZero { r with UnhashedToken := raw, RevokedAt := t } r =
      { r with RevokedAt := t } := by
  unfold updateNonZero
  simp [ht]

/-- Soft revocation with an exact copy of the stored row: for a stored row
that the raw token resolves to and a token that is the projection of that row,
`RevokeToken(token, soft = true)` at a clock value with positive second stamp
succeeds and only sets the row's `revoked_at`; a following `LookupToken` of
the raw token with no cache entry for it, at any clock value (expired or not),
returns `ErrTokenRevoked` with the row's user id and token id and leaves the
table as the revocation left it. -/
theorem soft_revoke_of_copy_then_cold_lookup (s : UserAuthTokenService) (st : State)
    (now now2 : Int) (unhashedToken : String) (r : userAuthToken) (tok : UserToken)
    (hwf : WellFormed st) (hr : r ∈ st.rows)
    (hm : r.AuthToken = hashToken s unhashedToken ∨
      r.PrevAuthToken = hashToken s unhashedToken)
    (huniq : ∀ x ∈ st.rows, x.AuthToken = hashToken s unhashedToken ∨
      x.PrevAuthToken = hashToken s unhashedToken → x = r)
    (htok : userAuthTokenFromUserToken tok = { r with UnhashedToken := unhashedToken })
    (hnow : 0 < Unix now)
    (hcold : cacheGet st now2 (cacheKey unhashedToken) = none) :
    RevokeToken s st now (some tok) true =
      ({ st with rows := replaceRow st.rows r.Id { r with RevokedAt := Unix now } }, none) ∧
    (LookupToken s (RevokeToken s st now (some tok) true).1 now2 unhashedToken).2 =
      .error (.TokenRevokedError r.UserId r.Id) ∧
    (LookupToken s (RevokeToken s st now (some tok) true).1 now2 unhashedToken).1.rows =
      (RevokeToken s st now (some tok) true).1.rows := by
  have hrv : RevokeToken s st now (some tok) true =
      ({ st with rows := replaceRow st.rows r.Id { r with RevokedAt := Unix now } }, none) := by
    unfold RevokeToken
    simp only [htok, if_true]
    rw [dbUpdateById_hit st _ r hwf.1 hr (noContent_of_revoked _ (by simp; omega))]
    rw [updateNonZero_self_revoked r unhashedToken (Unix now) (by omega)]
    simp
  refine ⟨hrv, ?_⟩
  rw [hrv]
  simp only
  have hmem : ({ r with RevokedAt := Unix now } : userAuthToken) ∈
      replaceRow st.rows r.Id { r with RevokedAt := Unix now } := mem_replaceRow hr
  have hlk := lookupToken_of_unique s
    { st with rows := replaceRow st.rows r.Id { r with RevokedAt := Unix now } }
    unhashedToken { r with RevokedAt := Unix now } hmem hm
    (by
      intro x hx hxm
      rcases mem_replaceRow_cases hx with h | ⟨h1, h2⟩
      · exact h
      · exact absurd (congrArg userAuthToken.Id (huniq x h1 hxm)) h2)
  rw [LookupToken_cold s
    { st with rows := replaceRow st.rows r.Id { r with RevokedAt := Unix now } }
    now2 unhashedToken _ _ hcold hlk]
  rw [observeToken_revoked s _ now2 _ _ _ hnow]
  exact ⟨rfl, rfl⟩

theorem TryRotateToken_won (s : UserAuthTokenService) (st : State) (now : Int)
    (tok : UserToken) (clientIP : List Nat) (userAgent : String) (r : userAuthToken)
    (hwf : WellFormed st) (hr : r ∈ st.rows) (hid : tok.Id = r.Id)
    (hrot : (TryRotateToken s st now (some tok) clientIP userAgent).rotated = true) :
    ∃ newToken : String, s.RandomHex st.draws = .ok newToken ∧
      rotateGuard r.Id now r = true ∧
      TryRotateToken s st now (some tok) clientIP userAgent =
        { state := { st with
            rows := replaceRow st.rows r.Id
              (rotateRow userAgent (clientIPStr s clientIP) (hashToken s newToken) (Unix now) r),
            draws := st.draws + 1 },
          token := some { tok with UnhashedToken := newToken },
          rotated := true, err := none } := by
  obtain ⟨hdue, newToken, hR, haff⟩ :=
    TryRotateToken_rotated_inv s st now tok clientIP userAgent hrot
  refine ⟨newToken, hR, ?_⟩
  rw [TryRotateToken_due s st now tok clientIP userAgent newToken hdue hR]
  simp only [haff, if_true]
  rw [hid] at haff ⊢
  have hg : rotateGuard r.Id now r = true := by
    by_contra hc
    simp only [Bool.not_eq_true] at hc
    rw [dbRotate_miss { st with draws := st.draws + 1 } _ _ _ now r hwf.1 hr hc] at haff
    simp at haff
  rw [dbRotate_hit { st with draws := st.draws + 1 } _ _ _ now r hwf.1 hr hg]
  exact ⟨hg, rfl⟩

theorem TryRotateToken_guard_lost (s : UserAuthTokenService) (st : State) (now : Int)
    (tok : UserToken) (clientIP : List Nat) (userAgent : String) (r : userAuthToken)
    (hnd : (st.rows.map (fun x => x.Id)).Nodup) (hr : r ∈ st.rows) (hid : tok.Id = r.Id)
    (hg : rotateGuard r.Id now r = false) :
    (TryRotateToken s st now (some tok) clientIP userAgent).rotated = false ∧
    (TryRotateToken s st now (some tok) clientIP userAgent).state.rows = st.rows ∧
    (TryRotateToken s st now (some tok) clientIP userAgent).token = some tok ∧
    ((∃ n, s.RandomHex st.draws = .ok n) →
      (TryRotateToken s st now (some tok) clientIP userAgent).err = none) := by
  cases hdue : needsRotation s now (userAuthTokenFromUserToken tok) with
  | false =>
    rw [TryRotateToken_not_due s st now tok clientIP userAgent hdue]
    exact ⟨rfl, rfl, rfl, fun _ => rfl⟩
  | true =>
    cases hR : s.RandomHex st.draws with
    | error e =>
      rw [TryRotateToken_due_error s st now tok clientIP userAgent e hdue hR]
      refine ⟨rfl, rfl, rfl, ?_⟩
      rintro ⟨n, hn⟩
      cases hn
    | ok newToken =>
      rw [TryRotateToken_due s st now tok clientIP userAgent newToken hdue hR]
      rw [hid, dbRotate_miss { st with draws := st.draws + 1 } _ _ _ now r hnd hr hg]
      simp

/-- C4: two `TryRotateToken` calls on the same stored row, the second applied
to the state the first left, the second's clock at most 30 s after the first's
(it may also be earlier), with no other operation in between: they never both
return `rotated = true`; and when the first caller's snapshot agrees with the
stored row, both judge rotation due and both draws succeed, the first returns
true, the second returns `(false, nil)`, and the table is the one the first
call wrote. -/
theorem C4_rotation_race (s : UserAuthTokenService) (st : State) (r : userAuthToken)
    (tok1 tok2 : UserToken) (now1 now2 : Int) (ip1 ip2 : List Nat) (ua1 ua2 : String)
    (hwf : WellFormed st) (hr : r ∈ st.rows) (hid1 : tok1.Id = r.Id) (hid2 : tok2.Id = r.Id)
    (hclose : now2 - now1 ≤ 30 * Second) :
    ¬ ((TryRotateToken s st now1 (some tok1) ip1 ua1).rotated = true ∧
       (TryRotateToken s (TryRotateToken s st now1 (some tok1) ip1 ua1).state now2
          (some tok2) ip2 ua2).rotated = true) ∧
    (tok1.AuthTokenSeen = r.AuthTokenSeen → tok1.RotatedAt = r.RotatedAt →
      needsRotation s now1 (userAuthTokenFromUserToken tok1) = true →
      needsRotation s now2 (userAuthTokenFromUserToken tok2) = true →
      ∀ n1 n2 : String, s.RandomHex st.draws = .ok n1 → s.RandomHex (st.draws + 1) = .ok n2 →
      (TryRotateToken s st now1 (some tok1) ip1 ua1).rotated = true ∧
      (TryRotateToken s st now1 (some tok1) ip1 ua1).state.rows =
        replaceRow st.rows r.Id
          (rotateRow ua1 (clientIPStr s ip1) (hashToken s n1) (Unix now1) r) ∧
      (TryRotateToken s (TryRotateToken s st now1 (some tok1) ip1 ua1).state now2
          (some tok2) ip2 ua2).rotated = false ∧
      (TryRotateToken s (TryRotateToken s st now1 (some tok1) ip1 ua1).state now2
          (some tok2) ip2 ua2).err = none ∧
      (TryRotateToken s (TryRotateToken s st now1 (some tok1) ip1 ua1).state now2
          (some tok2) ip2 ua2).state.rows =
        (TryRotateToken s st now1 (some tok1) ip1 ua1).state.rows) := by
  -- what the second call meets once the first has won
  have hsecond : (TryRotateToken s st now1 (some tok1) ip1 ua1).rotated = true →
      ∃ n1 : String, s.RandomHex st.draws = .ok n1 ∧
      (TryRotateToken s st now1 (some tok1) ip1 ua1).state.rows =
        replaceRow st.rows r.Id
          (rotateRow ua1 (clientIPStr s ip1) (hashToken s n1) (Unix now1) r) ∧
      (TryRotateToken s st now1 (some tok1) ip1 ua1).state.draws = st.draws + 1 ∧
      (TryRotateToken s (TryRotateToken s st now1 (some tok1) ip1 ua1).state now2
          (some tok2) ip2 ua2).rotated = false ∧
      (TryRotateToken s (TryRotateToken s st now1 (some tok1) ip1 ua1).state now2
          (some tok2) ip2 ua2).state.rows =
        (TryRotateToken s st now1 (some tok1) ip1 ua1).state.rows ∧
      ((∃ n, s.RandomHex (st.draws + 1) = .ok n) →
        (TryRotateToken s (TryRotateToken s st now1 (some tok1) ip1 ua1).state now2
          (some tok2) ip2 ua2).err = none) := by
    intro hrot
    obtain ⟨n1, hR1, _, hres⟩ := TryRotateToken_won s st now1 tok1 ip1 ua1 r hwf hr hid1 hrot
    rw [hres]
    have hmem : rotateRow ua1 (clientIPStr s ip1) (hashToken s n1) (Unix now1) r ∈
        replaceRow st.rows r.Id
          (rotateRow ua1 (clientIPStr s ip1) (hashToken s n1) (Unix now1) r) :=
      mem_replaceRow hr
    have hnd : ((replaceRow st.rows r.Id
        (rotateRow ua1 (clientIPStr s ip1) (hashToken s n1) (Unix now1) r)).map
          (fun x => x.Id)).Nodup := by
      rw [replaceRow_ids st.rows r.Id
        (rotateRow ua1 (clientIPStr s ip1) (hashToken s n1) (Unix now1) r) rfl]
      exact hwf.1
    have hg : rotateGuard
        (rotateRow ua1 (clientIPStr s ip1) (hashToken s n1) (Unix now1) r).Id now2
        (rotateRow ua1 (clientIPStr s ip1) (hashToken s n1) (Unix now1) r) = false := by
      have hmono : Unix (now2 + -(30 * Second)) ≤ Unix now1 := Unix_mono (by omega)
      simp only [rotateGuard, rotateRow, decide_eq_false_iff_not]
      intro h
      rcases h.2 with h2 | h2
      · cases h2
      · omega
    have hlost := TryRotateToken_guard_lost s
      { st with
        rows := replaceRow st.rows r.Id
          (rotateRow ua1 (clientIPStr s ip1) (hashToken s n1) (Unix now1) r),
        draws := st.draws + 1 } now2 tok2 ip2 ua2 _ hnd hmem hid2 hg
    exact ⟨n1, hR1, rfl, rfl, hlost.1, hlost.2.1, hlost.2.2.2⟩
  constructor
  · rintro ⟨h1, h2⟩
    obtain ⟨_, _, _, _, h3, _⟩ := hsecond h1
    rw [h3] at h2
    cases h2
  · intro hseen hrotAt hdue1 _ n1 n2 hR1 hR2
    have hg : rotateGuard r.Id now1 r = true := by
      have hdue := hdue1
      unfold needsRotation at hdue
      simp only [userAuthTokenFromUserToken, hseen, hrotAt] at hdue
      simp only [rotateGuard, decide_eq_true_eq, true_and]
      cases hs : r.AuthTokenSeen
      · right
        simp only [hs, Bool.false_eq_true, if_false, decide_eq_true_eq, timeUnix,
          urgentRotateTime, Minute] at hdue
        have : r.RotatedAt + 30 ≤ Unix (now1 + -(30 * Second)) := by
          rw [le_Unix_iff]
          simp only [Second] at hdue ⊢
          omega
        omega
      · left
        rfl
    have hrot : (TryRotateToken s st now1 (some tok1) ip1 ua1).rotated = true := by
      rw [TryRotateToken_due s st now1 tok1 ip1 ua1 n1 hdue1 hR1, hid1,
        dbRotate_hit { st with draws := st.draws + 1 } _ _ _ now1 r hwf.1 hr hg]
      simp
    obtain ⟨m1, hm1, hrows, _, h3, h4, h5⟩ := hsecond hrot
    have : m1 = n1 := by
      rw [hR1] at hm1
      injection hm1 with hm1
      exact hm1.symm
    subst this
    exact ⟨hrot, hrows, h3, h5 ⟨n2, hR2⟩, h4⟩

/-! ## The previous slot along a history -/

theorem PrevSlotKnown_mono {hist : List State} {c : userAuthToken} (st : State)
    (h : PrevSlotKnown hist c) : PrevSlotKnown (st :: hist) c := by
  rcases h with h | ⟨st1, hst1, r, hr, h1, h2⟩
  · exact Or.inl h
  · exact Or.inr ⟨st1, List.mem_cons_of_mem _ hst1, r, hr, h1, h2⟩

/-- A row whose previous slot was copied from the previous or the current
slot of a row of the history is accounted for. -/
theorem PrevSlotKnown_of_derived {st : State} {hist : List State} {c1 : userAuthToken}
    (hinv : ∀ st1 ∈ st :: hist, ∀ c ∈ st1.rows, PrevSlotKnown hist c)
    (h : c1.PrevAuthToken = c1.AuthToken ∨ ∃ st1 ∈ st :: hist, ∃ c ∈ st1.rows,
      c.Id = c1.Id ∧ (c1.PrevAuthToken = c.PrevAuthToken ∨ c1.PrevAuthToken = c.AuthToken)) :
    PrevSlotKnown (st :: hist) c1 := by
  rcases h with h | ⟨st1, hst1, c, hc, hid, hp | hp⟩
  · exact Or.inl h
  · rcases hinv st1 hst1 c hc with h | ⟨st2, hst2, r, hr, h1, h2⟩
    · exact Or.inr ⟨st1, hst1, c, hc, hid, by rw [hp, h]⟩
    · exact Or.inr ⟨st2, List.mem_cons_of_mem _ hst2, r, hr, by rw [h1, hid], by rw [h2, hp]⟩
  · exact Or.inr ⟨st1, hst1, c, hc, hid, hp.symm⟩

theorem mem_dbUpdateAllCols {st : State} {cond : userAuthToken → Bool} {bean c1 : userAuthToken}
    (h : c1 ∈ (dbUpdateAllCols st cond bean).1.rows) :
    c1 ∈ st.rows ∨ ∃ r ∈ st.rows, cond r = true ∧ c1 = columns { bean with Id := r.Id } := by
  simp only [dbUpdateAllCols, List.mem_map] at h
  obtain ⟨r, hr, hrc⟩ := h
  by_cases hc : cond r = true
  · simp only [hc, if_true] at hrc
    exact Or.inr ⟨r, hr, hc, hrc.symm⟩
  · simp only [hc] at hrc
    simp only [Bool.false_eq_true, if_false] at hrc
    exact Or.inl (hrc ▸ hr)

theorem mem_observePrev {st1 : State} {now : Int} {model c1 : userAuthToken} {hashed : String}
    (h : c1 ∈ (observePrev st1 now model hashed).rows) :
    c1 ∈ st1.rows ∨ (c1.Id = model.Id ∧ c1.PrevAuthToken = model.PrevAuthToken ∧
      c1.AuthToken = model.AuthToken) := by
  unfold observePrev at h
  split at h
  · rcases mem_dbUpdateAllCols h with h1 | ⟨r, _, hc, heq⟩
    · exact Or.inl h1
    · simp only [decide_eq_true_eq] at hc
      subst heq
      exact Or.inr ⟨hc.1, rfl, rfl⟩
  · exact Or.inl h

theorem observePrev_cache (st1 : State) (now : Int) (model : userAuthToken) (hashed : String) :
    (observePrev st1 now model hashed).cache = st1.cache := by
  unfold observePrev
  split <;> rfl

theorem mem_observeCurrent {st1 : State} {now : Int} {model c1 : userAuthToken}
    {hashed : String} (h : c1 ∈ (observeCurrent st1 now model hashed).1.rows) :
    c1 ∈ st1.rows ∨ (c1.Id = model.Id ∧ c1.PrevAuthToken = model.PrevAuthToken ∧
      c1.AuthToken = model.AuthToken) := by
  unfold observeCurrent at h
  split at h
  · rcases mem_dbUpdateAllCols h with h1 | ⟨r, _, hc, heq⟩
    · exact Or.inl h1
    · simp only [decide_eq_true_eq] at hc
      subst heq
      exact Or.inr ⟨hc.1, rfl, rfl⟩
  · exact Or.inl h

theorem observeCurrent_cache (st1 : State) (now : Int) (model : userAuthToken)
    (hashed : String) : (observeCurrent st1 now model hashed).1.cache = st1.cache := by
  unfold observeCurrent
  split <;> rfl

theorem mem_observeToken {s : UserAuthTokenService} {st1 : State} {now : Int}
    {model c1 : userAuthToken} {hashed raw : String}
    (h : c1 ∈ (observeToken s st1 now model hashed raw).1.rows) :
    c1 ∈ st1.rows ∨ (c1.Id = model.Id ∧ c1.PrevAuthToken = model.PrevAuthToken ∧
      c1.AuthToken = model.AuthToken) := by
  unfold observeToken at h
  split at h
  · exact Or.inl h
  · split at h
    · exact Or.inl h
    · rcases mem_observeCurrent h with h1 | h1
      · exact mem_observePrev h1
      · exact Or.inr h1

theorem observeToken_cache (s : UserAuthTokenService) (st1 : State) (now : Int)
    (model : userAuthToken) (hashed raw : String) :
    (observeToken s st1 now model hashed raw).1.cache = st1.cache := by
  unfold observeToken
  split
  · rfl
  · split
    · rfl
    · simp only [observeCurrent_cache, observePrev_cache]

theorem lookupToken_mem {s : UserAuthTokenService} {st : State} {raw : String}
    {model : userAuthToken} {hashed : String}
    (h : lookupToken s st raw = .ok (model, hashed)) : model ∈ st.rows := by
  unfold lookupToken at h
  simp only at h
  cases hfind : dbGet s st (fun r => decide (r.AuthToken = hashToken s raw ∨
      r.PrevAuthToken = hashToken s raw)) with
  | none =>
    simp only [hfind] at h
    cases h
  | some m =>
    simp only [hfind] at h
    injection h with h
    injection h with h1 _
    subst h1
    exact (dbGet_mem s st _ _ hfind).1

/-- Where the row that `LookupToken` works on comes from, and what its cache
holds afterwards. -/
theorem lookupCachedToken_source {s : UserAuthTokenService} {st st1 : State} {now : Int}
    {raw : String} {model : userAuthToken} {hashed : String}
    (h : lookupCachedToken s st now raw = (st1, .ok (model, hashed))) :
    st1.rows = st.rows ∧
    (model ∈ st.rows ∨ ∃ it ∈ st.cache, it.value.userAuthtoken = model) ∧
    (∀ it ∈ st1.cache, it ∈ st.cache ∨ it.value.userAuthtoken ∈ st.rows) := by
  unfold lookupCachedToken at h
  cases hc : cacheGet st now (cacheKey raw) with
  | some c =>
    simp only [hc] at h
    injection h with h1 h2
    injection h2 with h2
    injection h2 with h2 h3
    subst h1
    refine ⟨rfl, Or.inr ?_, fun it hit => Or.inl hit⟩
    unfold cacheGet at hc
    split at hc
    · rename_i it hfind
      split at hc
      · injection hc with hc
        exact ⟨it, List.mem_of_find?_eq_some hfind, by rw [hc, h2]⟩
      · cases hc
    · cases hc
  | none =>
    simp only [hc] at h
    cases hl : lookupToken s st raw with
    | error e =>
      simp only [hl] at h
      injection h with _ h2
      cases h2
    | ok p =>
      obtain ⟨m, hh⟩ := p
      simp only [hl] at h
      injection h with h1 h2
      injection h2 with h2
      injection h2 with h2 h3
      subst h1 h2 h3
      have hm := lookupToken_mem hl
      refine ⟨rfl, Or.inl hm, ?_⟩
      intro it hit
      simp only [cacheSet, List.mem_cons] at hit
      rcases hit with hit | hit
      · subst hit
        exact Or.inr hm
      · exact Or.inl (List.mem_of_mem_filter hit)

theorem LookupToken_rows_cache {s : UserAuthTokenService} {st : State} {now : Int}
    {raw : String} :
    (∀ c1 ∈ (LookupToken s st now raw).1.rows, c1 ∈ st.rows ∨
      ∃ model : userAuthToken,
        (model ∈ st.rows ∨ ∃ it ∈ st.cache, it.value.userAuthtoken = model) ∧
        c1.Id = model.Id ∧ c1.PrevAuthToken = model.PrevAuthToken) ∧
    (∀ it ∈ (LookupToken s st now raw).1.cache,
      it ∈ st.cache ∨ it.value.userAuthtoken ∈ st.rows) := by
  unfold LookupToken
  split
  · rename_i st1 e heq
    have hst := lookupCachedToken_store s st now raw
    rw [heq] at hst
    constructor
    · intro c1 hc1
      exact Or.inl (hst.1 ▸ hc1)
    · intro it hit
      -- an unsuccessful probe leaves the cache as it was
      unfold lookupCachedToken at heq
      cases hc : cacheGet st now (cacheKey raw) with
      | some c =>
        simp only [hc] at heq
        injection heq with _ h2
        cases h2
      | none =>
        simp only [hc] at heq
        cases hl : lookupToken s st raw with
        | error e1 =>
          simp only [hl] at heq
          injection heq with h1 _
          subst h1
          exact Or.inl hit
        | ok p =>
          simp only [hl] at heq
          injection heq with _ h2
          cases h2
  · rename_i st1 model hashed heq
    obtain ⟨hrows, hsrc, hcache⟩ := lookupCachedToken_source heq
    constructor
    · intro c1 hc1
      rcases mem_observeToken hc1 with h | ⟨h1, h2, _⟩
      · exact Or.inl (hrows ▸ h)
      · exact Or.inr ⟨model, hsrc, h1, h2⟩
    · intro it hit
      rw [observeToken_cache] at hit
      exact hcache it hit

theorem CreateToken_rows_cache (s : UserAuthTokenService) (st : State) (now : Int)
    (user : User) (clientIP : List Nat) (userAgent : String) :
    (∀ c1 ∈ (CreateToken s st now user clientIP userAgent).1.rows,
      c1 ∈ st.rows ∨ c1.PrevAuthToken = c1.AuthToken) ∧
    (CreateToken s st now user clientIP userAgent).1.cache = st.cache := by
  cases hR : s.RandomHex st.draws with
  | error e =>
    have : CreateToken s st now user clientIP userAgent =
        ({ st with draws := st.draws + 1 }, .error e) := by
      unfold CreateToken
      simp only [hR]
    rw [this]
    exact ⟨fun c1 h => Or.inl h, rfl⟩
  | ok R =>
    rw [CreateToken_ok s st now user clientIP userAgent R hR]
    refine ⟨?_, rfl⟩
    intro c1 h
    simp only [List.mem_append, List.mem_singleton] at h
    rcases h with h | h
    · exact Or.inl h
    · subst h
      exact Or.inr rfl

theorem mem_dbRotate {st : State} {userAgent ip hashed : String} {now id : Int}
    {c1 : userAuthToken} (h : c1 ∈ (dbRotate st userAgent ip hashed now id).1.rows) :
    c1 ∈ st.rows ∨ ∃ r ∈ st.rows, r.Id = c1.Id ∧
      (c1.PrevAuthToken = r.PrevAuthToken ∨ c1.PrevAuthToken = r.AuthToken) := by
  simp only [dbRotate, List.mem_map] at h
  obtain ⟨r, hr, hrc⟩ := h
  by_cases hg : rotateGuard id now r = true
  · simp only [hg, if_true] at hrc
    subst hrc
    refine Or.inr ⟨r, hr, rfl, ?_⟩
    simp only [rotateRow]
    by_cases hs : r.AuthTokenSeen = true
    · exact Or.inr (by simp [hs])
    · exact Or.inl (by simp [hs])
  · simp only [hg, Bool.false_eq_true, if_false] at hrc
    exact Or.inl (hrc ▸ hr)

theorem TryRotateToken_rows_cache (s : UserAuthTokenService) (st : State) (now : Int)
    (token : Option UserToken) (clientIP : List Nat) (userAgent : String) :
    (∀ c1 ∈ (TryRotateToken s st now token clientIP userAgent).state.rows,
      c1 ∈ st.rows ∨ ∃ r ∈ st.rows, r.Id = c1.Id ∧
        (c1.PrevAuthToken = r.PrevAuthToken ∨ c1.PrevAuthToken = r.AuthToken)) ∧
    (TryRotateToken s st now token clientIP userAgent).state.cache = st.cache := by
  cases token with
  | none => exact ⟨fun c1 h => Or.inl h, rfl⟩
  | some tok =>
    cases hdue : needsRotation s now (userAuthTokenFromUserToken tok) with
    | false =>
      rw [TryRotateToken_not_due s st now tok clientIP userAgent hdue]
      exact ⟨fun c1 h => Or.inl h, rfl⟩
    | true =>
      cases hR : s.RandomHex st.draws with
      | error e =>
        rw [TryRotateToken_due_error s st now tok clientIP userAgent e hdue hR]
        exact ⟨fun c1 h => Or.inl h, rfl⟩
      | ok newToken =>
        rw [TryRotateToken_due s st now tok clientIP userAgent newToken hdue hR]
        split
        · exact ⟨fun c1 h => mem_dbRotate h, rfl⟩
        · exact ⟨fun c1 h => mem_dbRotate h, rfl⟩

theorem RevokeToken_soft_rows_cache (s : UserAuthTokenService) (st : State) (now : Int)
    (tok : UserToken) :
    (∀ c1 ∈ (RevokeToken s st now (some tok) true).1.rows,
      c1 ∈ st.rows ∨ ∃ r ∈ st.rows, r.Id = c1.Id ∧ r.Id = tok.Id ∧
        (c1.PrevAuthToken = r.PrevAuthToken ∨ c1.PrevAuthToken = tok.PrevAuthToken)) ∧
    (RevokeToken s st now (some tok) true).1.cache = st.cache := by
  have hrows : ∀ c1 ∈ st.rows.map (fun r =>
        if r.Id = (userAuthTokenFromUserToken tok).Id then
          updateNonZero { userAuthTokenFromUserToken tok with RevokedAt := Unix now } r
        else r),
      c1 ∈ st.rows ∨ ∃ r ∈ st.rows, r.Id = c1.Id ∧ r.Id = tok.Id ∧
        (c1.PrevAuthToken = r.PrevAuthToken ∨ c1.PrevAuthToken = tok.PrevAuthToken) := by
    intro c1 h
    simp only [List.mem_map] at h
    obtain ⟨r, hr, hrc⟩ := h
    by_cases hid : r.Id = (userAuthTokenFromUserToken tok).Id
    · simp only [hid, if_true] at hrc
      subst hrc
      refine Or.inr ⟨r, hr, rfl, hid, ?_⟩
      simp only [updateNonZero, userAuthTokenFromUserToken]
      by_cases hp : tok.PrevAuthToken = ""
      · exact Or.inl (by simp [hp])
      · exact Or.inr (by simp [hp])
    · simp only [hid, if_false] at hrc
      exact Or.inl (hrc ▸ hr)
  unfold RevokeToken
  simp only [if_true]
  cases hu : dbUpdateById st (userAuthTokenFromUserToken tok).Id
      { userAuthTokenFromUserToken tok with RevokedAt := Unix now } with
  | error e => exact ⟨fun c1 h => Or.inl h, rfl⟩
  | ok upd =>
    unfold dbUpdateById at hu
    split at hu
    · cases hu
    · injection hu with hu
      subst hu
      simp only
      constructor
      · intro c1 h
        apply hrows c1
        split at h <;> exact h
      · split <;> rfl

theorem RevokeToken_hard_rows_cache (s : UserAuthTokenService) (st : State) (now : Int)
    (tok : UserToken) :
    (∀ c1 ∈ (RevokeToken s st now (some tok) false).1.rows, c1 ∈ st.rows) ∧
    (RevokeToken s st now (some tok) false).1.cache = st.cache := by
  unfold RevokeToken
  simp only [Bool.false_eq_true, if_false]
  cases hd : dbDelete st (userAuthTokenFromUserToken tok) with
  | error e => exact ⟨fun c1 h => h, rfl⟩
  | ok upd =>
    unfold dbDelete at hd
    split at hd
    · cases hd
    · injection hd with hd
      subst hd
      simp only
      split
      · exact ⟨fun c1 h => List.mem_of_mem_filter h, rfl⟩
      · exact ⟨fun c1 h => List.mem_of_mem_filter h, rfl⟩

theorem RevokeAll_rows_cache (st : State) (userId : Int) :
    (∀ c1 ∈ (RevokeAllUserTokens st userId).1.rows, c1 ∈ st.rows) ∧
    (RevokeAllUserTokens st userId).1.cache = st.cache :=
  ⟨fun _ h => List.mem_of_mem_filter h, rfl⟩

/-- The store that `BatchRevokeAllUserTokens` leaves: the store it found, or
that store without the rows of the listed users. -/
theorem BatchRevoke_state (s : UserAuthTokenService) (st : State) (userIds : List Int) :
    (BatchRevokeAllUserTokens s st userIds).1 = st ∨
    ∃ params : List Int, (BatchRevokeAllUserTokens s st userIds).1 =
      { st with rows := st.rows.filter (fun r => !decide (r.UserId ∈ params)) } := by
  unfold BatchRevokeAllUserTokens
  split
  · exact Or.inl rfl
  · cases hd : dbDeleteUserIdIn s st (batchRevokeParams userIds) with
    | error e => exact Or.inl rfl
    | ok st1 =>
      unfold dbDeleteUserIdIn at hd
      split at hd
      · cases hd
      · injection hd with hd
        exact Or.inr ⟨batchRevokeParams userIds, hd.symm⟩

theorem BatchRevoke_rows_cache (s : UserAuthTokenService) (st : State) (userIds : List Int) :
    (∀ c1 ∈ (BatchRevokeAllUserTokens s st userIds).1.rows, c1 ∈ st.rows) ∧
    (BatchRevokeAllUserTokens s st userIds).1.cache = st.cache := by
  rcases BatchRevoke_state s st userIds with h | ⟨params, h⟩
  · rw [h]
    exact ⟨fun _ h => h, rfl⟩
  · rw [h]
    exact ⟨fun _ h => List.mem_of_mem_filter h, rfl⟩

theorem HistoryInv_step (s : UserAuthTokenService) {st : State} {hist : List State} (op : Op)
    (hinv : HistoryInv (st :: hist)) (hallow : op.allowed (st :: hist)) :
    HistoryInv (step s st op :: st :: hist) := by
  obtain ⟨hrows, hcache⟩ := hinv
  -- rows that are kept, and rows whose previous slot is copied from a row of the history
  have hkeep : ∀ c1 ∈ st.rows, PrevSlotKnown (st :: hist) c1 := fun c1 h =>
    PrevSlotKnown_mono st (hrows st (List.mem_cons_self _ _) c1 h)
  have hder := fun (c1 : userAuthToken) h =>
    @PrevSlotKnown_of_derived st hist c1 hrows h
  have hold : ∀ st1 ∈ st :: hist, ∀ c ∈ st1.rows, PrevSlotKnown (st :: hist) c :=
    fun st1 h1 c hc => PrevSlotKnown_mono st (hrows st1 h1 c hc)
  have hcache_same : (step s st op).cache = st.cache →
      ∀ it ∈ (step s st op).cache, ∃ st1 ∈ step s st op :: st :: hist,
        it.value.userAuthtoken ∈ st1.rows := by
    intro heq it hit
    rw [heq] at hit
    obtain ⟨st1, h1, h2⟩ := hcache it hit
    exact ⟨st1, List.mem_cons_of_mem _ h1, h2⟩
  have hnew : (∀ c1 ∈ (step s st op).rows, PrevSlotKnown (st :: hist) c1) ∧
      (∀ it ∈ (step s st op).cache, ∃ st1 ∈ step s st op :: st :: hist,
        it.value.userAuthtoken ∈ st1.rows) := by
    cases op with
    | create now user clientIP userAgent =>
      obtain ⟨h1, h2⟩ := CreateToken_rows_cache s st now user clientIP userAgent
      refine ⟨fun c1 hc1 => ?_, hcache_same h2⟩
      rcases h1 c1 hc1 with h | h
      · exact hkeep c1 h
      · exact Or.inl h
    | lookup now raw =>
      obtain ⟨h1, h2⟩ := @LookupToken_rows_cache s st now raw
      constructor
      · intro c1 hc1
        rcases h1 c1 hc1 with h | ⟨model, hsrc, hid, hp⟩
        · exact hkeep c1 h
        · rcases hsrc with hm | ⟨it, hit, hv⟩
          · exact hder c1 (Or.inr ⟨st, List.mem_cons_self _ _, model, hm, hid.symm, Or.inl hp⟩)
          · obtain ⟨st1, hst1, hmem⟩ := hcache it hit
            rw [hv] at hmem
            exact hder c1 (Or.inr ⟨st1, hst1, model, hmem, hid.symm, Or.inl hp⟩)
      · intro it hit
        rcases h2 it hit with h | h
        · obtain ⟨st1, hst1, hmem⟩ := hcache it h
          exact ⟨st1, List.mem_cons_of_mem _ hst1, hmem⟩
        · exact ⟨st, List.mem_cons_of_mem _ (List.mem_cons_self _ _), h⟩
    | rotate now token clientIP userAgent =>
      obtain ⟨h1, h2⟩ := TryRotateToken_rows_cache s st now token clientIP userAgent
      refine ⟨fun c1 hc1 => ?_, hcache_same h2⟩
      rcases h1 c1 hc1 with h | ⟨r, hr, hid, hp⟩
      · exact hkeep c1 h
      · exact hder c1 (Or.inr ⟨st, List.mem_cons_self _ _, r, hr, hid, hp⟩)
    | revoke now token soft =>
      cases token with
      | none => exact ⟨fun c1 hc1 => hkeep c1 hc1, hcache_same rfl⟩
      | some tok =>
        cases soft with
        | false =>
          obtain ⟨h1, h2⟩ := RevokeToken_hard_rows_cache s st now tok
          exact ⟨fun c1 hc1 => hkeep c1 (h1 c1 hc1), hcache_same h2⟩
        | true =>
          obtain ⟨h1, h2⟩ := RevokeToken_soft_rows_cache s st now tok
          refine ⟨fun c1 hc1 => ?_, hcache_same h2⟩
          rcases h1 c1 hc1 with h | ⟨r, hr, hid, hidt, hp | hp⟩
          · exact hkeep c1 h
          · exact hder c1 (Or.inr ⟨st, List.mem_cons_self _ _, r, hr, hid, Or.inl hp⟩)
          · obtain ⟨st1, hst1, c, hc, hcols⟩ := hallow
            have hcid : c.Id = tok.Id := by
              have := congrArg userAuthToken.Id hcols
              simpa [columns, userAuthTokenFromUserToken] using this.symm
            have hcp : c.PrevAuthToken = tok.PrevAuthToken := by
              have := congrArg userAuthToken.PrevAuthToken hcols
              simpa [columns, userAuthTokenFromUserToken] using this.symm
            exact hder c1 (Or.inr ⟨st1, hst1, c, hc, by rw [hcid, ← hidt, hid],
              Or.inl (by rw [hp, hcp])⟩)
    | revokeAll userId =>
      obtain ⟨h1, h2⟩ := RevokeAll_rows_cache st userId
      exact ⟨fun c1 hc1 => hkeep c1 (h1 c1 hc1), hcache_same h2⟩
    | batchRevoke userIds =>
      obtain ⟨h1, h2⟩ := BatchRevoke_rows_cache s st userIds
      exact ⟨fun c1 hc1 => hkeep c1 (h1 c1 hc1), hcache_same h2⟩
  refine ⟨?_, hnew.2⟩
  intro st1 hst1 c hc
  rcases List.mem_cons.1 hst1 with h | h
  · subst h
    exact hnew.1 c hc
  · exact hold st1 h c hc

theorem Reachable_HistoryInv (s : UserAuthTokenService) {H : List State}
    (h : Reachable s H) : HistoryInv H := by
  induction h with
  | init =>
    refine ⟨?_, ?_⟩
    · intro st1 hst1 c hc
      simp only [List.mem_singleton] at hst1
      subst hst1
      cases hc
    · intro it hit
      cases hit
  | step op _ hallow ih => exact HistoryInv_step s op ih hallow

/-- C5 fails after the rotation of a token that was never observed: the row
issued at second 1000 and rotated unseen at second 1070 holds the hash of `r1`
in the current slot and of `r0` in the previous one; the rotation at second
1140 succeeds, and an immediate lookup of the old raw token `r1`, cache cold,
finds no row. -/
theorem C5_unseen_rotation_drops_old_token :
    (run demoService State.empty unseenOps).rows =
      [{ Id := 1, UserId := 42, AuthToken := hashToken demoService "r1",
         PrevAuthToken := hashToken demoService "r0", UserAgent := "ua-a",
         ClientIp := "10.0.0.1", AuthTokenSeen := false, SeenAt := 0, RotatedAt := 1070,
         CreatedAt := 1000, UpdatedAt := 1000, RevokedAt := 0, UnhashedToken := "" }] ∧
    (run demoService State.empty unseenOps).cache = [] ∧
    (TryRotateToken demoService (run demoService State.empty unseenOps) (1140 * Second)
      (some demoRotatedToken) [10, 0, 0, 1] "ua-b").rotated = true ∧
    (LookupToken demoService
      (TryRotateToken demoService (run demoService State.empty unseenOps) (1140 * Second)
        (some demoRotatedToken) [10, 0, 0, 1] "ua-b").state (1140 * Second) "r1").2 =
      .error .ErrUserTokenNotFound :=
  ⟨by decide, by decide, by decide, by rfl⟩

/-- C5 (amended): in a well-formed table, for an unrevoked stored row whose
outgoing token was observed (or whose two slots are still equal) and a
`TryRotateToken` on it that returns `rotated = true`, a `LookupToken` of the
old raw token and one of the new raw token, each with no cache entry for its
raw token and at a clock value at which the rotated row is unexpired, both
succeed with that row's token id and user id, provided no other row holds
either hash. -/
theorem C5_rotated_tokens_resolve (s : UserAuthTokenService) (st : State) (now now2 : Int)
    (tok : UserToken) (clientIP : List Nat) (userAgent : String) (r : userAuthToken)
    (oldRaw newRaw : String)
    (hwf : WellFormed st) (hr : r ∈ st.rows) (hid : tok.Id = r.Id)
    (hold : hashToken s oldRaw = r.AuthToken)
    (hgrace : r.AuthTokenSeen = true ∨ r.PrevAuthToken = r.AuthToken)
    (hrev : r.RevokedAt = 0)
    (hrot : (TryRotateToken s st now (some tok) clientIP userAgent).rotated = true)
    (hnew : s.RandomHex st.draws = .ok newRaw)
    (hunexp : now2 - s.cfg.LoginMaxLifetime < r.CreatedAt * Second ∧
      now2 - s.cfg.LoginMaxInactiveLifetime < Unix now * Second)
    (huniq : ∀ x ∈ st.rows, x.Id ≠ r.Id →
      x.AuthToken ≠ hashToken s oldRaw ∧ x.PrevAuthToken ≠ hashToken s oldRaw ∧
      x.AuthToken ≠ hashToken s newRaw ∧ x.PrevAuthToken ≠ hashToken s newRaw)
    (hcoldOld : cacheGet st now2 (cacheKey oldRaw) = none)
    (hcoldNew : cacheGet st now2 (cacheKey newRaw) = none) :
    (TryRotateToken s st now (some tok) clientIP userAgent).token =
      some { tok with UnhashedToken := newRaw } ∧
    (∃ t : UserToken,
      (LookupToken s (TryRotateToken s st now (some tok) clientIP userAgent).state now2
        oldRaw).2 = .ok t ∧ t.Id = r.Id ∧ t.UserId = r.UserId) ∧
    (∃ t : UserToken,
      (LookupToken s (TryRotateToken s st now (some tok) clientIP userAgent).state now2
        newRaw).2 = .ok t ∧ t.Id = r.Id ∧ t.UserId = r.UserId) := by
  obtain ⟨n, hn, _, hres⟩ := TryRotateToken_won s st now tok clientIP userAgent r hwf hr hid hrot
  have hnn : n = newRaw := by
    rw [hnew] at hn
    injection hn with hn
    exact hn.symm
  subst hnn
  rw [hres]
  obtain ⟨r1, hr1⟩ : ∃ r1, r1 = rotateRow userAgent (clientIPStr s clientIP) (hashToken s n)
    (Unix now) r := ⟨_, rfl⟩
  rw [← hr1]
  have hr1id : r1.Id = r.Id := by rw [hr1]; rfl
  have hr1user : r1.UserId = r.UserId := by rw [hr1]; rfl
  have hr1auth : r1.AuthToken = hashToken s n := by rw [hr1]; rfl
  have hr1prev : r1.PrevAuthToken = hashToken s oldRaw := by
    rw [hr1, hold]
    simp only [rotateRow]
    rcases hgrace with h | h
    · simp [h]
    · simp [h]
  have hr1rev : r1.RevokedAt ≤ 0 := by
    rw [hr1]
    simp only [rotateRow]
    omega
  have hr1exp : ¬ (r1.CreatedAt ≤ createdAfterParam s now2 ∨
      r1.RotatedAt ≤ rotatedAfterParam s now2) := by
    rw [hr1]
    simp only [rotateRow, createdAfterParam, rotatedAfterParam, le_Unix_iff]
    omega
  have hmem : r1 ∈ replaceRow st.rows r.Id r1 := mem_replaceRow hr
  have hu : ∀ raw, (raw = oldRaw ∨ raw = n) → ∀ x ∈ replaceRow st.rows r.Id r1,
      x.AuthToken = hashToken s raw ∨ x.PrevAuthToken = hashToken s raw → x = r1 := by
    intro raw hraw x hx hxm
    rcases mem_replaceRow_cases hx with h | ⟨h1, h2⟩
    · exact h
    · have := huniq x h1 h2
      rcases hraw with h | h <;> subst h <;> tauto
  refine ⟨rfl, ?_, ?_⟩
  · have hlk := lookupToken_of_unique s
      { st with rows := replaceRow st.rows r.Id r1, draws := st.draws + 1 }
      oldRaw r1 hmem (Or.inr hr1prev) (hu oldRaw (Or.inl rfl))
    rw [LookupToken_cold s
      { st with rows := replaceRow st.rows r.Id r1, draws := st.draws + 1 }
      now2 oldRaw _ _ hcoldOld hlk]
    obtain ⟨t, ht, h1, h2, _⟩ := observeToken_ok s
      (cacheSet { st with rows := replaceRow st.rows r.Id r1, draws := st.draws + 1 } now2
        (cacheKey oldRaw) { hashedToken := hashToken s oldRaw, userAuthtoken := r1 } cacheTTL)
      now2 r1 (hashToken s oldRaw) oldRaw hr1rev hr1exp
    exact ⟨t, ht, by rw [h1, hr1id], by rw [h2, hr1user]⟩
  · have hlk := lookupToken_of_unique s
      { st with rows := replaceRow st.rows r.Id r1, draws := st.draws + 1 }
      n r1 hmem (Or.inl hr1auth) (hu n (Or.inr rfl))
    rw [LookupToken_cold s
      { st with rows := replaceRow st.rows r.Id r1, draws := st.draws + 1 }
      now2 n _ _ hcoldNew hlk]
    obtain ⟨t, ht, h1, h2, _⟩ := observeToken_ok s
      (cacheSet { st with rows := replaceRow st.rows r.Id r1, draws := st.draws + 1 } now2
        (cacheKey n) { hashedToken := hashToken s n, userAuthtoken := r1 } cacheTTL)
      now2 r1 (hashToken s n) n hr1rev hr1exp
    exact ⟨t, ht, by rw [h1, hr1id], by rw [h2, hr1user]⟩

/-- C6 fails on the code: after create, lookup and soft revoke the row has
`revoked_at = 1001`; a lookup one second later is served from the cache entry
taken before the revocation, succeeds, and its all-columns update stores
`revoked_at = 0` again. -/
theorem C6_stale_cache_lookup_clears_revoked_at :
    (run demoService State.empty revokeOps).rows.map (fun r => (r.Id, r.RevokedAt)) =
      [(1, 1001)] ∧
    (LookupToken demoService (run demoService State.empty revokeOps) (1002 * Second) "r0").2 =
      .ok { demoToken with AuthTokenSeen := true, SeenAt := 1002 } ∧
    (LookupToken demoService (run demoService State.empty revokeOps)
      (1002 * Second) "r0").1.rows.map (fun r => (r.Id, r.RevokedAt)) = [(1, 0)] :=
  ⟨by decide, by rfl, by decide⟩

/-- C10 fails after two rotations of tokens that were never observed: the
row's slots go from (`#r1k`, `#r0k`) to (`#r2k`, `#r0k`), so the previous slot is
neither the current token nor the one held immediately before the last
rotation.  It also fails after a soft revoke with a token of the caller's
making: the previous slot of row 1 takes the token's value `#zzk`, which the
row never held. -/
theorem C10_chained_unseen_rotations :
    (run demoService State.empty unseenOps).rows.map
      (fun r => (r.Id, r.AuthToken, r.PrevAuthToken)) = [(1, "#r1k", "#r0k")] ∧
    (TryRotateToken demoService (run demoService State.empty unseenOps) (1140 * Second)
      (some demoRotatedToken) [10, 0, 0, 1] "ua-b").rotated = true ∧
    (run demoService State.empty chainedOps).rows.map
      (fun r => (r.Id, r.AuthToken, r.PrevAuthToken)) = [(1, "#r2k", "#r0k")] ∧
    ¬ (∀ r ∈ (run demoService State.empty chainedOps).rows,
        r.PrevAuthToken = r.AuthToken ∨
        ∃ r0 ∈ (run demoService State.empty unseenOps).rows,
          r0.Id = r.Id ∧ r0.AuthToken = r.PrevAuthToken) ∧
    (RevokeToken demoService demoCreated (1001 * Second) (some forgedPrevToken) true).2 =
      none ∧
    (RevokeToken demoService demoCreated (1001 * Second) (some forgedPrevToken)
      true).1.rows.map (fun r => (r.Id, r.AuthToken, r.PrevAuthToken)) =
      [(1, "#r0k", "#zzk")] := by
  decide

/-- C1 at the first token of the worked examples. -/
theorem C1_create_then_lookup_witness :
    ∃ row : userAuthToken, demoCreated.rows = State.empty.rows ++ [row] ∧
      row.AuthTokenSeen = false ∧ row.Id = demoToken.Id ∧ row.UserId = 42 ∧
      demoToken.UserId = 42 ∧
      (LookupToken demoService demoCreated (1000 * Second) demoToken.UnhashedToken).2 =
        .ok { demoToken with AuthTokenSeen := true, SeenAt := Unix (1000 * Second) } ∧
      (LookupToken demoService demoCreated (1000 * Second) demoToken.UnhashedToken).1.rows =
        State.empty.rows ++
          [{ row with AuthTokenSeen := true, SeenAt := Unix (1000 * Second) }] :=
  C1_create_then_lookup demoService State.empty (1000 * Second) ⟨42⟩ [10, 0, 0, 1] "ua-a"
    demoCreated demoToken (by decide) (by decide) (by unfold WellFormed; decide) (by rfl)
    (by decide) (by rfl)

/-- C2 at the rotation of the observed demo row, 11 minutes after issue. -/
theorem C2_rotation_update_witness :
    ∃ newToken : String, demoService.RandomHex demoSeen.draws = .ok newToken ∧
      (TryRotateToken demoService demoSeen (1660 * Second) (some demoSeenToken)
          [10, 0, 0, 1] "ua-b").state.rows =
        replaceRow demoSeen.rows demoSeenRow.Id
          { Id := 1, UserId := 42, AuthToken := hashToken demoService newToken,
            PrevAuthToken := "#r0k", UserAgent := "ua-b", ClientIp := "10.0.0.1",
            AuthTokenSeen := false, SeenAt := 0, RotatedAt := 1660,
            CreatedAt := 1000, UpdatedAt := 1000, RevokedAt := 0,
            UnhashedToken := "" } ∧
      (TryRotateToken demoService demoSeen (1660 * Second) (some demoSeenToken)
          [10, 0, 0, 1] "ua-b").state.nextId = demoSeen.nextId :=
  C2_rotation_update demoService demoSeen (1660 * Second) demoSeenToken [10, 0, 0, 1] "ua-b"
    demoSeenRow (by unfold WellFormed; decide) (by decide) (by decide) (by decide)

/-- C4 at two rotations of the observed demo row one second apart. -/
theorem C4_rotation_race_witness :
    (TryRotateToken demoService demoSeen (1660 * Second) (some demoSeenToken)
      [10, 0, 0, 1] "ua-a").rotated = true ∧
    (TryRotateToken demoService
      (TryRotateToken demoService demoSeen (1660 * Second) (some demoSeenToken)
        [10, 0, 0, 1] "ua-a").state (1661 * Second) (some demoSeenToken)
      [10, 0, 0, 2] "ua-b").rotated = false ∧
    (TryRotateToken demoService
      (TryRotateToken demoService demoSeen (1660 * Second) (some demoSeenToken)
        [10, 0, 0, 1] "ua-a").state (1661 * Second) (some demoSeenToken)
      [10, 0, 0, 2] "ua-b").err = none :=
  have h := (C4_rotation_race demoService demoSeen demoSeenRow demoSeenToken demoSeenToken
    (1660 * Second) (1661 * Second) [10, 0, 0, 1] [10, 0, 0, 2] "ua-a" "ua-b"
    (by unfold WellFormed; decide) (by decide) (by decide) (by decide) (by decide)).2
    (by decide) (by decide) (by decide) (by decide) "r1" "r2" (by rfl) (by rfl)
  ⟨h.1, h.2.2.1, h.2.2.2.1⟩

/-- C5 (amended) at the rotation of the observed demo row: old and new raw token resolve 40 s later. -/
theorem C5_rotated_tokens_resolve_witness :
    (TryRotateToken demoService demoSeen (1660 * Second) (some demoSeenToken)
      [10, 0, 0, 1] "ua-b").token = some { demoSeenToken with UnhashedToken := "r1" } ∧
    (∃ t : UserToken,
      (LookupToken demoService (TryRotateToken demoService demoSeen (1660 * Second)
        (some demoSeenToken) [10, 0, 0, 1] "ua-b").state (1700 * Second) "r0").2 = .ok t ∧
      t.Id = demoSeenRow.Id ∧ t.UserId = demoSeenRow.UserId) ∧
    (∃ t : UserToken,
      (LookupToken demoService (TryRotateToken demoService demoSeen (1660 * Second)
        (some demoSeenToken) [10, 0, 0, 1] "ua-b").state (1700 * Second) "r1").2 = .ok t ∧
      t.Id = demoSeenRow.Id ∧ t.UserId = demoSeenRow.UserId) :=
  C5_rotated_tokens_resolve demoService demoSeen (1660 * Second) (1700 * Second)
    demoSeenToken [10, 0, 0, 1] "ua-b" demoSeenRow "r0" "r1"
    (by unfold WellFormed; decide) (by decide) (by decide) (by decide) (by decide)
    (by decide) (by decide) (by rfl) (by decide) (by decide) (by rfl) (by rfl)

/-- The soft revoke of the observed demo row with the token of its lookup. -/
theorem soft_revoke_of_copy_then_cold_lookup_demo :
    RevokeToken demoService demoSeen (1001 * Second) (some demoSeenToken) true =
      ({ demoSeen with
          rows := replaceRow demoSeen.rows demoSeenRow.Id
            { demoSeenRow with RevokedAt := Unix (1001 * Second) } }, none) ∧
    (LookupToken demoService
      (RevokeToken demoService demoSeen (1001 * Second) (some demoSeenToken) true).1
      (1002 * Second) "r0").2 =
      .error (.TokenRevokedError demoSeenRow.UserId demoSeenRow.Id) ∧
    (LookupToken demoService
      (RevokeToken demoService demoSeen (1001 * Second) (some demoSeenToken) true).1
      (1002 * Second) "r0").1.rows =
      (RevokeToken demoService demoSeen (1001 * Second) (some demoSeenToken) true).1.rows :=
  soft_revoke_of_copy_then_cold_lookup demoService demoSeen (1001 * Second) (1002 * Second) "r0"
    demoSeenRow demoSeenToken (by unfold WellFormed; decide) (by decide) (by decide)
    (by decide) (by rfl) (by decide) (by rfl)

/-- C9 at the first token of the worked examples. -/
theorem C9_CreateToken_inserts_one_row_witness :
    ∃ R : String, demoService.RandomHex State.empty.draws = .ok R ∧
      (CreateToken demoService State.empty (1000 * Second) ⟨42⟩ [10, 0, 0, 1] "ua-a").1.rows =
        State.empty.rows ++
        [{ Id := State.empty.nextId, UserId := 42, AuthToken := hashToken demoService R,
           PrevAuthToken := hashToken demoService R, UserAgent := "ua-a",
           ClientIp := "10.0.0.1",
           AuthTokenSeen := false, SeenAt := 0, RotatedAt := Unix (1000 * Second),
           CreatedAt := Unix (1000 * Second), UpdatedAt := Unix (1000 * Second),
           RevokedAt := 0, UnhashedToken := "" }] ∧
      demoToken =
        { Id := State.empty.nextId, UserId := 42, AuthToken := hashToken demoService R,
          PrevAuthToken := hashToken demoService R, UserAgent := "ua-a",
          ClientIp := "10.0.0.1",
          AuthTokenSeen := false, SeenAt := 0, RotatedAt := Unix (1000 * Second),
          CreatedAt := Unix (1000 * Second), UpdatedAt := Unix (1000 * Second),
          RevokedAt := 0, UnhashedToken := R } :=
  C9_CreateToken_inserts_one_row demoService State.empty (1000 * Second) ⟨42⟩ [10, 0, 0, 1]
    "ua-a" demoToken (by rfl)

/-- C8 at the demo row at the instant its maximum lifetime ends. -/
theorem C8_expiry_check_witness :
    ((LookupToken demoService demoCreated demoExpiry "r0").2 =
        .error (.TokenExpiredError demoRow.UserId demoRow.Id) ↔
      (demoRow.CreatedAt * Second ≤ demoExpiry - demoService.cfg.LoginMaxLifetime ∨
        demoRow.RotatedAt * Second ≤
          demoExpiry - demoService.cfg.LoginMaxInactiveLifetime)) ∧
    ((demoRow.CreatedAt * Second ≤ demoExpiry - demoService.cfg.LoginMaxLifetime ∨
        demoRow.RotatedAt * Second ≤
          demoExpiry - demoService.cfg.LoginMaxInactiveLifetime) →
      (LookupToken demoService demoCreated demoExpiry "r0").1.rows = demoCreated.rows ∧
      (LookupToken demoService demoCreated demoExpiry "r0").1.nextId = demoCreated.nextId) ∧
    (¬ (demoRow.CreatedAt * Second ≤ demoExpiry - demoService.cfg.LoginMaxLifetime ∨
        demoRow.RotatedAt * Second ≤
          demoExpiry - demoService.cfg.LoginMaxInactiveLifetime) →
      ∀ u t : Int, (LookupToken demoService demoCreated demoExpiry "r0").2 ≠
        .error (.TokenExpiredError u t)) :=
  C8_expiry_check demoService demoCreated demoExpiry "r0"
    (lookupCachedToken demoService demoCreated demoExpiry "r0").1 demoRow "#r0k"
    (by rfl) (by decide)

/-! ## The primary key is kept by every operation -/

theorem WellFormed_of_ids_sublist {st st1 : State} (hwf : WellFormed st)
    (hsub : (st1.rows.map (fun r => r.Id)).Sublist (st.rows.map (fun r => r.Id)))
    (hnext : st1.nextId = st.nextId) : WellFormed st1 := by
  refine ⟨hwf.1.sublist hsub, ?_⟩
  intro r hr
  have hmem : r.Id ∈ st.rows.map (fun r => r.Id) :=
    hsub.subset (List.mem_map.2 ⟨r, hr, rfl⟩)
  obtain ⟨r0, hr0, h0⟩ := List.mem_map.1 hmem
  rw [hnext, ← h0]
  exact hwf.2 r0 hr0

theorem map_ids_of_keep (l : List userAuthToken) (f : userAuthToken → userAuthToken)
    (hf : ∀ x, (f x).Id = x.Id) : (l.map f).map (fun r => r.Id) = l.map (fun r => r.Id) := by
  rw [List.map_map]
  apply List.map_congr_left
  intro x _
  exact hf x

theorem dbUpdateAllCols_ids (st : State) (cond : userAuthToken → Bool) (bean : userAuthToken) :
    (dbUpdateAllCols st cond bean).1.rows.map (fun r => r.Id) = st.rows.map (fun r => r.Id) ∧
    (dbUpdateAllCols st cond bean).1.nextId = st.nextId := by
  refine ⟨?_, rfl⟩
  simp only [dbUpdateAllCols]
  apply map_ids_of_keep
  intro x
  by_cases h : cond x = true <;> simp [h, columns]

theorem observeToken_ids (s : UserAuthTokenService) (st1 : State) (now : Int)
    (model : userAuthToken) (hashed raw : String) :
    (observeToken s st1 now model hashed raw).1.rows.map (fun r => r.Id) =
      st1.rows.map (fun r => r.Id) ∧
    (observeToken s st1 now model hashed raw).1.nextId = st1.nextId := by
  have hprev : (observePrev st1 now model hashed).rows.map (fun r => r.Id) =
      st1.rows.map (fun r => r.Id) ∧ (observePrev st1 now model hashed).nextId = st1.nextId := by
    unfold observePrev
    split
    · exact dbUpdateAllCols_ids st1 _ _
    · exact ⟨rfl, rfl⟩
  have hcur : ∀ st2 : State,
      (observeCurrent st2 now model hashed).1.rows.map (fun r => r.Id) =
        st2.rows.map (fun r => r.Id) ∧
      (observeCurrent st2 now model hashed).1.nextId = st2.nextId := by
    intro st2
    unfold observeCurrent
    split
    · exact dbUpdateAllCols_ids st2 _ _
    · exact ⟨rfl, rfl⟩
  unfold observeToken
  split
  · exact ⟨rfl, rfl⟩
  · split
    · exact ⟨rfl, rfl⟩
    · exact ⟨(hcur _).1.trans hprev.1, (hcur _).2.trans hprev.2⟩

theorem LookupToken_ids (s : UserAuthTokenService) (st : State) (now : Int) (raw : String) :
    (LookupToken s st now raw).1.rows.map (fun r => r.Id) = st.rows.map (fun r => r.Id) ∧
    (LookupToken s st now raw).1.nextId = st.nextId := by
  have hst := lookupCachedToken_store s st now raw
  unfold LookupToken
  split
  · rename_i st1 e heq
    rw [heq] at hst
    exact ⟨by rw [hst.1], hst.2.1⟩
  · rename_i st1 model hashed heq
    rw [heq] at hst
    obtain ⟨h1, h2⟩ := observeToken_ids s st1 now model hashed raw
    exact ⟨by rw [h1, hst.1], by rw [h2, hst.2.1]⟩

theorem dbRotate_ids (st : State) (userAgent ip hashed : String) (now id : Int) :
    (dbRotate st userAgent ip hashed now id).1.rows.map (fun r => r.Id) =
      st.rows.map (fun r => r.Id) ∧
    (dbRotate st userAgent ip hashed now id).1.nextId = st.nextId := by
  refine ⟨?_, rfl⟩
  simp only [dbRotate]
  apply map_ids_of_keep
  intro x
  by_cases h : rotateGuard id now x = true <;> simp [h, rotateRow]

theorem TryRotateToken_ids (s : UserAuthTokenService) (st : State) (now : Int)
    (token : Option UserToken) (clientIP : List Nat) (userAgent : String) :
    (TryRotateToken s st now token clientIP userAgent).state.rows.map (fun r => r.Id) =
      st.rows.map (fun r => r.Id) ∧
    (TryRotateToken s st now token clientIP userAgent).state.nextId = st.nextId := by
  cases token with
  | none => exact ⟨rfl, rfl⟩
  | some tok =>
    cases hdue : needsRotation s now (userAuthTokenFromUserToken tok) with
    | false =>
      rw [TryRotateToken_not_due s st now tok clientIP userAgent hdue]
      exact ⟨rfl, rfl⟩
    | true =>
      cases hR : s.RandomHex st.draws with
      | error e =>
        rw [TryRotateToken_due_error s st now tok clientIP userAgent e hdue hR]
        exact ⟨rfl, rfl⟩
      | ok newToken =>
        rw [TryRotateToken_due s st now tok clientIP userAgent newToken hdue hR]
        split
        · exact dbRotate_ids { st with draws := st.draws + 1 } _ _ _ _ _
        · exact dbRotate_ids { st with draws := st.draws + 1 } _ _ _ _ _

theorem RevokeToken_ids (s : UserAuthTokenService) (st : State) (now : Int)
    (token : Option UserToken) (soft : Bool) :
    ((RevokeToken s st now token soft).1.rows.map (fun r => r.Id)).Sublist
      (st.rows.map (fun r => r.Id)) ∧
    (RevokeToken s st now token soft).1.nextId = st.nextId := by
  cases token with
  | none => exact ⟨List.Sublist.refl _, rfl⟩
  | some tok =>
    cases soft with
    | true =>
      have hupd : ∀ (id : Int) (bean : userAuthToken),
          (st.rows.map (fun r => if r.Id = id then updateNonZero bean r else r)).map
            (fun r => r.Id) = st.rows.map (fun r => r.Id) := by
        intro id bean
        apply map_ids_of_keep
        intro x
        by_cases h : x.Id = id <;> simp [h, updateNonZero]
      unfold RevokeToken
      simp only [if_true]
      cases hu : dbUpdateById st (userAuthTokenFromUserToken tok).Id
          { userAuthTokenFromUserToken tok with RevokedAt := Unix now } with
      | error e => exact ⟨List.Sublist.refl _, rfl⟩
      | ok upd =>
        unfold dbUpdateById at hu
        split at hu
        · cases hu
        · injection hu with hu
          subst hu
          simp only
          split
          · exact ⟨by rw [hupd], rfl⟩
          · exact ⟨by rw [hupd], rfl⟩
    | false =>
      unfold RevokeToken
      simp only [Bool.false_eq_true, if_false]
      cases hd : dbDelete st (userAuthTokenFromUserToken tok) with
      | error e => exact ⟨List.Sublist.refl _, rfl⟩
      | ok upd =>
        unfold dbDelete at hd
        split at hd
        · cases hd
        · injection hd with hd
          subst hd
          simp only
          split
          · exact ⟨(List.filter_sublist _).map _, rfl⟩
          · exact ⟨(List.filter_sublist _).map _, rfl⟩

/-- Every operation keeps the table well-formed. -/
theorem WellFormed_step (s : UserAuthTokenService) (st : State) (op : Op)
    (hwf : WellFormed st) : WellFormed (step s st op) := by
  cases op with
  | create now user clientIP userAgent =>
    cases hR : s.RandomHex st.draws with
    | error e =>
      have : (CreateToken s st now user clientIP userAgent).1 =
          { st with draws := st.draws + 1 } := by
        unfold CreateToken
        simp only [hR]
      simp only [step, this]
      exact hwf
    | ok R =>
      simp only [step, CreateToken_ok s st now user clientIP userAgent R hR]
      refine ⟨nodup_ids_append st hwf _ rfl, ?_⟩
      intro r hr
      simp only [List.mem_append, List.mem_singleton] at hr
      rcases hr with h | h
      · have := hwf.2 r h
        simp only
        omega
      · subst h
        simp
  | lookup now raw =>
    obtain ⟨h1, h2⟩ := LookupToken_ids s st now raw
    exact WellFormed_of_ids_sublist hwf (h1 ▸ List.Sublist.refl _) h2
  | rotate now token clientIP userAgent =>
    obtain ⟨h1, h2⟩ := TryRotateToken_ids s st now token clientIP userAgent
    exact WellFormed_of_ids_sublist hwf (h1 ▸ List.Sublist.refl _) h2
  | revoke now token soft =>
    obtain ⟨h1, h2⟩ := RevokeToken_ids s st now token soft
    exact WellFormed_of_ids_sublist hwf h1 h2
  | revokeAll userId =>
    exact WellFormed_of_ids_sublist hwf ((List.filter_sublist _).map _) rfl
  | batchRevoke userIds =>
    simp only [step]
    rcases BatchRevoke_state s st userIds with h | ⟨params, h⟩
    · rw [h]
      exact hwf
    · rw [h]
      exact WellFormed_of_ids_sublist hwf ((List.filter_sublist _).map _) rfl

/-- Every state reached from the empty store is well-formed. -/
theorem WellFormed_run (s : UserAuthTokenService) (ops : List Op) :
    WellFormed (run s State.empty ops) := by
  have h : ∀ (ops : List Op) (st : State), WellFormed st → WellFormed (run s st ops) := by
    intro ops
    induction ops with
    | nil => exact fun st h => h
    | cons op rest ih => exact fun st h => ih (step s st op) (WellFormed_step s st op h)
  exact h ops State.empty ⟨List.nodup_nil, fun r hr => by cases hr⟩

/-! ## The tokens handed to callers are issued ones -/

theorem columns_roundtrip (m : userAuthToken) (raw : String) :
    columns (userAuthTokenFromUserToken ({ m with UnhashedToken := raw }).toUserToken) =
      columns m := rfl

theorem CreateToken_issued (s : UserAuthTokenService) (st : State) (now : Int)
    (user : User) (clientIP : List Nat) (userAgent : String) (tok : UserToken)
    (hist : List State)
    (hok : (CreateToken s st now user clientIP userAgent).2 = .ok tok) :
    Issued ((CreateToken s st now user clientIP userAgent).1 :: hist) tok := by
  obtain ⟨R, hR⟩ := CreateToken_ok_inv s st now user clientIP userAgent tok hok
  rw [CreateToken_ok s st now user clientIP userAgent R hR] at hok ⊢
  injection hok with hok
  subst hok
  exact ⟨_, List.mem_cons_self _ _, _, List.mem_append_right _ (List.mem_singleton_self _), rfl⟩

theorem observeCurrent_issued (st2 : State) (now : Int) (model : userAuthToken)
    (hashed : String) :
    (observeCurrent st2 now model hashed).2 = model ∨
    ∃ c ∈ (observeCurrent st2 now model hashed).1.rows,
      columns (observeCurrent st2 now model hashed).2 = columns c := by
  unfold observeCurrent
  split
  · simp only
    split
    · rename_i hone
      right
      have hne : (st2.rows.filter (fun r => decide (r.Id = model.Id ∧
          r.AuthToken = model.AuthToken))) ≠ [] := by
        intro h
        simp only [dbUpdateAllCols, h, List.length_nil] at hone
        cases hone
      obtain ⟨r, hr⟩ := List.exists_mem_of_ne_nil _ hne
      obtain ⟨hr1, hr2⟩ := List.mem_filter.1 hr
      simp only [decide_eq_true_eq] at hr2
      refine ⟨columns { model with AuthTokenSeen := true, SeenAt := Unix now }, ?_, rfl⟩
      simp only [dbUpdateAllCols, List.mem_map]
      refine ⟨r, hr1, ?_⟩
      simp [hr2.1, hr2.2, columns]
    · exact Or.inl rfl
  · exact Or.inl rfl

/-- A successful `LookupToken` returns an issued token: a copy of the row it
fetched (from the store or from a snapshot in the cache) or of the row it has
just written. -/
theorem LookupToken_issued (s : UserAuthTokenService) (st : State) (hist : List State)
    (now : Int) (raw : String) (tok : UserToken)
    (hcache : ∀ it ∈ st.cache, ∃ st1 ∈ st :: hist, it.value.userAuthtoken ∈ st1.rows)
    (hok : (LookupToken s st now raw).2 = .ok tok) :
    Issued ((LookupToken s st now raw).1 :: st :: hist) tok := by
  obtain ⟨st1, res, heq⟩ : ∃ st1 res, lookupCachedToken s st now raw = (st1, res) :=
    ⟨_, _, rfl⟩
  cases res with
  | error e =>
    simp only [LookupToken, heq] at hok
    cases hok
  | ok p =>
    obtain ⟨model, hashed⟩ := p
    have hL : LookupToken s st now raw = observeToken s st1 now model hashed raw := by
      simp only [LookupToken, heq]
    rw [hL] at hok ⊢
    obtain ⟨_, hsrc, _⟩ := lookupCachedToken_source heq
    have hmodel : ∃ stm ∈ st :: hist, model ∈ stm.rows := by
      rcases hsrc with h | ⟨it, hit, hv⟩
      · exact ⟨st, List.mem_cons_self _ _, h⟩
      · obtain ⟨stm, h1, h2⟩ := hcache it hit
        exact ⟨stm, h1, hv ▸ h2⟩
    by_cases hrev : model.RevokedAt > 0
    · simp only [observeToken, hrev, if_true] at hok
      cases hok
    · by_cases hexp : model.CreatedAt ≤ createdAfterParam s now ∨
          model.RotatedAt ≤ rotatedAfterParam s now
      · simp only [observeToken, hrev, hexp, if_true, if_false] at hok
        cases hok
      · have hO : observeToken s st1 now model hashed raw =
            ((observeCurrent (observePrev st1 now model hashed) now model hashed).1,
             .ok ({ (observeCurrent (observePrev st1 now model hashed) now model hashed).2
                    with UnhashedToken := raw }).toUserToken) := by
          simp only [observeToken, hrev, hexp, if_false]
        rw [hO] at hok ⊢
        injection hok with hok
        subst hok
        rcases observeCurrent_issued (observePrev st1 now model hashed) now model hashed
          with h | ⟨c, hc, hcols⟩
        · obtain ⟨stm, h1, h2⟩ := hmodel
          refine ⟨stm, List.mem_cons_of_mem _ h1, model, h2, ?_⟩
          rw [columns_roundtrip, h]
        · refine ⟨_, List.mem_cons_self _ _, c, hc, ?_⟩
          rw [columns_roundtrip, hcols]

theorem TryRotateToken_issued (s : UserAuthTokenService) (st : State) (now : Int)
    (tok tok1 : UserToken) (clientIP : List Nat) (userAgent : String) (hist : List State)
    (hiss : Issued hist tok)
    (hres : (TryRotateToken s st now (some tok) clientIP userAgent).token = some tok1) :
    Issued hist tok1 := by
  have hcols : columns (userAuthTokenFromUserToken tok1) =
      columns (userAuthTokenFromUserToken tok) := by
    cases hdue : needsRotation s now (userAuthTokenFromUserToken tok) with
    | false =>
      rw [TryRotateToken_not_due s st now tok clientIP userAgent hdue] at hres
      injection hres with hres
      rw [hres]
    | true =>
      cases hR : s.RandomHex st.draws with
      | error e =>
        rw [TryRotateToken_due_error s st now tok clientIP userAgent e hdue hR] at hres
        injection hres with hres
        rw [hres]
      | ok newToken =>
        rw [TryRotateToken_due s st now tok clientIP userAgent newToken hdue hR] at hres
        split at hres
        · injection hres with hres
          rw [← hres]
          rfl
        · injection hres with hres
          rw [hres]
  obtain ⟨st1, h1, c, hc, h⟩ := hiss
  exact ⟨st1, h1, c, hc, hcols.trans h⟩

/-! ## The caller's token and the previous slot -/

theorem Unix_sub_urgent (now : Int) : Unix (now + -urgentRotateTime) = Unix now - 60 := by
  simp only [Unix, urgentRotateTime, Minute, Second]
  omega

theorem observeCurrent_seen (st2 : State) (now : Int) (model : userAuthToken)
    (hashed : String) (hseen : model.AuthTokenSeen = true) :
    observeCurrent st2 now model hashed = (st2, model) := by
  unfold observeCurrent
  simp [hseen]

/-- C16: for a stored, unrevoked, unexpired, seen row of a well-formed table
and a raw token whose hash is the row's `prev_auth_token` but not its
`auth_token` (no other row holding that hash), a `LookupToken` with no cache
entry for the raw token succeeds and returns the projection of that row; the
table afterwards is the old one with the row's `auth_token_seen` set to false
when `rotated_at < now - 60` (seconds), and is unchanged otherwise; the other
columns of the row, among them `auth_token`, `prev_auth_token`, `rotated_at`
and `revoked_at`, are kept, and the current-slot branch issues no update for
a seen row. -/
theorem C16_previous_slot_observation (s : UserAuthTokenService) (st : State) (now : Int)
    (unhashedToken : String) (r : userAuthToken)
    (hwf : WellFormed st) (hr : r ∈ st.rows)
    (hprev : r.PrevAuthToken = hashToken s unhashedToken)
    (hauth : r.AuthToken ≠ hashToken s unhashedToken)
    (huniq : ∀ x ∈ st.rows, x.AuthToken = hashToken s unhashedToken ∨
      x.PrevAuthToken = hashToken s unhashedToken → x = r)
    (hseen : r.AuthTokenSeen = true) (hrev : r.RevokedAt = 0)
    (hunexp : now - s.cfg.LoginMaxLifetime < r.CreatedAt * Second ∧
      now - s.cfg.LoginMaxInactiveLifetime < r.RotatedAt * Second)
    (hcold : cacheGet st now (cacheKey unhashedToken) = none) :
    (LookupToken s st now unhashedToken).2 =
      .ok ({ r with UnhashedToken := unhashedToken }).toUserToken ∧
    (r.RotatedAt < Unix now - 60 →
      (LookupToken s st now unhashedToken).1.rows =
        replaceRow st.rows r.Id
          { Id := r.Id, UserId := r.UserId, AuthToken := r.AuthToken,
            PrevAuthToken := r.PrevAuthToken, UserAgent := r.UserAgent,
            ClientIp := r.ClientIp, AuthTokenSeen := false, SeenAt := r.SeenAt,
            RotatedAt := r.RotatedAt, CreatedAt := r.CreatedAt, UpdatedAt := r.UpdatedAt,
            RevokedAt := r.RevokedAt, UnhashedToken := "" }) ∧
    (¬ r.RotatedAt < Unix now - 60 →
      (LookupToken s st now unhashedToken).1.rows = st.rows) ∧
    (LookupToken s st now unhashedToken).1.nextId = st.nextId ∧
    (∀ st2 : State, observeCurrent st2 now r (hashToken s unhashedToken) = (st2, r)) := by
  have hlk := lookupToken_of_unique s st unhashedToken r hr (Or.inr hprev) huniq
  rw [LookupToken_cold s st now unhashedToken r _ hcold hlk]
  have hrev1 : ¬ (r.RevokedAt > 0) := by omega
  have hexp : ¬ (r.CreatedAt ≤ createdAfterParam s now ∨
      r.RotatedAt ≤ rotatedAfterParam s now) := by
    simp only [createdAfterParam, rotatedAfterParam, le_Unix_iff]
    omega
  have hO : ∀ st1 : State, observeToken s st1 now r (hashToken s unhashedToken)
      unhashedToken =
      (observePrev st1 now r (hashToken s unhashedToken),
       .ok ({ r with UnhashedToken := unhashedToken }).toUserToken) := by
    intro st1
    simp only [observeToken, hrev1, hexp, if_false, observeCurrent_seen _ now r _ hseen]
  rw [hO]
  refine ⟨rfl, ?_, ?_, ?_, fun st2 => observeCurrent_seen st2 now r _ hseen⟩
  · intro hold
    have hmap := map_eq_replaceRow hwf.1 hr
      (fun x : userAuthToken => decide (x.Id = r.Id ∧
        x.PrevAuthToken = r.PrevAuthToken ∧ x.RotatedAt < Unix (now + -urgentRotateTime)))
      (by simp [Unix_sub_urgent, hold])
      (fun x _ hx => by
        simp only [decide_eq_true_eq] at hx
        exact hx.1)
      (fun x => columns { r with AuthTokenSeen := false, Id := x.Id })
    simp only [observePrev, hauth, hprev, hseen, ne_eq, not_false_eq_true, and_self, if_true,
      dbUpdateAllCols, cacheSet]
    simp only [hprev] at hmap
    rw [hmap]
    rfl
  · intro hnew
    have hc : ∀ x ∈ st.rows, (fun x : userAuthToken => decide (x.Id = r.Id ∧
        x.PrevAuthToken = r.PrevAuthToken ∧ x.RotatedAt < Unix (now + -urgentRotateTime))) x
        = false := by
      intro x hx
      simp only [decide_eq_false_iff_not, Unix_sub_urgent]
      rintro ⟨h1, _, h3⟩
      have : x = r := row_eq_of_id_eq hwf.1 hx hr h1
      subst this
      exact hnew h3
    have hmap := map_eq_self
      (fun x : userAuthToken => decide (x.Id = r.Id ∧
        x.PrevAuthToken = r.PrevAuthToken ∧ x.RotatedAt < Unix (now + -urgentRotateTime)))
      hc (fun x => columns { r with AuthTokenSeen := false, Id := x.Id })
    simp only [observePrev, hauth, hprev, hseen, ne_eq, not_false_eq_true, and_self, if_true,
      dbUpdateAllCols, cacheSet]
    simp only [hprev] at hmap
    rw [hmap]
  · unfold observePrev
    split <;> rfl

theorem TryRotateToken_lost_token (s : UserAuthTokenService) (st : State) (now : Int)
    (tok : UserToken) (clientIP : List Nat) (userAgent : String)
    (h : (TryRotateToken s st now (some tok) clientIP userAgent).rotated = false) :
    (TryRotateToken s st now (some tok) clientIP userAgent).token = some tok := by
  cases hdue : needsRotation s now (userAuthTokenFromUserToken tok) with
  | false => rw [TryRotateToken_not_due s st now tok clientIP userAgent hdue]
  | true =>
    cases hR : s.RandomHex st.draws with
    | error e => rw [TryRotateToken_due_error s st now tok clientIP userAgent e hdue hR]
    | ok newToken =>
      rw [TryRotateToken_due s st now tok clientIP userAgent newToken hdue hR] at h ⊢
      split
      · rename_i haff
        simp only [haff, if_true] at h
        cases h
      · rfl

/-- C17: `TryRotateToken` leaves the caller's token as it was whenever it
returns `rotated = false` (rotation not due, guard lost, or the random source
failed); when it returns true, for the stored row of the token's id in a
well-formed table, only `unhashed_token` changes, to the new raw token, whose
hash is the stored row's new `auth_token`; all other fields keep their
pre-call values, and the token no longer agrees with the stored row: its
`auth_token_seen` or its `rotated_at` differs from the stored one. -/
theorem C17_caller_token_effect (s : UserAuthTokenService) (st : State) (now : Int)
    (tok : UserToken) (clientIP : List Nat) (userAgent : String) (r : userAuthToken)
    (hwf : WellFormed st) (hr : r ∈ st.rows) (hid : tok.Id = r.Id) :
    ((TryRotateToken s st now (some tok) clientIP userAgent).rotated = false →
      (TryRotateToken s st now (some tok) clientIP userAgent).token = some tok) ∧
    ((TryRotateToken s st now (some tok) clientIP userAgent).rotated = true →
      ∃ (newToken : String) (r1 : userAuthToken),
        s.RandomHex st.draws = .ok newToken ∧
        (TryRotateToken s st now (some tok) clientIP userAgent).token =
          some { Id := tok.Id, UserId := tok.UserId, AuthToken := tok.AuthToken,
                 PrevAuthToken := tok.PrevAuthToken, UserAgent := tok.UserAgent,
                 ClientIp := tok.ClientIp, AuthTokenSeen := tok.AuthTokenSeen,
                 SeenAt := tok.SeenAt, RotatedAt := tok.RotatedAt,
                 CreatedAt := tok.CreatedAt, UpdatedAt := tok.UpdatedAt,
                 RevokedAt := tok.RevokedAt, UnhashedToken := newToken } ∧
        (TryRotateToken s st now (some tok) clientIP userAgent).state.rows =
          replaceRow st.rows r.Id r1 ∧
        r1 ∈ (TryRotateToken s st now (some tok) clientIP userAgent).state.rows ∧
        r1.Id = tok.Id ∧ r1.AuthToken = hashToken s newToken ∧
        (tok.AuthTokenSeen ≠ r1.AuthTokenSeen ∨ tok.RotatedAt ≠ r1.RotatedAt)) := by
  refine ⟨TryRotateToken_lost_token s st now tok clientIP userAgent, ?_⟩
  intro hrot
  obtain ⟨hdue, _⟩ := TryRotateToken_rotated_inv s st now tok clientIP userAgent hrot
  obtain ⟨newToken, hR, _, hres⟩ :=
    TryRotateToken_won s st now tok clientIP userAgent r hwf hr hid hrot
  refine ⟨newToken, rotateRow userAgent (clientIPStr s clientIP) (hashToken s newToken)
    (Unix now) r, hR, ?_⟩
  rw [hres]
  refine ⟨rfl, rfl, mem_replaceRow hr, hid.symm, rfl, ?_⟩
  simp only [rotateRow]
  cases hseen : tok.AuthTokenSeen
  · right
    unfold needsRotation at hdue
    simp only [userAuthTokenFromUserToken, hseen, Bool.false_eq_true, if_false,
      decide_eq_true_eq, timeUnix, urgentRotateTime, Minute] at hdue
    have h1 : tok.RotatedAt + 1 ≤ Unix now := by
      rw [le_Unix_iff]
      simp only [Second] at hdue ⊢
      omega
    omega
  · left
    simp
/-- C16 at a lookup of the old raw token 140 s after the rotation of the demo row. -/
theorem C16_previous_slot_observation_witness :
    (LookupToken demoService demoRotatedSeen (1800 * Second) "r0").2 =
      .ok ({ demoRotatedSeenRow with UnhashedToken := "r0" }).toUserToken ∧
    (LookupToken demoService demoRotatedSeen (1800 * Second) "r0").1.rows =
      [{ demoRotatedSeenRow with AuthTokenSeen := false }] ∧
    (LookupToken demoService demoRotatedSeen (1690 * Second) "r0").1.rows =
      demoRotatedSeen.rows :=
  have h1 := C16_previous_slot_observation demoService demoRotatedSeen (1800 * Second) "r0"
    demoRotatedSeenRow (by unfold WellFormed; decide) (by decide) (by decide) (by decide)
    (by decide) (by decide) (by decide) (by decide) (by rfl)
  have h2 := C16_previous_slot_observation demoService demoRotatedSeen (1690 * Second) "r0"
    demoRotatedSeenRow (by unfold WellFormed; decide) (by decide) (by decide) (by decide)
    (by decide) (by decide) (by decide) (by decide) (by rfl)
  ⟨h1.1, h1.2.1 (by decide), h2.2.2.1 (by decide)⟩

/-- C17 at the rotation of the observed demo row, 11 minutes after issue. -/
theorem C17_caller_token_effect_witness :
    ∃ (newToken : String) (r1 : userAuthToken),
      demoService.RandomHex demoSeen.draws = .ok newToken ∧
      (TryRotateToken demoService demoSeen (1660 * Second) (some demoSeenToken)
          [10, 0, 0, 1] "ua-b").token =
        some { Id := 1, UserId := 42, AuthToken := "#r0k", PrevAuthToken := "#r0k",
               UserAgent := "ua-a", ClientIp := "10.0.0.1", AuthTokenSeen := true,
               SeenAt := 1000, RotatedAt := 1000, CreatedAt := 1000, UpdatedAt := 1000,
               RevokedAt := 0, UnhashedToken := newToken } ∧
      (TryRotateToken demoService demoSeen (1660 * Second) (some demoSeenToken)
          [10, 0, 0, 1] "ua-b").state.rows = replaceRow demoSeen.rows demoSeenRow.Id r1 ∧
      r1 ∈ (TryRotateToken demoService demoSeen (1660 * Second) (some demoSeenToken)
          [10, 0, 0, 1] "ua-b").state.rows ∧
      r1.Id = demoSeenToken.Id ∧ r1.AuthToken = hashToken demoService newToken ∧
      (demoSeenToken.AuthTokenSeen ≠ r1.AuthTokenSeen ∨
        demoSeenToken.RotatedAt ≠ r1.RotatedAt) :=
  (C17_caller_token_effect demoService demoSeen (1660 * Second) demoSeenToken [10, 0, 0, 1]
    "ua-b" demoSeenRow (by unfold WellFormed; decide) (by decide) (by decide)).2 (by decide)

/-! ## The contract of `RevokeToken` -/

/-- The store that a soft `RevokeToken` leaves: the store it found (the
update was refused), or that store with the update applied to the rows of the
token's id. -/
theorem RevokeToken_soft_state (s : UserAuthTokenService) (st : State) (now : Int)
    (tok : UserToken) :
    (RevokeToken s st now (some tok) true).1 = st ∨
    (RevokeToken s st now (some tok) true).1 =
      { st with
        rows := st.rows.map (fun r =>
          if r.Id = tok.Id then
            updateNonZero { userAuthTokenFromUserToken tok with RevokedAt := Unix now } r
          else r) } := by
  unfold RevokeToken
  simp only [if_true]
  cases hu : dbUpdateById st (userAuthTokenFromUserToken tok).Id
      { userAuthTokenFromUserToken tok with RevokedAt := Unix now } with
  | error e => exact Or.inl rfl
  | ok upd =>
    unfold dbUpdateById at hu
    split at hu
    · cases hu
    · injection hu with hu
      subst hu
      simp only
      split
      · exact Or.inr rfl
      · exact Or.inr rfl

/-- C12: the soft path of `RevokeToken` does not leave the slot fields
unchanged.  After the rotation at second 1660 the row holds (`#r1k`, `#r0k`)
with `rotated_at = 1660`, and the caller's token of that rotation still
carries the columns of before it.  `RevokeToken` with this token and
`soft = true` at second 1700 returns nil and writes the token's columns back
next to `revoked_at = 1700`: the row holds (`#r0k`, `#r0k`) with
`rotated_at = 1000` again.  With `soft = false` the same token matches no row:
the call returns `ErrUserTokenNotFound` and the store is as it was. -/
theorem C12_soft_revoke_writes_stale_columns :
    (TryRotateToken demoService demoSeen (1660 * Second) (some demoSeenToken)
      [10, 0, 0, 1] "ua-b").token = some demoStaleToken ∧
    demoRotated.rows.map (fun r => (r.Id, r.AuthToken, r.PrevAuthToken, r.RotatedAt)) =
      [(1, "#r1k", "#r0k", 1660)] ∧
    (demoStaleToken.Id, demoStaleToken.AuthToken, demoStaleToken.PrevAuthToken,
      demoStaleToken.RotatedAt) = (1, "#r0k", "#r0k", 1000) ∧
    (RevokeToken demoService demoRotated (1700 * Second) (some demoStaleToken) true).2 =
      none ∧
    (RevokeToken demoService demoRotated (1700 * Second) (some demoStaleToken)
      true).1.rows.map
        (fun r => (r.Id, r.AuthToken, r.PrevAuthToken, r.RotatedAt, r.RevokedAt)) =
      [(1, "#r0k", "#r0k", 1000, 1700)] ∧
    RevokeToken demoService demoRotated (1700 * Second) (some demoStaleToken) false =
      (demoRotated, some .ErrUserTokenNotFound) := by
  decide

/-- C7: a soft revoke with the token that `TryRotateToken` hands back is not
followed by `ErrTokenRevoked`.  The token of user 42 is issued at second 1000
and looked up; the rotation at second 1660 returns true and hands back a token
that refers to row 1 and carries the new raw token `r1`, whose hash is the
row's `auth_token`, next to the columns of before the rotation.
`RevokeToken` with this token and `soft = true` at second 1700 returns nil and
modifies the row beyond `revoked_at`: it holds the hash of `r0` in both slots.
A `LookupToken` of `r1` one second later, the cache holding no entry for it,
returns `ErrUserTokenNotFound`. -/
theorem C7_stale_token_revoke_then_lookup_not_found :
    (LookupToken demoService demoCreated (1000 * Second) "r0").2 = .ok demoSeenToken ∧
    (TryRotateToken demoService (run demoService State.empty (staleRevokeOps.take 2))
      (1660 * Second) (some demoSeenToken) [10, 0, 0, 1] "ua-b").rotated = true ∧
    (TryRotateToken demoService (run demoService State.empty (staleRevokeOps.take 2))
      (1660 * Second) (some demoSeenToken) [10, 0, 0, 1] "ua-b").token =
      some demoStaleToken ∧
    (demoStaleToken.Id, demoStaleToken.UnhashedToken) = (1, "r1") ∧
    (run demoService State.empty (staleRevokeOps.take 3)).rows.map
      (fun r => (r.Id, r.UserId, r.AuthToken, r.PrevAuthToken, r.RevokedAt)) =
      [(1, 42, hashToken demoService "r1", "#r0k", 0)] ∧
    (RevokeToken demoService (run demoService State.empty (staleRevokeOps.take 3))
      (1700 * Second) (some demoStaleToken) true).2 = none ∧
    (run demoService State.empty staleRevokeOps).rows.map
      (fun r => (r.Id, r.UserId, r.AuthToken, r.PrevAuthToken, r.RevokedAt)) =
      [(1, 42, "#r0k", "#r0k", 1700)] ∧
    cacheGet (run demoService State.empty staleRevokeOps) (1701 * Second)
      (cacheKey "r1") = none ∧
    (LookupToken demoService (run demoService State.empty staleRevokeOps)
      (1701 * Second) "r1").2 = .error .ErrUserTokenNotFound :=
  ⟨by rfl, by decide, by decide, by decide, by decide, by decide, by decide, by decide,
    by rfl⟩

/-! ## Batch revocation -/

theorem Repeat_placeholders (n : Nat) : placeholders (Repeat ",?" n) = n := by
  induction n with
  | zero => rfl
  | succ k ih =>
    unfold placeholders at ih ⊢
    simp only [Repeat, String.data_append, List.count_append, ih]
    have : (",?" : String).data.count '?' = 1 := by decide
    rw [this]
    omega

theorem batchRevokeSQL_placeholders (userIds : List Int) :
    placeholders (batchRevokeSQL userIds) = 1 + (userIds.length - 1) := by
  have h := Repeat_placeholders (userIds.length - 1)
  unfold placeholders at h ⊢
  simp only [batchRevokeSQL, String.data_append, List.count_append, h]
  have h1 : ("DELETE from user_auth_token WHERE user_id IN (?" : String).data.count '?' = 1 := by
    decide
  have h2 : (")" : String).data.count '?' = 0 := by decide
  rw [h1, h2]
  omega

theorem batchRevokeParams_eq (userIds : List Int) : batchRevokeParams userIds = userIds := by
  have h : ∀ (l acc : List Int), l.foldl (fun params v => params ++ [v]) acc = acc ++ l := by
    intro l
    induction l with
    | nil => intro acc; simp
    | cons x xs ih => intro acc; simp [List.foldl, ih]
  unfold batchRevokeParams
  rw [h]
  simp

theorem foldl_RevokeAll (userIds : List Int) (st : State) :
    userIds.foldl (fun st1 id => (RevokeAllUserTokens st1 id).1) st =
      { st with rows := st.rows.filter (fun r => !decide (r.UserId ∈ userIds)) } := by
  induction userIds generalizing st with
  | nil =>
    simp only [List.foldl, List.not_mem_nil, decide_False, Bool.not_false, List.filter_true]
  | cons x xs ih =>
    simp only [List.foldl]
    rw [ih]
    simp only [RevokeAllUserTokens, List.filter_filter]
    congr 1
    apply List.filter_congr
    intro r _
    by_cases h1 : r.UserId = x <;> by_cases h2 : r.UserId ∈ xs <;> simp [h1, h2]

theorem BatchRevoke_within_limit (s : UserAuthTokenService) (st : State)
    (userIds : List Int) (hlen : userIds.length ≤ s.maxBoundParams) :
    BatchRevokeAllUserTokens s st userIds =
      ({ st with rows := st.rows.filter (fun r => !decide (r.UserId ∈ userIds)) }, none) := by
  unfold BatchRevokeAllUserTokens
  split
  · rename_i h
    have : userIds = [] := List.length_eq_zero.1 h
    subst this
    simp only [List.not_mem_nil, decide_False, Bool.not_false, List.filter_true]
  · have hnot : ¬ s.maxBoundParams < userIds.length := by omega
    simp only [dbDeleteUserIdIn, batchRevokeParams_eq, hnot, if_false]

theorem BatchRevoke_above_limit (s : UserAuthTokenService) (st : State)
    (userIds : List Int) (hlen : s.maxBoundParams < userIds.length) :
    BatchRevokeAllUserTokens s st userIds =
      (st, some (.ErrStore "too many SQL variables")) := by
  unfold BatchRevokeAllUserTokens
  have hne : ¬ userIds.length = 0 := by omega
  simp only [hne, if_false, dbDeleteUserIdIn, batchRevokeParams_eq, hlen, if_true]

/-- C13 fails for a list longer than the store admits bound values: with a
limit of 32766 and the 40000 ids 0, 1, ..., 39999, the single statement is
refused, `BatchRevokeAllUserTokens` returns the store's error and the row of
user 42 stays, while `RevokeAllUserTokens` applied to each id in turn removes
it. -/
theorem C13_long_list_is_refused :
    manyUserIds.length = 40000 ∧ (42 : Int) ∈ manyUserIds ∧
    demoService.maxBoundParams = 32766 ∧
    demoCreated.rows.map (fun r => (r.Id, r.UserId)) = [(1, 42)] ∧
    BatchRevokeAllUserTokens demoService demoCreated manyUserIds =
      (demoCreated, some (.ErrStore "too many SQL variables")) ∧
    (manyUserIds.foldl (fun st1 id => (RevokeAllUserTokens st1 id).1) demoCreated).rows =
      [] := by
  have hlen : manyUserIds.length = 40000 := by
    simp [manyUserIds]
  have hmem : (42 : Int) ∈ manyUserIds := by
    unfold manyUserIds
    exact List.mem_map.2 ⟨42, List.mem_range.2 (by omega), rfl⟩
  refine ⟨hlen, hmem, rfl, by decide, ?_, ?_⟩
  · exact BatchRevoke_above_limit demoService demoCreated manyUserIds
      (by rw [hlen]; decide)
  · rw [foldl_RevokeAll]
    simp [demoCreated, demoRow, hmem]

/-- C13 (amended): for a list of user ids no longer than the number of bound
values the store admits in one statement, `BatchRevokeAllUserTokens` returns
nil and leaves exactly the rows whose `user_id` is not in the list, each
unchanged, the rest of the world as it was; that is the state reached by
applying `RevokeAllUserTokens` to each id of the list in turn; for the empty
list nothing changes; for a non-empty list the statement it builds has as many
placeholders as there are ids, the ids are bound to them in order, and the
result is that of executing this statement. -/
theorem C13_batch_revoke_within_limit (s : UserAuthTokenService) (st : State)
    (userIds : List Int) (hlen : userIds.length ≤ s.maxBoundParams) :
    (BatchRevokeAllUserTokens s st userIds).2 = none ∧
    (BatchRevokeAllUserTokens s st userIds).1 =
      { st with rows := st.rows.filter (fun r => !decide (r.UserId ∈ userIds)) } ∧
    (BatchRevokeAllUserTokens s st userIds).1 =
      userIds.foldl (fun st1 id => (RevokeAllUserTokens st1 id).1) st ∧
    BatchRevokeAllUserTokens s st [] = (st, none) ∧
    (userIds ≠ [] →
      placeholders (batchRevokeSQL userIds) = userIds.length ∧
      batchRevokeParams userIds = userIds ∧
      dbDeleteUserIdIn s st (batchRevokeParams userIds) =
        .ok (BatchRevokeAllUserTokens s st userIds).1) := by
  have heq := BatchRevoke_within_limit s st userIds hlen
  refine ⟨by rw [heq], by rw [heq], by rw [heq, foldl_RevokeAll], rfl, ?_⟩
  intro hne
  refine ⟨?_, batchRevokeParams_eq _, ?_⟩
  · rw [batchRevokeSQL_placeholders]
    have : 0 < userIds.length := List.length_pos.2 hne
    omega
  · rw [heq, batchRevokeParams_eq]
    have hnot : ¬ s.maxBoundParams < userIds.length := by omega
    simp only [dbDeleteUserIdIn, hnot, if_false]

/-- C13 (amended) at the demo store and the two ids 42 and 7. -/
theorem C13_batch_revoke_within_limit_witness :
    [(42 : Int), 7].length ≤ demoService.maxBoundParams ∧
    (BatchRevokeAllUserTokens demoService demoCreated [42, 7]).2 = none ∧
    (BatchRevokeAllUserTokens demoService demoCreated [42, 7]).1 =
      { demoCreated with
        rows := demoCreated.rows.filter (fun r => !decide (r.UserId ∈ [(42 : Int), 7])) } ∧
    (BatchRevokeAllUserTokens demoService demoCreated [42, 7]).1 =
      [(42 : Int), 7].foldl (fun st1 id => (RevokeAllUserTokens st1 id).1) demoCreated :=
  have h := C13_batch_revoke_within_limit demoService demoCreated [42, 7] (by decide)
  ⟨by decide, h.1, h.2.1, h.2.2.1⟩

/-! ## Active tokens -/

theorem sum_indicator_of_nodup (users : List Int) (hnd : users.Nodup) (a : Int)
    (ha : a ∈ users) (k : Int) :
    (users.map (fun u => if a = u then k else 0)).sum = k := by
  induction users with
  | nil => cases ha
  | cons x xs ih =>
    have hx : x ∉ xs := (List.nodup_cons.1 hnd).1
    have hnd2 : xs.Nodup := (List.nodup_cons.1 hnd).2
    simp only [List.map_cons, List.sum_cons]
    by_cases hax : a = x
    · subst hax
      have hz : (xs.map (fun u => if a = u then k else 0)).sum = 0 := by
        have : xs.map (fun u => if a = u then k else 0) = xs.map (fun _ => (0 : Int)) := by
          apply List.map_congr_left
          intro u hu
          have : a ≠ u := fun h => hx (h ▸ hu)
          simp [this]
        rw [this]
        simp
      simp [hz]
    · have ha2 : a ∈ xs := by
        rcases List.mem_cons.1 ha with h | h
        · exact absurd h hax
        · exact h
      simp [hax, ih hnd2 ha2]

theorem sum_zero_of_not_mem (users : List Int) (a : Int) (ha : a ∉ users) (k : Int) :
    (users.map (fun u => if a = u then k else 0)).sum = 0 := by
  have : users.map (fun u => if a = u then k else 0) = users.map (fun _ => (0 : Int)) := by
    apply List.map_congr_left
    intro u hu
    have : a ≠ u := fun h => ha (h ▸ hu)
    simp [this]
  rw [this]
  simp

/-- Counting the rows that satisfy a condition, user by user. -/
theorem filter_length_by_user (users : List Int) (hnd : users.Nodup)
    (p : userAuthToken → Bool) (l : List userAuthToken)
    (hcov : ∀ r ∈ l, p r = true → r.UserId ∈ users) :
    ((l.filter p).length : Int) =
      (users.map (fun u =>
        ((l.filter (fun r => decide (r.UserId = u) && p r)).length : Int))).sum := by
  induction l with
  | nil => simp
  | cons r rs ih =>
    have ih2 := ih (fun x hx => hcov x (List.mem_cons_of_mem _ hx))
    have hstep : ∀ u : Int,
        (((r :: rs).filter (fun x => decide (x.UserId = u) && p x)).length : Int) =
          (if r.UserId = u then (if p r = true then 1 else 0) else 0) +
            ((rs.filter (fun x => decide (x.UserId = u) && p x)).length : Int) := by
      intro u
      by_cases h1 : r.UserId = u <;> by_cases h2 : p r = true <;>
        simp [List.filter_cons, h1, h2]
      omega
    have hmap : (users.map (fun u =>
        (((r :: rs).filter (fun x => decide (x.UserId = u) && p x)).length : Int))) =
        users.map (fun u =>
          (if r.UserId = u then (if p r = true then (1 : Int) else 0) else 0) +
            ((rs.filter (fun x => decide (x.UserId = u) && p x)).length : Int)) := by
      apply List.map_congr_left
      intro u _
      exact hstep u
    rw [hmap, List.sum_map_add, ← ih2]
    by_cases hp : p r = true
    · have hmem : r.UserId ∈ users := hcov r (List.mem_cons_self _ _) hp
      rw [sum_indicator_of_nodup users hnd r.UserId hmem]
      simp [List.filter_cons, hp]
      omega
    · have hz : (users.map (fun u =>
          if r.UserId = u then (if p r = true then (1 : Int) else 0) else 0)).sum = 0 := by
        have : users.map (fun u =>
            if r.UserId = u then (if p r = true then (1 : Int) else 0) else 0) =
            users.map (fun _ => (0 : Int)) := by
          apply List.map_congr_left
          intro u _
          simp [hp]
        rw [this]
        simp
      rw [hz]
      simp [List.filter_cons, hp]

theorem activeToken_iff (s : UserAuthTokenService) (now : Int) (r : userAuthToken) :
    activeToken s.cfg now r = true ↔
      r.RevokedAt = 0 ∧ ¬ (r.CreatedAt ≤ createdAfterParam s now ∨
        r.RotatedAt ≤ rotatedAfterParam s now) := by
  simp only [activeToken, createdAfterParam, rotatedAfterParam, decide_eq_true_eq]
  constructor
  · rintro ⟨h1, h2, h3⟩
    exact ⟨h3, by omega⟩
  · rintro ⟨h1, h2⟩
    exact ⟨by omega, by omega, h1⟩

theorem observeToken_ok_iff (s : UserAuthTokenService) (st1 : State) (now : Int)
    (model : userAuthToken) (hashed raw : String) :
    (∃ t : UserToken, (observeToken s st1 now model hashed raw).2 = .ok t) ↔
      ¬ (model.RevokedAt > 0) ∧ ¬ (model.CreatedAt ≤ createdAfterParam s now ∨
        model.RotatedAt ≤ rotatedAfterParam s now) := by
  constructor
  · rintro ⟨t, ht⟩
    by_cases hrev : model.RevokedAt > 0
    · rw [observeToken_revoked s st1 now model hashed raw hrev] at ht
      cases ht
    · refine ⟨hrev, ?_⟩
      intro hexp
      simp only [observeToken, hrev, hexp, if_true, if_false] at ht
      cases ht
  · rintro ⟨h1, h2⟩
    obtain ⟨t, ht, _⟩ := observeToken_ok s st1 now model hashed raw (by omega) h2
    exact ⟨t, ht⟩

theorem toUserToken_injective {a b : userAuthToken} (h : a.toUserToken = b.toUserToken) :
    a = b := by
  have := congrArg userAuthTokenFromUserToken h
  cases a
  cases b
  simpa [userAuthToken.toUserToken, userAuthTokenFromUserToken] using this

/-- C15 fails on a row with a negative `revoked_at`.  In the store holding
the demo row with `revoked_at = -50`, at second 1700, the row is not rejected
by `LookupToken` (its revocation check asks for `revoked_at > 0`, and the row
is not expired), yet `ActiveTokenCount` and `GetUserTokens`, which ask for
`revoked_at = 0`, leave it out.  Such a row is what a soft revoke 50 s before
the epoch leaves behind. -/
theorem C15_negative_revoked_at_not_counted :
    negativeRevokedStore.rows.map
      (fun r => (r.Id, r.UserId, r.CreatedAt, r.RotatedAt, r.RevokedAt)) =
      [(1, 42, 1000, 1000, -50)] ∧
    (∃ t : UserToken,
      (LookupToken demoService negativeRevokedStore (1700 * Second) "r0").2 = .ok t) ∧
    ActiveTokenCount demoService.cfg negativeRevokedStore (1700 * Second) = 0 ∧
    GetUserTokens demoService negativeRevokedStore (1700 * Second) 42 = [] ∧
    (run demoService State.empty earlyOps).rows.map
      (fun r => (r.Id, r.UserId, r.CreatedAt, r.RotatedAt, r.RevokedAt)) =
      [(1, 42, -100, -100, -50)] ∧
    (∃ t : UserToken, (LookupToken demoService (run demoService State.empty earlyOps)
      (-40 * Second) "r0").2 = .ok t) ∧
    ActiveTokenCount demoService.cfg (run demoService State.empty earlyOps)
      (-40 * Second) = 0 ∧
    GetUserTokens demoService (run demoService State.empty earlyOps) (-40 * Second) 42 = [] :=
  ⟨by decide, ⟨_, by rfl⟩, by decide, by decide, by decide, ⟨_, by rfl⟩, by decide,
    by decide⟩

/-- C15 (amended): for every store, configuration and clock value, on every
stored row whose `revoked_at` is not negative the condition that
`ActiveTokenCount` and `GetUserTokens` share holds exactly when the revocation
check and the expiry check of `LookupToken` both pass, that is, when the
checks of `LookupToken` let the row through, and such a row is counted by
`ActiveTokenCount`, and listed by `GetUserTokens` for its user, exactly when
both checks pass; for every store, `ActiveTokenCount` is the number of rows
satisfying the condition and the sum of the lengths of `GetUserTokens` over
any duplicate-free list of users that covers the table, and no token is
listed both by `GetUserTokens` and by `GetUserRevokedTokens`. -/
theorem C15_active_predicate (s : UserAuthTokenService) (st : State) (now : Int) :
    (∀ r ∈ st.rows, 0 ≤ r.RevokedAt →
      (activeToken s.cfg now r = true ↔
        ¬ (r.RevokedAt > 0) ∧ ¬ (r.CreatedAt ≤ createdAfterParam s now ∨
          r.RotatedAt ≤ rotatedAfterParam s now)) ∧
      (∀ (st1 : State) (hashed raw : String), activeToken s.cfg now r = true ↔
        ∃ t : UserToken, (observeToken s st1 now r hashed raw).2 = .ok t) ∧
      (r ∈ st.rows.filter (activeToken s.cfg now) ↔
        ¬ (r.RevokedAt > 0) ∧ ¬ (r.CreatedAt ≤ createdAfterParam s now ∨
          r.RotatedAt ≤ rotatedAfterParam s now)) ∧
      (r.toUserToken ∈ GetUserTokens s st now r.UserId ↔
        ¬ (r.RevokedAt > 0) ∧ ¬ (r.CreatedAt ≤ createdAfterParam s now ∨
          r.RotatedAt ≤ rotatedAfterParam s now))) ∧
    ActiveTokenCount s.cfg st now = ((st.rows.filter (activeToken s.cfg now)).length : Int) ∧
    (∀ users : List Int, users.Nodup → (∀ r ∈ st.rows, r.UserId ∈ users) →
      ActiveTokenCount s.cfg st now =
        (users.map (fun u => ((GetUserTokens s st now u).length : Int))).sum) ∧
    (∀ (u : Int) (t : UserToken), t ∈ GetUserTokens s st now u →
      t ∉ GetUserRevokedTokens st u) := by
  refine ⟨?_, rfl, ?_, ?_⟩
  · intro r hr h0
    have hiff : activeToken s.cfg now r = true ↔
        ¬ (r.RevokedAt > 0) ∧ ¬ (r.CreatedAt ≤ createdAfterParam s now ∨
          r.RotatedAt ≤ rotatedAfterParam s now) := by
      rw [activeToken_iff]
      constructor
      · rintro ⟨h1, h2⟩
        exact ⟨by omega, h2⟩
      · rintro ⟨h1, h2⟩
        exact ⟨by omega, h2⟩
    have hlisted : r.toUserToken ∈ GetUserTokens s st now r.UserId ↔
        activeToken s.cfg now r = true := by
      unfold GetUserTokens
      constructor
      · intro hmem
        obtain ⟨x, hx, hxr⟩ := List.mem_map.1 hmem
        have : x = r := toUserToken_injective hxr
        subst this
        have := (List.mem_filter.1 hx).2
        simp only [Bool.and_eq_true] at this
        exact this.2
      · intro hact
        exact List.mem_map.2 ⟨r, List.mem_filter.2 ⟨hr, by simp [hact]⟩, rfl⟩
    refine ⟨hiff, ?_, ?_, hlisted.trans hiff⟩
    · intro st1 hashed raw
      rw [observeToken_ok_iff]
      exact hiff
    · rw [List.mem_filter]
      exact ⟨fun h => hiff.1 h.2, fun h => ⟨hr, hiff.2 h⟩⟩
  · intro users hnd hcov
    unfold ActiveTokenCount GetUserTokens
    rw [filter_length_by_user users hnd (activeToken s.cfg now) st.rows
      (fun r hr _ => hcov r hr)]
    congr 1
    apply List.map_congr_left
    intro u _
    rw [List.length_map]
  · intro u t ht hrev
    unfold GetUserTokens at ht
    unfold GetUserRevokedTokens at hrev
    obtain ⟨x, hx, hxt⟩ := List.mem_map.1 ht
    obtain ⟨y, hy, hyt⟩ := List.mem_map.1 hrev
    have hxy : x = y := toUserToken_injective (hxt.trans hyt.symm)
    subst hxy
    have h1 := (List.mem_filter.1 hx).2
    have h2 := (List.mem_filter.1 hy).2
    simp only [Bool.and_eq_true, activeToken, decide_eq_true_eq] at h1 h2
    omega

/-- C15 (amended) at the store of the observed demo row. -/
theorem C15_active_predicate_witness :
    ActiveTokenCount demoService.cfg demoSeen (1700 * Second) =
      ([42].map (fun u =>
        ((GetUserTokens demoService demoSeen (1700 * Second) u).length : Int))).sum ∧
    (demoSeenRow.toUserToken ∈
        GetUserTokens demoService demoSeen (1700 * Second) demoSeenRow.UserId ↔
      ¬ (demoSeenRow.RevokedAt > 0) ∧
        ¬ (demoSeenRow.CreatedAt ≤ createdAfterParam demoService (1700 * Second) ∨
          demoSeenRow.RotatedAt ≤ rotatedAfterParam demoService (1700 * Second))) :=
  have h := C15_active_predicate demoService demoSeen (1700 * Second)
  ⟨h.2.2.1 [42] (by decide) (by decide), (h.1 demoSeenRow (by decide) (by decide)).2.2.2⟩

/-! ## The OAuth token hook -/

/-- C14 fails for a call that joins a call in flight: the identity is a user
with a session token, authenticated by an `oauth` provider, and its refresh
fails without cancellation, which is when `RevokeToken` is to be called on its
session token; joining a call in flight that failed, the hook returns
`ErrExpiredAccessToken` wrapping that call's error, but invokes neither the
refresh nor `RevokeToken`, and the row of its session token stays.  The same
call with no call in flight removes the row. -/
theorem C14_coalesced_call_revokes_nothing :
    demoIdentity.ID.IsNamespace .NamespaceUser = true ∧
    demoIdentity.SessionToken = some demoSeenToken ∧
    HasPrefix demoIdentity.AuthenticatedBy "oauth" = true ∧
    demoSync.TryTokenRefresh demoIdentity = some ⟨"invalid_grant", false⟩ ∧
    SyncOauthTokenHook demoSync demoSeen (1700 * Second) demoIdentity
        (some (some ⟨"token endpoint unreachable", false⟩)) =
      { state := demoSeen, events := [],
        err := some (.ErrExpiredAccessToken ⟨"token endpoint unreachable", false⟩) } ∧
    demoSeen.rows = [demoSeenRow] ∧
    SyncOauthTokenHook demoSync demoSeen (1700 * Second) demoIdentity none =
      { state := { demoSeen with rows := [] },
        events := [.refresh demoIdentity, .revoke (some demoSeenToken) false none],
        err := some (.ErrExpiredAccessToken ⟨"invalid_grant", false⟩) } := by
  decide

/-- C14 (amended).  For a call that runs the refresh itself (no call for the
same identity id in flight): the hook returns an error exactly when the
identity is a user, has a session token, is authenticated by an `oauth`
provider and the refresh fails with an error that is not a cancellation; the
error is then `ErrExpiredAccessToken` wrapping the refresh error, and after
the refresh `RevokeToken` is called once, on the session token with
`soft = false`, whatever that call returns; in every other case the hook
returns nil, calls no `RevokeToken` and leaves the store as it was.  A call
that passes the three guards and joins a call in flight invokes neither the
refresh nor `RevokeToken`, leaves the store as it was and returns that call's
outcome: nil, or `ErrExpiredAccessToken` wrapping that call's error.  When one
of the three guards fails the hook returns nil and makes no call at all,
whatever is in flight. -/
theorem C14_hook_outcome (s : OAuthTokenSync) (st : State) (now : Int)
    (identity : Identity) :
    ((SyncOauthTokenHook s st now identity none).err ≠ none ↔
      identity.ID.IsNamespace .NamespaceUser = true ∧ identity.SessionToken ≠ none ∧
      HasPrefix identity.AuthenticatedBy "oauth" = true ∧
      ∃ e : RefreshError, s.TryTokenRefresh identity = some e ∧ e.Canceled = false) ∧
    (∀ e : RefreshError,
      identity.ID.IsNamespace .NamespaceUser = true → identity.SessionToken ≠ none →
      HasPrefix identity.AuthenticatedBy "oauth" = true →
      s.TryTokenRefresh identity = some e → e.Canceled = false →
      SyncOauthTokenHook s st now identity none =
        { state := (RevokeToken s.sessionService st now identity.SessionToken false).1,
          events := [.refresh identity,
            .revoke identity.SessionToken false
              (RevokeToken s.sessionService st now identity.SessionToken false).2],
          err := some (.ErrExpiredAccessToken e) }) ∧
    ((SyncOauthTokenHook s st now identity none).err = none →
      (SyncOauthTokenHook s st now identity none).state = st ∧
      ∀ (t : Option UserToken) (soft : Bool) (res : Option Error),
        HookEvent.revoke t soft res ∉ (SyncOauthTokenHook s st now identity none).events) ∧
    (∀ shared : Option RefreshError,
      identity.ID.IsNamespace .NamespaceUser = true → identity.SessionToken ≠ none →
      HasPrefix identity.AuthenticatedBy "oauth" = true →
      SyncOauthTokenHook s st now identity (some shared) =
        { state := st, events := [],
          err := shared.map HookError.ErrExpiredAccessToken }) ∧
    (∀ inflight : Option (Option RefreshError),
      ¬ (identity.ID.IsNamespace .NamespaceUser = true ∧ identity.SessionToken ≠ none ∧
        HasPrefix identity.AuthenticatedBy "oauth" = true) →
      SyncOauthTokenHook s st now identity inflight =
        { state := st, events := [], err := none }) := by
  unfold SyncOauthTokenHook singleflightDo refreshOrRevoke
  by_cases h1 : identity.ID.IsNamespace .NamespaceUser = true
  · by_cases h2 : identity.SessionToken = none
    · simp [h1, h2]
    · by_cases h3 : HasPrefix identity.AuthenticatedBy "oauth" = true
      · cases hR : s.TryTokenRefresh identity with
        | none =>
          refine ⟨by simp [h1, h2, h3], by simp [h1, h2, h3], by simp [h1, h2, h3], ?_,
            fun _ hn => absurd ⟨h1, h2, h3⟩ hn⟩
          intro shared _ _ _
          cases shared <;> simp [h1, h2, h3]
        | some e =>
          cases hc : e.Canceled with
          | true =>
            refine ⟨by simp [h1, h2, h3, hc], by simp [h1, h2, h3, hc],
              by simp [h1, h2, h3, hc], ?_, fun _ hn => absurd ⟨h1, h2, h3⟩ hn⟩
            intro shared _ _ _
            cases shared <;> simp [h1, h2, h3]
          | false =>
            refine ⟨by simp [h1, h2, h3, hc], by simp [h1, h2, h3, hc],
              by simp [h1, h2, h3, hc], ?_, fun _ hn => absurd ⟨h1, h2, h3⟩ hn⟩
            intro shared _ _ _
            cases shared <;> simp [h1, h2, h3]
      · simp [h1, h2, h3]
  · simp [h1]

/-! ## Time stamps along a history -/

theorem mem_observePrev_times {st1 : State} {now : Int} {model c1 : userAuthToken}
    {hashed : String} (h : c1 ∈ (observePrev st1 now model hashed).rows) :
    c1 ∈ st1.rows ∨ (c1.Id = model.Id ∧ c1.CreatedAt = model.CreatedAt ∧
      c1.RotatedAt = model.RotatedAt) := by
  unfold observePrev at h
  split at h
  · rcases mem_dbUpdateAllCols h with h1 | ⟨r, _, hc, heq⟩
    · exact Or.inl h1
    · simp only [decide_eq_true_eq] at hc
      subst heq
      exact Or.inr ⟨hc.1, rfl, rfl⟩
  · exact Or.inl h

theorem mem_observeCurrent_times {st1 : State} {now : Int} {model c1 : userAuthToken}
    {hashed : String} (h : c1 ∈ (observeCurrent st1 now model hashed).1.rows) :
    c1 ∈ st1.rows ∨ (c1.Id = model.Id ∧ c1.CreatedAt = model.CreatedAt ∧
      c1.RotatedAt = model.RotatedAt) := by
  unfold observeCurrent at h
  split at h
  · rcases mem_dbUpdateAllCols h with h1 | ⟨r, _, hc, heq⟩
    · exact Or.inl h1
    · simp only [decide_eq_true_eq] at hc
      subst heq
      exact Or.inr ⟨hc.1, rfl, rfl⟩
  · exact Or.inl h

theorem mem_observeToken_times {s : UserAuthTokenService} {st1 : State} {now : Int}
    {model c1 : userAuthToken} {hashed raw : String}
    (h : c1 ∈ (observeToken s st1 now model hashed raw).1.rows) :
    c1 ∈ st1.rows ∨ (c1.Id = model.Id ∧ c1.CreatedAt = model.CreatedAt ∧
      c1.RotatedAt = model.RotatedAt) := by
  unfold observeToken at h
  split at h
  · exact Or.inl h
  · split at h
    · exact Or.inl h
    · rcases mem_observeCurrent_times h with h1 | h1
      · exact mem_observePrev_times h1
      · exact Or.inr h1

theorem LookupToken_rows_times {s : UserAuthTokenService} {st : State} {now : Int}
    {raw : String} :
    ∀ c1 ∈ (LookupToken s st now raw).1.rows, c1 ∈ st.rows ∨
      ∃ model : userAuthToken,
        (model ∈ st.rows ∨ ∃ it ∈ st.cache, it.value.userAuthtoken = model) ∧
        c1.Id = model.Id ∧ c1.CreatedAt = model.CreatedAt ∧
        c1.RotatedAt = model.RotatedAt := by
  obtain ⟨st1, res, heq⟩ : ∃ st1 res, lookupCachedToken s st now raw = (st1, res) :=
    ⟨_, _, rfl⟩
  have hst := lookupCachedToken_store s st now raw
  rw [heq] at hst
  cases res with
  | error e =>
    have hL : LookupToken s st now raw = (st1, .error e) := by
      simp only [LookupToken, heq]
    rw [hL]
    intro c1 hc1
    exact Or.inl (hst.1 ▸ hc1)
  | ok p =>
    obtain ⟨model, hashed⟩ := p
    have hL : LookupToken s st now raw = observeToken s st1 now model hashed raw := by
      simp only [LookupToken, heq]
    rw [hL]
    obtain ⟨hrows, hsrc, _⟩ := lookupCachedToken_source heq
    intro c1 hc1
    rcases mem_observeToken_times hc1 with h | h
    · exact Or.inl (hrows ▸ h)
    · exact Or.inr ⟨model, hsrc, h⟩

theorem mem_dbRotate_times {st : State} {userAgent ip hashed : String} {now id : Int}
    {c1 : userAuthToken} (h : c1 ∈ (dbRotate st userAgent ip hashed now id).1.rows) :
    c1 ∈ st.rows ∨ ∃ r ∈ st.rows, r.Id = c1.Id ∧ c1.CreatedAt = r.CreatedAt ∧
      c1.RotatedAt = Unix now := by
  simp only [dbRotate, List.mem_map] at h
  obtain ⟨r, hr, hrc⟩ := h
  by_cases hg : rotateGuard id now r = true
  · simp only [hg, if_true] at hrc
    subst hrc
    exact Or.inr ⟨r, hr, rfl, rfl, rfl⟩
  · simp only [hg, Bool.false_eq_true, if_false] at hrc
    exact Or.inl (hrc ▸ hr)

theorem TryRotateToken_rows_times (s : UserAuthTokenService) (st : State) (now : Int)
    (token : Option UserToken) (clientIP : List Nat) (userAgent : String) :
    ∀ c1 ∈ (TryRotateToken s st now token clientIP userAgent).state.rows,
      c1 ∈ st.rows ∨ ∃ r ∈ st.rows, r.Id = c1.Id ∧ c1.CreatedAt = r.CreatedAt ∧
        c1.RotatedAt = Unix now := by
  cases token with
  | none => exact fun c1 h => Or.inl h
  | some tok =>
    cases hdue : needsRotation s now (userAuthTokenFromUserToken tok) with
    | false =>
      rw [TryRotateToken_not_due s st now tok clientIP userAgent hdue]
      exact fun c1 h => Or.inl h
    | true =>
      cases hR : s.RandomHex st.draws with
      | error e =>
        rw [TryRotateToken_due_error s st now tok clientIP userAgent e hdue hR]
        exact fun c1 h => Or.inl h
      | ok newToken =>
        rw [TryRotateToken_due s st now tok clientIP userAgent newToken hdue hR]
        split
        · exact fun c1 h => mem_dbRotate_times h
        · exact fun c1 h => mem_dbRotate_times h

theorem RevokeToken_soft_rows_times (s : UserAuthTokenService) (st : State) (now : Int)
    (tok : UserToken) :
    ∀ c1 ∈ (RevokeToken s st now (some tok) true).1.rows,
      c1 ∈ st.rows ∨ ∃ r ∈ st.rows, r.Id = c1.Id ∧ r.Id = tok.Id ∧
        c1.CreatedAt = (if tok.CreatedAt = 0 then r.CreatedAt else tok.CreatedAt) ∧
        c1.RotatedAt = (if tok.RotatedAt = 0 then r.RotatedAt else tok.RotatedAt) := by
  intro c1 h
  rcases RevokeToken_soft_state s st now tok with hst | hst
  · rw [hst] at h
    exact Or.inl h
  rw [hst] at h
  simp only [List.mem_map] at h
  obtain ⟨r, hr, hrc⟩ := h
  by_cases hid : r.Id = tok.Id
  · simp only [hid, if_true] at hrc
    subst hrc
    exact Or.inr ⟨r, hr, rfl, hid, rfl, rfl⟩
  · simp only [hid, if_false] at hrc
    exact Or.inl (hrc ▸ hr)
theorem step_RowOrigin (s : UserAuthTokenService) {t t1 : Int} {st : State}
    {hist : List State} (op : Op) (hinv : ClockInv t (st :: hist))
    (hallow : op.allowed (st :: hist)) (ht : t ≤ t1)
    (hclock : ∀ now, op.clock = some now → now = t1) :
    (∀ c ∈ (step s st op).rows, RowOrigin (st :: hist) st t1 (step s st op) c) ∧
    st.nextId ≤ (step s st op).nextId ∧
    (∀ it ∈ (step s st op).cache, it ∈ st.cache ∨ it.value.userAuthtoken ∈ st.rows) := by
  obtain ⟨ha, hb, _, hd⟩ := hinv
  have hmono : Unix t ≤ Unix t1 := Unix_mono ht
  have hst : st ∈ st :: hist := List.mem_cons_self _ _
  -- a row continuing a row of the history
  have hcont : ∀ (st0 : State) (o c : userAuthToken) (st1 : State), st0 ∈ st :: hist →
      o ∈ st0.rows → o.Id = c.Id → o.CreatedAt = c.CreatedAt →
      c.CreatedAt ≤ c.RotatedAt → c.RotatedAt ≤ Unix t1 →
      RowOrigin (st :: hist) st t1 st1 c :=
    fun st0 o c st1 h0 ho h1 h2 h3 h4 => ⟨h3, h4, Or.inl ⟨st0, h0, o, ho, h1, h2⟩⟩
  have hkeep : ∀ (st1 : State), ∀ c ∈ st.rows, RowOrigin (st :: hist) st t1 st1 c := by
    intro st1 c hc
    have := ha st hst c hc
    exact hcont st c c st1 hst hc rfl rfl this.1 (by omega)
  cases op with
  | create now user clientIP userAgent =>
    have hnow : now = t1 := hclock now rfl
    subst hnow
    cases hR : s.RandomHex st.draws with
    | error e =>
      have hE : step s st (.create now user clientIP userAgent) =
          { st with draws := st.draws + 1 } := by
        simp only [step, CreateToken, hR]
      rw [hE]
      exact ⟨fun c hc => hkeep _ c hc, le_refl _, fun it hit => Or.inl hit⟩
    | ok R =>
      have hE : step s st (.create now user clientIP userAgent) =
          (CreateToken s st now user clientIP userAgent).1 := rfl
      rw [hE, CreateToken_ok s st now user clientIP userAgent R hR]
      refine ⟨?_, by simp, fun it hit => Or.inl hit⟩
      intro c hc
      simp only [List.mem_append, List.mem_singleton] at hc
      rcases hc with h | h
      · exact hkeep _ c h
      · subst h
        exact ⟨le_refl _, le_refl _, Or.inr ⟨rfl, rfl, by simp⟩⟩
  | lookup now raw =>
    have hnow : now = t1 := hclock now rfl
    subst hnow
    refine ⟨?_, le_of_eq (LookupToken_ids s st now raw).2.symm,
      (@LookupToken_rows_cache s st now raw).2⟩
    intro c hc
    rcases @LookupToken_rows_times s st now raw c hc with h | ⟨model, hsrc, h1, h2, h3⟩
    · exact hkeep _ c h
    · have hmodel : ∃ stm ∈ st :: hist, model ∈ stm.rows := by
        rcases hsrc with h | ⟨it, hit, hv⟩
        · exact ⟨st, hst, h⟩
        · obtain ⟨stm, hm1, hm2⟩ := hd it hit
          exact ⟨stm, hm1, hv ▸ hm2⟩
      obtain ⟨stm, hm1, hm2⟩ := hmodel
      have := ha stm hm1 model hm2
      exact hcont stm model c _ hm1 hm2 h1.symm h2.symm (by omega) (by omega)
  | rotate now token clientIP userAgent =>
    have hnow : now = t1 := hclock now rfl
    subst hnow
    refine ⟨?_, le_of_eq (TryRotateToken_ids s st now token clientIP userAgent).2.symm,
      fun it hit => Or.inl ?_⟩
    · intro c hc
      rcases TryRotateToken_rows_times s st now token clientIP userAgent c hc
        with h | ⟨r, hr, h1, h2, h3⟩
      · exact hkeep _ c h
      · have := ha st hst r hr
        exact hcont st r c _ hst hr h1 h2.symm (by omega) (by omega)
    · have := (TryRotateToken_rows_cache s st now token clientIP userAgent).2
      exact this ▸ hit
  | revoke now token soft =>
    have hnext := (RevokeToken_ids s st now token soft).2
    cases token with
    | none => exact ⟨fun c hc => hkeep _ c hc, le_refl _, fun it hit => Or.inl hit⟩
    | some tok =>
      cases soft with
      | false =>
        obtain ⟨h1, h2⟩ := RevokeToken_hard_rows_cache s st now tok
        exact ⟨fun c hc => hkeep _ c (h1 c hc), le_of_eq hnext.symm,
          fun it hit => Or.inl (h2 ▸ hit)⟩
      | true =>
        have h2 := (RevokeToken_soft_rows_cache s st now tok).2
        refine ⟨?_, le_of_eq hnext.symm, fun it hit => Or.inl (h2 ▸ hit)⟩
        intro c hc
        rcases RevokeToken_soft_rows_times s st now tok c hc
          with h | ⟨r, hr, hid, hidt, hcr, hro⟩
        · exact hkeep _ c h
        · obtain ⟨st1, hst1, o, ho, hcols⟩ := hallow
          have hoid : o.Id = tok.Id := by
            have := congrArg userAuthToken.Id hcols
            simpa [columns, userAuthTokenFromUserToken] using this.symm
          have hocr : o.CreatedAt = tok.CreatedAt := by
            have := congrArg userAuthToken.CreatedAt hcols
            simpa [columns, userAuthTokenFromUserToken] using this.symm
          have horo : o.RotatedAt = tok.RotatedAt := by
            have := congrArg userAuthToken.RotatedAt hcols
            simpa [columns, userAuthTokenFromUserToken] using this.symm
          have hsame : o.CreatedAt = r.CreatedAt :=
            hb st1 hst1 st hst o ho r hr (hoid.trans hidt.symm)
          have hao := ha st1 hst1 o ho
          have har := ha st hst r hr
          have hc1 : c.CreatedAt = r.CreatedAt := by
            rw [hcr]
            split
            · rfl
            · rw [← hocr, hsame]
          have hc2 : c.RotatedAt = r.RotatedAt ∨ c.RotatedAt = o.RotatedAt := by
            rw [hro]
            split
            · exact Or.inl rfl
            · exact Or.inr horo.symm
          refine hcont st r c _ hst hr hid hc1.symm ?_ ?_
          · rcases hc2 with h | h <;> omega
          · rcases hc2 with h | h <;> omega
  | revokeAll userId =>
    obtain ⟨h1, h2⟩ := RevokeAll_rows_cache st userId
    exact ⟨fun c hc => hkeep _ c (h1 c hc), le_refl _, fun it hit => Or.inl (h2 ▸ hit)⟩
  | batchRevoke userIds =>
    obtain ⟨h1, h2⟩ := BatchRevoke_rows_cache s st userIds
    refine ⟨fun c hc => hkeep _ c (h1 c hc), ?_, fun it hit => Or.inl (h2 ▸ hit)⟩
    simp only [step]
    rcases BatchRevoke_state s st userIds with h | ⟨params, h⟩
    · rw [h]
    · rw [h]

theorem ClockInv_step (s : UserAuthTokenService) {t t1 : Int} {st : State}
    {hist : List State} (op : Op) (hinv : ClockInv t (st :: hist))
    (hallow : op.allowed (st :: hist)) (ht : t ≤ t1)
    (hclock : ∀ now, op.clock = some now → now = t1) :
    ClockInv t1 (step s st op :: st :: hist) := by
  obtain ⟨horg, hnext, hcache⟩ := step_RowOrigin s op hinv hallow ht hclock
  obtain ⟨ha, hb, hc, hd⟩ := hinv
  have hmono : Unix t ≤ Unix t1 := Unix_mono ht
  refine ⟨?_, ?_, ?_, ?_⟩
  · intro st1 hst1 c hcm
    rcases List.mem_cons.1 hst1 with h | h
    · subst h
      exact ⟨(horg c hcm).1, (horg c hcm).2.1⟩
    · have := ha st1 h c hcm
      exact ⟨this.1, by omega⟩
  · -- rows of the same id have the same `created_at`
    have hnewold : ∀ c1 ∈ (step s st op).rows, ∀ st2 ∈ st :: hist, ∀ c2 ∈ st2.rows,
        c1.Id = c2.Id → c1.CreatedAt = c2.CreatedAt := by
      intro c1 hc1 st2 hst2 c2 hc2 hid
      rcases (horg c1 hc1).2.2 with ⟨st0, h0, o, ho, h1, h2⟩ | ⟨h1, _, _⟩
      · rw [← h2]
        exact hb st0 h0 st2 hst2 o ho c2 hc2 (h1.trans hid)
      · have := hc st2 hst2 c2 hc2
        omega
    intro st1 hst1 st2 hst2 c1 hc1 c2 hc2 hid
    rcases List.mem_cons.1 hst1 with h1 | h1 <;> rcases List.mem_cons.1 hst2 with h2 | h2
    · subst h1 h2
      rcases (horg c1 hc1).2.2 with ⟨st0, h0, o, ho, ho1, ho2⟩ | ⟨hn1, hn2, _⟩
      · rw [← ho2]
        exact (hnewold c2 hc2 st0 h0 o ho (hid.symm.trans ho1.symm)).symm
      · rcases (horg c2 hc2).2.2 with ⟨st0, h0, o, ho, ho1, ho2⟩ | ⟨hm1, hm2, _⟩
        · have := hc st0 h0 o ho
          omega
        · rw [hn2, hm2]
    · subst h1
      exact hnewold c1 hc1 st2 h2 c2 hc2 hid
    · subst h2
      exact (hnewold c2 hc2 st1 h1 c1 hc1 hid.symm).symm
    · exact hb st1 h1 st2 h2 c1 hc1 c2 hc2 hid
  · intro st1 hst1 c hcm
    rcases List.mem_cons.1 hst1 with h | h
    · subst h
      rcases (horg c hcm).2.2 with ⟨st0, h0, o, ho, ho1, _⟩ | ⟨hn1, _, hn3⟩
      · have := hc st0 h0 o ho
        omega
      · omega
    · have := hc st1 h c hcm
      omega
  · intro it hit
    rcases hcache it hit with h | h
    · obtain ⟨st1, h1, h2⟩ := hd it h
      exact ⟨st1, List.mem_cons_of_mem _ h1, h2⟩
    · exact ⟨st, List.mem_cons_of_mem _ (List.mem_cons_self _ _), h⟩

theorem ReachableAt_ClockInv (s : UserAuthTokenService) {t : Int} {H : List State}
    (h : ReachableAt s t H) : ClockInv t H := by
  induction h with
  | init t0 =>
    refine ⟨?_, ?_, ?_, ?_⟩
    · intro st1 hst1 c hc
      simp only [List.mem_singleton] at hst1
      subst hst1
      cases hc
    · intro st1 hst1 st2 _ c1 hc1
      simp only [List.mem_singleton] at hst1
      subst hst1
      cases hc1
    · intro st1 hst1 c hc
      simp only [List.mem_singleton] at hst1
      subst hst1
      cases hc
    · intro it hit
      cases hit
  | step op t1 _ hallow ht hclock ih => exact ClockInv_step s op ih hallow ht hclock

/-- The time stamps while soft revokes are called with issued tokens: in
every history that the operations produce from the empty store under a
non-decreasing clock, every stored row has `created_at <= rotated_at <= now`,
in seconds, `now` being the clock value at the end of the history; the rows
that `LookupToken` writes back from a cached snapshot, however old, are among
them. -/
theorem time_stamp_invariant_of_issued (s : UserAuthTokenService) (t : Int) (st : State)
    (hist : List State) (hreach : ReachableAt s t (st :: hist)) :
    ∀ r ∈ st.rows, r.CreatedAt ≤ r.RotatedAt ∧ r.RotatedAt ≤ Unix t :=
  fun r hr => (ReachableAt_ClockInv s hreach).1 st (List.mem_cons_self _ _) r hr
/-- The time stamps along the history of a lookup served from the cache. -/
theorem time_stamp_invariant_of_issued_demo :
    ReachableAt demoService (1010 * Second)
      [run demoService State.empty cachedTwiceOps, run demoService State.empty cachedOps,
       demoCreated, State.empty] ∧
    (run demoService State.empty cachedTwiceOps).rows =
      [{ demoRow with AuthTokenSeen := true, SeenAt := 1010 }] ∧
    ∀ r ∈ (run demoService State.empty cachedTwiceOps).rows,
      r.CreatedAt ≤ r.RotatedAt ∧ r.RotatedAt ≤ Unix (1010 * Second) :=
  have hreach : ReachableAt demoService (1010 * Second)
      [run demoService State.empty cachedTwiceOps, run demoService State.empty cachedOps,
       demoCreated, State.empty] := by
    have h1 : step demoService State.empty
        (.create (1000 * Second) ⟨42⟩ [10, 0, 0, 1] "ua-a") = demoCreated := by rfl
    have h2 : step demoService demoCreated (.lookup (1000 * Second) "r0") =
        run demoService State.empty cachedOps := by rfl
    have h3 : step demoService (run demoService State.empty cachedOps)
        (.lookup (1010 * Second) "r0") = run demoService State.empty cachedTwiceOps := by rfl
    rw [← h3, ← h2, ← h1]
    exact ReachableAt.step _ (1010 * Second)
      (ReachableAt.step _ (1000 * Second)
        (ReachableAt.step _ (1000 * Second) (ReachableAt.init (1000 * Second)) trivial
          (by decide) (fun now h => by injection h with h; exact h.symm))
        trivial (by decide) (fun now h => by injection h with h; exact h.symm))
      trivial (by decide) (fun now h => by injection h with h; exact h.symm)
  ⟨hreach, by decide,
   time_stamp_invariant_of_issued demoService (1010 * Second)
     (run demoService State.empty cachedTwiceOps)
     [run demoService State.empty cachedOps, demoCreated, State.empty] hreach⟩

/-- C11: the soft path of `RevokeToken` breaks the invariant.  The row of user
42 is created at second 1000; `RevokeToken` with `soft = true` at second 1001,
called with a token that names the row by its id 1 and carries
`created_at = 5000` and `rotated_at = 10`, returns nil and writes both values
into the row next to `revoked_at = 1001`: the stored row then has
`created_at > rotated_at` and `created_at > now`. -/
theorem C11_soft_revoke_writes_caller_time_stamps :
    (run demoService State.empty [.create (1000 * Second) ⟨42⟩ [10, 0, 0, 1] "ua-a"]).rows.map
      (fun r => (r.Id, r.CreatedAt, r.RotatedAt, r.RevokedAt)) = [(1, 1000, 1000, 0)] ∧
    (RevokeToken demoService demoCreated (1001 * Second) (some fabricatedToken) true).2 =
      none ∧
    (run demoService State.empty fabricatedOps).rows.map
      (fun r => (r.Id, r.CreatedAt, r.RotatedAt, r.RevokedAt)) = [(1, 5000, 10, 1001)] ∧
    ¬ (∀ r ∈ (run demoService State.empty fabricatedOps).rows,
        r.CreatedAt ≤ r.RotatedAt ∧ r.RotatedAt ≤ Unix (1001 * Second)) := by
  decide

/-! ## The previous slot along a history -/

/-- Every state of a history that the operations produce is well-formed. -/
theorem Reachable_WellFormed (s : UserAuthTokenService) {H : List State}
    (h : Reachable s H) : ∀ st ∈ H, WellFormed st := by
  induction h with
  | init =>
    intro st hst
    simp only [List.mem_singleton] at hst
    subst hst
    exact ⟨List.nodup_nil, fun r hr => by cases hr⟩
  | step op _ _ ih =>
    intro st1 hst1
    rcases List.mem_cons.1 hst1 with h1 | h1
    · subst h1
      exact WellFormed_step s _ op (ih _ (List.mem_cons_self _ _))
    · exact ih st1 h1

theorem dbRotate_affected_exists {st : State} {userAgent ip hashed : String} {now id : Int}
    (h : (dbRotate st userAgent ip hashed now id).2 > 0) :
    ∃ r ∈ st.rows, rotateGuard id now r = true := by
  unfold dbRotate at h
  simp only at h
  have hpos : 0 < (st.rows.filter (rotateGuard id now)).length := by omega
  obtain ⟨r, hr⟩ := List.exists_mem_of_length_pos hpos
  exact ⟨r, (List.mem_filter.1 hr).1, (List.mem_filter.1 hr).2⟩

/-- C10 (amended): in every history that the operations produce from the empty
store, soft revokes being called with issued tokens, a created row has
`prev_auth_token = auth_token`; every stored row's `prev_auth_token` equals
its current `auth_token` or the `auth_token` that the row of the same id held
in an earlier state of the history; and a rotation replaces exactly the row of
the token's id, by a row whose `prev_auth_token` is the `auth_token` held
immediately before the rotation if that token had been observed
(`auth_token_seen = true`), and the `prev_auth_token` held before the rotation
if not. -/
theorem C10_prev_slot_invariant (s : UserAuthTokenService) (st : State) (hist : List State)
    (hreach : Reachable s (st :: hist)) :
    (∀ (now : Int) (user : User) (clientIP : List Nat) (userAgent : String) (tok : UserToken),
      (CreateToken s st now user clientIP userAgent).2 = .ok tok →
      ∃ row : userAuthToken,
        (CreateToken s st now user clientIP userAgent).1.rows = st.rows ++ [row] ∧
        row.PrevAuthToken = row.AuthToken) ∧
    (∀ r ∈ st.rows, r.PrevAuthToken = r.AuthToken ∨
      ∃ st1 ∈ hist, ∃ r1 ∈ st1.rows, r1.Id = r.Id ∧ r1.AuthToken = r.PrevAuthToken) ∧
    (∀ (now : Int) (tok : UserToken) (clientIP : List Nat) (userAgent : String),
      (TryRotateToken s st now (some tok) clientIP userAgent).rotated = true →
      ∃ r ∈ st.rows, r.Id = tok.Id ∧ ∃ r1 : userAuthToken,
        (TryRotateToken s st now (some tok) clientIP userAgent).state.rows =
          replaceRow st.rows r.Id r1 ∧
        r1.Id = r.Id ∧
        r1.PrevAuthToken =
          (if r.AuthTokenSeen = true then r.AuthToken else r.PrevAuthToken)) := by
  refine ⟨?_, ?_, ?_⟩
  · intro now user clientIP userAgent tok hok
    obtain ⟨R, hR⟩ := CreateToken_ok_inv s st now user clientIP userAgent tok hok
    rw [CreateToken_ok s st now user clientIP userAgent R hR]
    exact ⟨_, rfl, rfl⟩
  · intro r hr
    exact (Reachable_HistoryInv s hreach).1 st (List.mem_cons_self _ _) r hr
  · intro now tok clientIP userAgent hrot
    have hwf : WellFormed st := Reachable_WellFormed s hreach st (List.mem_cons_self _ _)
    obtain ⟨_, newToken, _, haff⟩ :=
      TryRotateToken_rotated_inv s st now tok clientIP userAgent hrot
    obtain ⟨r, hr, hg⟩ := dbRotate_affected_exists haff
    have hid : tok.Id = r.Id := (rotateGuard_id hg).symm
    obtain ⟨newToken2, _, _, heq⟩ :=
      TryRotateToken_won s st now tok clientIP userAgent r hwf hr hid hrot
    refine ⟨r, hr, hid.symm,
      rotateRow userAgent (clientIPStr s clientIP) (hashToken s newToken2) (Unix now) r,
      ?_, rfl, rfl⟩
    rw [heq]

/-- C10 (amended) at the history of the two chained rotations: the previous
slot of the row is the token of creation, and the second rotation, of a token
never observed, left it there. -/
theorem C10_prev_slot_invariant_witness :
    Reachable demoService
      [run demoService State.empty chainedOps, run demoService State.empty unseenOps,
       demoCreated, State.empty] ∧
    (demoChainedRow.PrevAuthToken = demoChainedRow.AuthToken ∨
      ∃ st1 ∈ [run demoService State.empty unseenOps, demoCreated, State.empty],
        ∃ r1 ∈ st1.rows, r1.Id = demoChainedRow.Id ∧
          r1.AuthToken = demoChainedRow.PrevAuthToken) :=
  have hreach : Reachable demoService
      [run demoService State.empty chainedOps, run demoService State.empty unseenOps,
       demoCreated, State.empty] := by
    have h1 : step demoService State.empty
        (.create (1000 * Second) ⟨42⟩ [10, 0, 0, 1] "ua-a") = demoCreated := by rfl
    have h2 : step demoService demoCreated
        (.rotate (1070 * Second) (some demoToken) [10, 0, 0, 1] "ua-a") =
        run demoService State.empty unseenOps := by rfl
    have h3 : step demoService (run demoService State.empty unseenOps)
        (.rotate (1140 * Second) (some demoRotatedToken) [10, 0, 0, 1] "ua-b") =
        run demoService State.empty chainedOps := by rfl
    rw [← h3, ← h2, ← h1]
    exact Reachable.step _ (Reachable.step _ (Reachable.step _ Reachable.init trivial)
      trivial) trivial
  ⟨hreach,
   (C10_prev_slot_invariant demoService (run demoService State.empty chainedOps)
      [run demoService State.empty unseenOps, demoCreated, State.empty] hreach).2.1
      demoChainedRow (by decide)⟩

end auth
